import Mathlib

/-!
Harmonic Garden: a shallow embedding of `cmd/harmonic-garden/main.go`

The simulation state, the per-tick update and the layered cell canvas of the
program are transcribed as Lean definitions, and the statements of the
specification are proved about them.

Modelling conventions.

* `float64` values are rationals (`ℚ`): every finite `float64` is a rational
  number, comparisons and `clamp` are exact, `NaN` and the infinities are not
  represented. Arithmetic is exact, except in the value noise (`fade`, `lerp`,
  `perlin2`), where every operation rounds to `float64` (`round64`) because
  the range of the noise depends on the last bits.
* `int` values are integers (`Int`); the 64-bit wrap-around is applied
  explicitly where the program relies on it (`hash2`).
* The transcendental functions of package `math` and the spring of package
  `harmonica` are not part of the repository; they are fields of `Env`, and
  every theorem holds for all of them unless it says otherwise.
* Pointers (`*follower`, `*seed`, `*rand.Rand`) become values that are
  passed and returned explicitly; a run-time panic (index out of range) is
  the result `none`.
-/

namespace HarmonicGarden

/-! ## Constants -/

def fps : Int := 60
def deltaTime : ℚ := 1 / 60
def maxTrail : Nat := 42
def maxFollowers : Nat := 30
def initialFollowers : Nat := 9
def minDamping : ℚ := 2 / 100
def maxDamping : ℚ := 32 / 10
def minFrequency : ℚ := 1
def maxFrequency : ℚ := 14
def statusLines : Int := 6

/-! ## Numeric helpers of the Go runtime and of package `math` -/

/-- The conversion `int(v)` of a float: truncation toward zero. -/
def toInt (v : ℚ) : Int := if 0 ≤ v then ⌊v⌋ else -⌊-v⌋

/-- The function `math.Round` followed by `int(...)`: nearest integer,
halves away from zero. -/
def roundInt (v : ℚ) : Int := if 0 ≤ v then ⌊v + 1 / 2⌋ else -⌊-v + 1 / 2⌋

/-- The function `math.Floor` followed by `int(...)`. A floor outside the
64-bit range converts to `-2^63`, the result on amd64 (Go leaves the value to
the implementation). -/
def floorInt (v : ℚ) : Int := if -2 ^ 63 ≤ ⌊v⌋ ∧ ⌊v⌋ < 2 ^ 63 then ⌊v⌋ else -2 ^ 63

/-- Halves `n` until it is below 2, at most `fuel` times, and counts. -/
def log2Aux : Nat → Nat → Nat
  | 0, _ => 0
  | fuel + 1, n => if n < 2 then 0 else log2Aux fuel (n / 2) + 1

/-- The position of the leading bit of `n`: the floor of its binary
logarithm (0 for `n = 0`). -/
def ilog2 (n : Nat) : Nat := log2Aux n n

/-- The power `2^e` for an integer exponent. -/
def pow2 (e : Int) : ℚ := if 0 ≤ e then (2 : ℚ) ^ e.toNat else 1 / (2 : ℚ) ^ (-e).toNat

/-- Rounding of an exact result to `float64`: the nearest number with a 53-bit
significand and an exponent of at least -1022, ties going to the even
significand. Results beyond the largest `float64` are not turned into an
infinity. The embedding computes in exact rationals; it rounds where a claim
is about the last bits of a result, which is the value noise. -/
def round64 (q : ℚ) : ℚ :=
  if q = 0 then 0
  else
    let a := |q|
    let e0 : Int := (ilog2 a.num.natAbs : Int) - (ilog2 a.den : Int)
    let e : Int := if a < pow2 e0 then e0 - 1 else e0
    let e : Int := if e < -1022 then -1022 else e
    let ulp := pow2 (e - 52)
    let s := a / ulp
    let m : Int := ⌊s⌋
    let r := s - (m : ℚ)
    let m : Int :=
      if r < 1 / 2 then m else if r > 1 / 2 then m + 1 else if m % 2 = 0 then m else m + 1
    (if q < 0 then -1 else 1) * (m : ℚ) * ulp

/-- The function `math.Mod`: the remainder has the sign of `x`. -/
def fmod (x y : ℚ) : ℚ := x - y * (toInt (x / y) : ℚ)

/-- The functions of package `math` that have no rational closed form, and
the spring of package `harmonica`. -/
structure Env where
  sin : ℚ → ℚ
  cos : ℚ → ℚ
  pow : ℚ → ℚ → ℚ
  sqrt : ℚ → ℚ
  atan2 : ℚ → ℚ → ℚ
  springUpdate : ℚ → ℚ → ℚ → ℚ → ℚ → ℚ → ℚ × ℚ

/-- The constant `math.Pi`, the `float64` nearest to π. -/
def mathPi : ℚ := 884279719003555 / 281474976710656

/-- The generator `*rand.Rand`: the stream of values `Float64()` returns and
the number of values already drawn. -/
structure Rng where
  draws : Nat → ℚ
  pos : Nat

/-- The call `rng.Float64()`. -/
def Rng.Float64 (r : Rng) : ℚ × Rng := (r.draws r.pos, { r with pos := r.pos + 1 })

def clamp (value min max : ℚ) : ℚ :=
  if value < min then min
  else if value > max then max
  else value

def imax (a b : Int) : Int := if a > b then a else b

def imin (a b : Int) : Int := if a < b then a else b

/-! ## Data model -/

inductive autopScene where
  | sceneOrbit | sceneRose | sceneCascade | scenePulse | sceneWander
  deriving DecidableEq, Repr

inductive formationMode where
  | formationHalo | formationRibbon | formationBloom | formationHelix
  deriving DecidableEq, Repr

structure vector where
  x : ℚ
  y : ℚ
  deriving DecidableEq, Repr

structure cell where
  ch : Char
  fg : String
  bg : String
  bold : Bool
  priority : Int
  deriving DecidableEq, Repr

/-- The value fields of `moodTheme`, everything but the shader. -/
structure moodBase where
  name : String
  description : String
  palette : List String
  background : String
  accent : String
  wispGlyphs : List Char
  trailGlyphs : List Char
  seedGlyph : Char
  seedInterval : ℚ

/-- The type `shaderFunc`. The theme handed to a shader is read through its
value fields only, so the embedding passes those. -/
def shaderFunc : Type := ℚ → ℚ → ℚ → Int → Int → moodBase → Char × String × String

/-- The struct `moodTheme`; a nil shader is `none`. -/
structure moodTheme extends moodBase where
  shader : Option shaderFunc

/-- The type `harmonica.Spring`, opaque to the program: recorded as the three
arguments `NewSpring` was given. -/
structure Spring where
  deltaTime : ℚ
  angularFrequency : ℚ
  dampingRatio : ℚ
  deriving DecidableEq, Repr

/-- Modelled from the spec: `harmonica.FPS(n)`, the fixed timestep of `n`
ticks per second. -/
def harmonicaFPS (n : Int) : ℚ := 1 / (n : ℚ)

def NewSpring (dt freq damping : ℚ) : Spring :=
  { deltaTime := dt, angularFrequency := freq, dampingRatio := damping }

/-- The method `Spring.Update`, delegated to the environment. -/
def Spring.Update (E : Env) (s : Spring) (pos vel target : ℚ) : ℚ × ℚ :=
  E.springUpdate s.deltaTime s.angularFrequency s.dampingRatio pos vel target

/-- The type `harmonica.Projectile` (the two coordinates the program reads). -/
structure Projectile where
  pos : vector
  vel : vector
  acc : vector
  deltaTime : ℚ
  deriving DecidableEq, Repr

def NewProjectile (dt : ℚ) (start vel acc : vector) : Projectile :=
  { pos := start, vel := vel, acc := acc, deltaTime := dt }

/-- Modelled from the spec: `Projectile.Update` of package `harmonica`,
"position integrates velocity, velocity integrates a fixed gravity-like
acceleration, each tick at the fixed timestep". The new position is the
returned point. -/
def Projectile.Update (p : Projectile) : Projectile :=
  { p with
    pos := { x := p.pos.x + p.vel.x * p.deltaTime, y := p.pos.y + p.vel.y * p.deltaTime }
    vel := { x := p.vel.x + p.acc.x * p.deltaTime, y := p.vel.y + p.acc.y * p.deltaTime } }

structure follower where
  order : Int
  pos : vector
  vel : vector
  phase : ℚ
  speed : ℚ
  radius : ℚ
  offsetSeed : ℚ
  paletteSeed : ℚ
  trace : List vector
  springX : Spring
  springY : Spring
  deriving DecidableEq, Repr

structure seed where
  projector : Projectile
  pos : vector
  life : ℚ
  ttl : ℚ
  color : String
  glyph : Char
  deriving DecidableEq, Repr

/-! ## Colour gradient engine -/

/-- Value of one hexadecimal digit as the verb `x` of `fmt.Sscanf` reads it. -/
def hexDigit (c : Char) : Option Nat :=
  if '0' ≤ c ∧ c ≤ '9' then some (c.toNat - '0'.toNat)
  else if 'a' ≤ c ∧ c ≤ 'f' then some (c.toNat - 'a'.toNat + 10)
  else if 'A' ≤ c ∧ c ≤ 'F' then some (c.toNat - 'A'.toNat + 10)
  else none

/-- One field `%02x` of `fmt.Sscanf`: at most two characters, an optional
sign followed by hexadecimal digits. The result is the value and the rest of
the input, or `none` when no digit can be read. Leading white space, which
`Sscanf` would skip, is read as a failure. -/
def scanHex2 : List Char → Option (Int × List Char)
  | [] => none
  | c :: rest =>
    if c = '+' ∨ c = '-' then
      match rest with
      | [] => none
      | d :: rest2 =>
        match hexDigit d with
        | none => none
        | some v => some (if c = '-' then -(v : Int) else (v : Int), rest2)
    else
      match hexDigit c with
      | none => none
      | some v =>
        match rest with
        | [] => some ((v : Int), [])
        | d :: rest2 =>
          match hexDigit d with
          | none => some ((v : Int), rest)
          | some w => some ((16 * v + w : Nat), rest2)

/-- The call `fmt.Sscanf(hex, "#%02x%02x%02x", &r, &g, &b)` with its error
ignored: a variable whose field cannot be read keeps the value 0, and so do
the variables after it. -/
def hexToRGB (hex : String) : Int × Int × Int :=
  match hex.toList with
  | '#' :: s0 =>
    match scanHex2 s0 with
    | none => (0, 0, 0)
    | some (r, s1) =>
      match scanHex2 s1 with
      | none => (r, 0, 0)
      | some (g, s2) =>
        match scanHex2 s2 with
        | none => (r, g, 0)
        | some (b, _) => (r, g, b)
  | _ => (0, 0, 0)

/-- The verb `%02X` of `fmt.Sprintf`: upper-case hexadecimal, zero-padded to
width two, the sign of a negative number counting toward the width. -/
def fmtHex02 (n : Int) : List Char :=
  let digits := (Nat.toDigits 16 n.natAbs).map Char.toUpper
  if n < 0 then '-' :: digits
  else if digits.length < 2 then '0' :: digits
  else digits

def blendHex (a b : String) (t : ℚ) : String :=
  let (r1, g1, b1) := hexToRGB a
  let (r2, g2, b2) := hexToRGB b
  let mix := fun (v1 v2 : Int) => roundInt ((v1 : ℚ) + ((v2 : ℚ) - (v1 : ℚ)) * t)
  String.mk ('#' :: (fmtHex02 (mix r1 r2) ++ fmtHex02 (mix g1 g2) ++ fmtHex02 (mix b1 b2)))

/-- The slice read `palette[i]`; the index is in range at both reads of
`colorAt`, the empty string stands for the other case. -/
def stopAt (palette : List String) (i : Int) : String :=
  if 0 ≤ i then palette.getD i.toNat "" else ""

def moodBase.colorAt (m : moodBase) (t : ℚ) : String :=
  if m.palette.length = 0 then "#FFFFFF"
  else if m.palette.length = 1 then stopAt m.palette 0
  else
    let t := clamp t 0 (9999 / 10000)
    let scaled := t * (((m.palette.length : Int) - 1 : Int) : ℚ)
    let idx := toInt scaled
    let frac := scaled - (idx : ℚ)
    blendHex (stopAt m.palette idx) (stopAt m.palette (idx + 1)) frac

/-! ## Value noise -/

/-- Two's-complement wrap-around of 64-bit `int` arithmetic. -/
def wrap64 (z : Int) : Int := (z + 2 ^ 63) % 2 ^ 64 - 2 ^ 63

def hash2 (x y : Int) : ℚ :=
  let n := wrap64 (wrap64 (x * 374761393) + wrap64 (y * 668265263))
  let n := wrap64 ((Int.xor n (n >>> 13)) * 1274126177)
  let n := Int.xor n (n >>> 16)
  ((Int.tmod n 1024 : Int) : ℚ) / 512 - 1

/-- The polynomial `t * t * t * (t*(t*6-15) + 10)`, every operation rounded
to `float64` in the order Go evaluates it. -/
def fade (t : ℚ) : ℚ :=
  round64 (round64 (round64 (t * t) * t) *
    round64 (round64 (t * round64 (round64 (t * 6) - 15)) + 10))

/-- The interpolation `a + (b-a)*t`, every operation rounded to `float64`. -/
def lerp (a b t : ℚ) : ℚ := round64 (a + round64 (round64 (b - a) * t))

/-- The value noise. Its arguments are `float64` values; the conversions
`float64(xi)` and the subtractions round, as do `fade` and `lerp`. -/
def perlin2 (x y : ℚ) : ℚ :=
  let xi := floorInt x
  let yi := floorInt y
  let xf := round64 (x - round64 (xi : ℚ))
  let yf := round64 (y - round64 (yi : ℚ))
  let topRight := hash2 (xi + 1) (yi + 1)
  let topLeft := hash2 xi (yi + 1)
  let bottomRight := hash2 (xi + 1) yi
  let bottomLeft := hash2 xi yi
  let u := fade xf
  let v := fade yf
  let lerpTop := lerp topLeft topRight u
  let lerpBottom := lerp bottomLeft bottomRight u
  lerp lerpBottom lerpTop v

/-! ## Static catalogues -/

def tieDyeShader (E : Env) : shaderFunc := fun x y t width height theme =>
  if width = 0 ∨ height = 0 then (Char.ofNat 0, "", "")
  else
    let cx := ((width - 1 : Int) : ℚ) / 2
    let cy := ((height - 1 : Int) : ℚ) / 2
    let dx := (x - cx) / (width : ℚ)
    let dy := (y - cy) / (height : ℚ)
    let radius := E.sqrt (dx * dx + dy * dy)
    let angle := E.atan2 dy dx
    let swirl := radius * 18 + angle * 6 - t * (14 / 10)
    let wave := (E.sin swirl + 1) / 2
    let petals := E.sin (angle * 8 + t * (9 / 10))
    let mix := fmod (wave * (7 / 10) + radius * (5 / 10) + petals * (2 / 10)) 1
    let mix := if mix < 0 then mix + 1 else mix
    let fg := theme.colorAt mix
    let bgMix := clamp (wave * (6 / 10) + 2 / 10) 0 1
    let bg := blendHex fg theme.background (1 - bgMix)
    let glyph :=
      if theme.wispGlyphs.length > 0 then
        let idx := toInt (fmod (|petals| * (theme.wispGlyphs.length : ℚ)) (theme.wispGlyphs.length : ℚ))
        theme.wispGlyphs.getD idx.toNat (Char.ofNat 0)
      else Char.ofNat 0
    let glyph := if glyph = Char.ofNat 0 then '~' else glyph
    (glyph, fg, bg)

def moods (E : Env) : List moodTheme :=
  [ { name := "Aurora Bloom"
      description := "Iridescent dusk fields and electric petals"
      palette := ["#3E1F65", "#5C3C99", "#8D73FF", "#FF8BD5", "#FFE8A3"]
      background := "#0B0618"
      accent := "#FFD8FD"
      wispGlyphs := [' ', ' ', '.', Char.ofNat 96, '^']
      trailGlyphs := ['.', '*', '+', 'o']
      seedGlyph := '*'
      seedInterval := 28 / 100
      shader := none },
    { name := "Cosmic Tie-Dye"
      description := "Sunburst ripples and peace-wave whorls"
      palette := ["#321040", "#7E1978", "#F54BA1", "#FFB94F", "#FFEFA9"]
      background := "#150713"
      accent := "#FFEFD2"
      wispGlyphs := ['~', '-', '.', '=', '*']
      trailGlyphs := ['.', '*', 'o', '+']
      seedGlyph := '~'
      seedInterval := 26 / 100
      shader := some (tieDyeShader E) },
    { name := "Solar Garden"
      description := "Heat shimmer blooms and molten ribbons"
      palette := ["#251605", "#813D0B", "#D66B02", "#FFAF45", "#F9F871"]
      background := "#120701"
      accent := "#FFE9B0"
      wispGlyphs := [' ', '.', ',', Char.ofNat 96, '"']
      trailGlyphs := ['.', '+', '*', 'x']
      seedGlyph := '+'
      seedInterval := 35 / 100
      shader := none },
    { name := "Deep Current"
      description := "Bioluminescent swirls in tidal night"
      palette := ["#010D1B", "#014F86", "#0DA5C0", "#7EF2FF", "#F8FFF6"]
      background := "#000407"
      accent := "#B4F1FF"
      wispGlyphs := [' ', '.', Char.ofNat 96, '~']
      trailGlyphs := ['.', ':', '*', 'o']
      seedGlyph := '*'
      seedInterval := 24 / 100
      shader := none } ]

def scenes : List autopScene :=
  [.sceneOrbit, .sceneRose, .sceneCascade, .scenePulse, .sceneWander]

def formations : List formationMode :=
  [.formationHalo, .formationRibbon, .formationBloom, .formationHelix]

/-! ## The model and its messages -/

/-- The commands `Update` returns: nil, the next `tick()`, or `tea.Quit`. -/
inductive Cmd where
  | nil | tick | quit
  deriving DecidableEq, Repr

/-- The messages `Update` distinguishes. A key message is the string
`msg.String()` that `key.Matches` compares with the bindings. -/
inductive Msg where
  | WindowSizeMsg (Width Height : Int)
  | KeyMsg (key : String)
  | frameMsg
  | other

/-- The struct `model` without its display helpers (`keys`, `help`,
`styleCache`). `sceneIndex` and `moodIndex` index the catalogues `scenes` and
`moods`; the program only ever assigns them `(i + 1) % len`, so they carry
their range in the type. -/
structure model where
  width : Int
  height : Int
  canvasWidth : Int
  canvasHeight : Int
  ready : Bool
  autop : Bool
  sceneIndex : Fin 5
  formation : formationMode
  moodIndex : Fin 4
  freq : ℚ
  damping : ℚ
  t : ℚ
  target : vector
  followers : List follower
  seeds : List seed
  seedTimer : ℚ
  rng : Rng
  showHelp : Bool

def newModel (rng : Rng) : model :=
  { width := 0, height := 0, canvasWidth := 0, canvasHeight := 0
    ready := false
    autop := true
    sceneIndex := 0
    formation := .formationHalo
    moodIndex := 0
    freq := 72 / 10
    damping := 22 / 100
    t := 0
    target := ⟨0, 0⟩
    followers := []
    seeds := []
    seedTimer := 0
    rng := rng
    showHelp := false }

def keysQuit : List String := ["ctrl+c", "q"]
def keysToggleMode : List String := ["space"]
def keysCycleScene : List String := ["tab"]
def keysCycleFormation : List String := ["f"]
def keysCycleMood : List String := ["m"]
def keysAddFollower : List String := ["+", "=", "a"]
def keysRemoveFollower : List String := ["-", "_", "d"]
def keysIncreaseFreq : List String := ["'", "]"]
def keysDecreaseFreq : List String := [";", "["]
def keysIncreaseDamping : List String := [".", ">"]
def keysDecreaseDamping : List String := [",", "<"]
def keysMoveNorth : List String := ["up", "k"]
def keysMoveSouth : List String := ["down", "j"]
def keysMoveWest : List String := ["left", "h"]
def keysMoveEast : List String := ["right", "l"]
def keysToggleHelp : List String := ["?", "/"]

def indexOfFormation (f : formationMode) : Nat :=
  match formations.indexOf? f with
  | some i => i
  | none => 0

def model.clampTarget (m : model) : model :=
  if m.canvasWidth ≤ 0 ∨ m.canvasHeight ≤ 0 then m
  else
    let m := if m.target.x < 0 then { m with target := { m.target with x := 0 } } else m
    let m := if m.target.x > ((m.canvasWidth - 1 : Int) : ℚ) then
      { m with target := { m.target with x := ((m.canvasWidth - 1 : Int) : ℚ) } } else m
    let m := if m.target.y < 0 then { m with target := { m.target with y := 0 } } else m
    let m := if m.target.y > ((m.canvasHeight - 1 : Int) : ℚ) then
      { m with target := { m.target with y := ((m.canvasHeight - 1 : Int) : ℚ) } } else m
    m

def model.manualTarget (m : model) (dx dy : ℚ) : model :=
  let m := { m with autop := false }
  let m := { m with target := { m.target with x := m.target.x + dx } }
  let m := { m with target := { m.target with y := m.target.y + dy } }
  m.clampTarget

def model.recomputeCanvas (m : model) : model :=
  if m.width ≤ 0 ∨ m.height ≤ 0 then m
  else
    let m := { m with canvasWidth := m.width }
    let m := { m with canvasHeight := m.height - statusLines }
    let m := if m.canvasHeight < 10 then { m with canvasHeight := imax (m.height - 2) 3 } else m
    m.clampTarget

def model.currentMood (E : Env) (m : model) : moodTheme :=
  (moods E).get ⟨m.moodIndex.val, m.moodIndex.isLt⟩

def model.updateTarget (E : Env) (m : model) : model :=
  if m.canvasWidth = 0 ∨ m.canvasHeight = 0 then m
  else
    let scene := scenes.get ⟨m.sceneIndex.val, m.sceneIndex.isLt⟩
    let w : ℚ := (m.canvasWidth : ℚ)
    let h : ℚ := (m.canvasHeight : ℚ)
    let cx := w / 2
    let cy := h / 2
    let m :=
      match scene with
      | .sceneOrbit =>
        let a := w * (35 / 100)
        let b := h * (28 / 100)
        let speed : ℚ := 55 / 100
        { m with target :=
            { x := cx + E.cos (m.t * speed) * a + E.cos (m.t * (9 / 10)) * w * (5 / 100)
              y := cy + E.sin (m.t * speed * (12 / 10)) * b + E.sin (m.t * (77 / 100)) * h * (4 / 100) } }
      | .sceneRose =>
        let k : ℚ := 5
        let theta := m.t * (8 / 10)
        let radius := (4 / 10 + (15 / 100) * E.sin (m.t * (6 / 10))) * E.sin (k * theta)
        let r := radius * w
        { m with target := { x := cx + r * E.cos theta, y := cy + r * E.sin theta } }
      | .sceneCascade =>
        let slow := E.sin (m.t * (3 / 10))
        let sway := E.sin (m.t * (18 / 10))
        let drift := E.sin (m.t * (5 / 10) + sway * (4 / 10))
        { m with target :=
            { x := cx + drift * w * (25 / 100)
              y := cy + ((1 + slow) / 2) * h * (35 / 100) + E.sin (m.t * (12 / 10)) * h * (6 / 100) } }
      | .scenePulse =>
        let theta := m.t * (13 / 10)
        let pulse := (E.sin (m.t * (24 / 10)) + 1) / 2
        let radius := w * (18 / 100 + (28 / 100) * pulse)
        { m with target :=
            { x := cx + radius * E.cos theta
              y := cy + radius * (7 / 10) * E.sin (theta * (14 / 10)) } }
      | .sceneWander =>
        let n1 := perlin2 (m.t * (15 / 100)) 0
        let n2 := perlin2 0 (m.t * (12 / 100) + 37 / 10)
        { m with target := { x := cx + n1 * w * (4 / 10), y := cy + n2 * h * (35 / 100) } }
    m.clampTarget

/-! ## Follower swarm -/

def newFollower (order : Int) (freq damping : ℚ) (rng : Rng) : follower × Rng :=
  let baseRadius : ℚ := 5 + (order : ℚ) * (135 / 100)
  let (r1, rng) := rng.Float64
  let radius := baseRadius * (7 / 10 + r1 * (6 / 10))
  let (r2, rng) := rng.Float64
  let speed := 3 / 10 + r2 * (6 / 10) + (order : ℚ) * (3 / 100)
  let (r3, rng) := rng.Float64
  let phase := r3 * 2 * mathPi
  let (paletteSeed, rng) := rng.Float64
  let (offsetSeed, rng) := rng.Float64
  ({ order := order
     pos := ⟨0, 0⟩
     vel := ⟨0, 0⟩
     radius := radius
     speed := speed
     phase := phase
     paletteSeed := paletteSeed
     offsetSeed := offsetSeed
     trace := []
     springX := NewSpring (harmonicaFPS fps) freq damping
     springY := NewSpring (harmonicaFPS fps) freq damping }, rng)

def model.addFollower (m : model) : model :=
  if m.followers.length ≥ maxFollowers then m
  else
    let (follower, rng) := newFollower (m.followers.length : Int) m.freq m.damping m.rng
    let follower := { follower with pos := m.target }
    let follower := { follower with trace := follower.trace ++ [m.target] }
    { m with rng := rng, followers := m.followers ++ [follower] }

def model.removeFollower (m : model) : model :=
  if m.followers.length ≤ 3 then m
  else { m with followers := m.followers.take (m.followers.length - 1) }

def model.retuneFollowers (m : model) : model :=
  { m with followers := m.followers.map fun f =>
      { f with
        springX := NewSpring (harmonicaFPS fps) m.freq m.damping
        springY := NewSpring (harmonicaFPS fps) m.freq m.damping } }

def model.adjustDamping (m : model) (delta : ℚ) : model :=
  let m := { m with damping := clamp (m.damping + delta) minDamping maxDamping }
  m.retuneFollowers

def model.adjustFrequency (m : model) (delta : ℚ) : model :=
  let m := { m with freq := clamp (m.freq + delta) minFrequency maxFrequency }
  m.retuneFollowers

/-- The `switch formation` of `step`: the follower with its phase advanced,
and the offset of its goal from the target. In the Helix branch the depth
divides by `count - 1`: for `count = 1` the Go division by zero gives NaN or an
infinity, which no rational stands for (here `x / 0 = 0`), so statements
about the values of that branch assume `2 ≤ count`. -/
def follower.formationOffset (E : Env) (f : follower) (formation : formationMode)
    (stageW stageH t dt : ℚ) (count : Int) : follower × vector :=
  match formation with
  | .formationHalo =>
    let f := { f with phase := fmod (f.phase + f.speed * dt) (2 * mathPi) }
    let ellipse := 55 / 100 + (25 / 100) * E.sin (t * (8 / 10) + (f.order : ℚ) * (3 / 10))
    (f, { x := E.cos f.phase * f.radius * ellipse
          y := E.sin f.phase * f.radius * (6 / 10) * ellipse })
  | .formationRibbon =>
    let wave := E.sin (t * (14 / 10) + (f.order : ℚ) * (7 / 10))
    let ox := -(f.order : ℚ) * (19 / 10 + (4 / 10) * E.sin (t * (6 / 10)))
    let oy := wave * stageH * (9 / 100)
    let f := { f with phase := fmod (f.phase + f.speed * dt * (6 / 10)) (2 * mathPi) }
    (f, { x := ox + E.cos (f.phase + wave) * (24 / 10), y := oy })
  | .formationBloom =>
    let petalCount : Int := 3 + Int.tmod f.order 5
    let bloom := (E.sin (t * (7 / 10) + (petalCount : ℚ)) + 1) / 2
    let radius := f.radius * (6 / 10 + (5 / 10) * bloom)
    let f := { f with phase := fmod (f.phase + f.speed * dt * (12 / 10)) (2 * mathPi) }
    (f, { x := E.cos (f.phase * (petalCount : ℚ)) * radius
          y := E.sin (f.phase * (petalCount : ℚ)) * radius * (6 / 10) })
  | .formationHelix =>
    let depth := ((f.order : ℚ) / ((count - 1 : Int) : ℚ)) - 5 / 10
    let helixRadius := stageW * (16 / 100)
    let ox := E.sin (t * (9 / 10) + depth * mathPi * 2) * helixRadius
    let oy := depth * stageH * (6 / 10) + E.cos (t * (16 / 10) + depth * 4) * 4
    let f := { f with phase := fmod (f.phase + f.speed * dt) (2 * mathPi) }
    (f, { x := ox + E.cos (f.phase + depth * 6) * 3, y := oy })

/-- The last statements of `step`: append the position to the trail and keep
the newest `maxTrail` entries. -/
def pushTrail (trace : List vector) (pos : vector) : List vector :=
  let trace := trace ++ [pos]
  if trace.length > maxTrail then trace.drop (trace.length - maxTrail) else trace

def follower.step (E : Env) (f : follower) (target : vector) (formation : formationMode)
    (stageW stageH t dt : ℚ) (count : Int) (_mood : moodTheme) : follower :=
  let count := if count < 1 then 1 else count
  let (f, offset) := f.formationOffset E formation stageW stageH t dt count
  let targetX := clamp (target.x + offset.x) 0 (stageW - 1)
  let targetY := clamp (target.y + offset.y) 0 (stageH - 1)
  let (px, vx) := f.springX.Update E f.pos.x f.vel.x targetX
  let (py, vy) := f.springY.Update E f.pos.y f.vel.y targetY
  let f := { f with pos := ⟨px, py⟩, vel := ⟨vx, vy⟩ }
  let f := { f with pos := { f.pos with x := clamp f.pos.x 0 (stageW - 1) } }
  let f := { f with pos := { f.pos with y := clamp f.pos.y 0 (stageH - 1) } }
  { f with trace := pushTrail f.trace f.pos }

def model.updateFollowers (E : Env) (m : model) : model :=
  let mood := m.currentMood E
  let count := m.followers.length
  if count = 0 then m
  else
    let stageW : ℚ := (m.canvasWidth : ℚ)
    let stageH : ℚ := (m.canvasHeight : ℚ)
    { m with followers := m.followers.map fun f =>
        f.step E m.target m.formation stageW stageH m.t deltaTime (count : Int) mood }

/-! ## Particle emitter -/

def model.emitSeed (m : model) (theme : moodTheme) : model :=
  if m.canvasWidth = 0 ∨ m.canvasHeight = 0 then m
  else
    let (r1, rng) := m.rng.Float64
    let (r2, rng) := rng.Float64
    let velocity : vector := { x := (r1 * 2 - 1) * 14, y := -6 - r2 * 6 }
    let start : vector := { x := m.target.x, y := m.target.y }
    let projectile := NewProjectile (harmonicaFPS fps) start velocity { x := 0, y := 18 }
    let (r3, rng) := rng.Float64
    let ttl := 14 / 10 + r3 * (9 / 10)
    let (r4, rng) := rng.Float64
    let hue := theme.colorAt r4
    { m with
      rng := rng
      seeds := m.seeds ++ [{ projector := projectile, pos := ⟨0, 0⟩, life := 0, ttl := ttl,
                             glyph := theme.seedGlyph, color := hue }] }

/-- The loop of `updateSeeds` that integrates every particle and rebuilds the
live set: a particle that is skipped by `continue` is not appended. -/
def pruneSeeds (stageW stageH : ℚ) : List seed → List seed
  | [] => []
  | s :: rest =>
    let projector := s.projector.Update
    let s := { s with projector := projector, pos := ⟨projector.pos.x, projector.pos.y⟩ }
    let s := { s with life := s.life + deltaTime }
    if s.life ≥ s.ttl then pruneSeeds stageW stageH rest
    else if s.pos.x < -2 ∨ s.pos.y < -2 ∨ s.pos.x > stageW + 2 ∨ s.pos.y > stageH + 2 then
      pruneSeeds stageW stageH rest
    else s :: pruneSeeds stageW stageH rest

/-- The first statements of `updateSeeds` behind its guard: advance the timer
and, when the interval of the mood has elapsed, emit one particle and take
the timer modulo the interval. -/
def model.advanceSeedTimer (m : model) (mood : moodTheme) : model :=
  let m := { m with seedTimer := m.seedTimer + deltaTime }
  if m.seedTimer ≥ mood.seedInterval then
    let m := m.emitSeed mood
    { m with seedTimer := fmod m.seedTimer mood.seedInterval }
  else m

def model.updateSeeds (E : Env) (m : model) : model :=
  let mood := m.currentMood E
  let stageW : ℚ := (m.canvasWidth : ℚ)
  let stageH : ℚ := (m.canvasHeight : ℚ)
  if stageW = 0 ∨ stageH = 0 then m
  else
    let m := m.advanceSeedTimer mood
    { m with seeds := pruneSeeds stageW stageH m.seeds }

/-! ## Event loop -/

/-- The loop `for len(m.followers) < initialFollowers { m.addFollower() }`;
every iteration adds a follower, so `initialFollowers` iterations suffice. -/
def fillFollowers : Nat → model → model
  | 0, m => m
  | n + 1, m =>
    if m.followers.length < initialFollowers then fillFollowers n m.addFollower else m

def model.updateKey (m : model) (msg : String) : model × Cmd :=
  if msg ∈ keysQuit then (m, .quit)
  else if msg ∈ keysToggleMode then ({ m with autop := !m.autop }, .nil)
  else if msg ∈ keysCycleScene then
    ({ m with sceneIndex := ⟨(m.sceneIndex.val + 1) % scenes.length, Nat.mod_lt _ (by decide)⟩ }, .nil)
  else if msg ∈ keysCycleFormation then
    let idx := (indexOfFormation m.formation + 1) % formations.length
    ({ m with formation := formations.get ⟨idx, Nat.mod_lt _ (by decide)⟩ }, .nil)
  else if msg ∈ keysCycleMood then
    ({ m with moodIndex := ⟨(m.moodIndex.val + 1) % 4, Nat.mod_lt _ (by decide)⟩ }, .nil)
  else if msg ∈ keysAddFollower then (m.addFollower, .nil)
  else if msg ∈ keysRemoveFollower then (m.removeFollower, .nil)
  else if msg ∈ keysIncreaseFreq then (m.adjustFrequency (35 / 100), .nil)
  else if msg ∈ keysDecreaseFreq then (m.adjustFrequency (-(35 / 100)), .nil)
  else if msg ∈ keysIncreaseDamping then (m.adjustDamping (5 / 100), .nil)
  else if msg ∈ keysDecreaseDamping then (m.adjustDamping (-(5 / 100)), .nil)
  else if msg ∈ keysMoveNorth then (m.manualTarget 0 (-1), .nil)
  else if msg ∈ keysMoveSouth then (m.manualTarget 0 1, .nil)
  else if msg ∈ keysMoveWest then (m.manualTarget (-1) 0, .nil)
  else if msg ∈ keysMoveEast then (m.manualTarget 1 0, .nil)
  else if msg ∈ keysToggleHelp then ({ m with showHelp := !m.showHelp }, .nil)
  else (m, .nil)

def model.Update (E : Env) (m : model) : Msg → model × Cmd
  | .WindowSizeMsg Width Height =>
    let m := { m with width := Width }
    let m := { m with height := Height }
    let m := m.recomputeCanvas
    let m :=
      if m.ready = false ∧ m.canvasWidth > 0 ∧ m.canvasHeight > 0 then
        let m := { m with target := ⟨(m.canvasWidth : ℚ) / 2, (m.canvasHeight : ℚ) / 2⟩ }
        let m := fillFollowers initialFollowers m
        { m with ready := true }
      else m
    (m, .nil)
  | .KeyMsg key => m.updateKey key
  | .frameMsg =>
    if m.ready = false then (m, .tick)
    else
      let m := { m with t := m.t + deltaTime }
      let m := if m.autop then m.updateTarget E else m
      let m := m.updateFollowers E
      let m := m.updateSeeds E
      (m, .tick)
  | .other => (m, .nil)

/-! ## Layered cell canvas -/

/-- The grid `[][]cell`, row-major: `canvas[y][x]`. -/
abbrev Canvas : Type := List (List cell)

/-- The read `canvas[y][x]`; `none` is the index-out-of-range panic. -/
def Canvas.at (canvas : Canvas) (y x : Int) : Option cell :=
  if y < 0 ∨ x < 0 then none
  else
    match canvas[y.toNat]? with
    | none => none
    | some row => row[x.toNat]?

/-- The assignment `canvas[y][x] = v`; `none` is the index-out-of-range panic. -/
def Canvas.put (canvas : Canvas) (y x : Int) (v : cell) : Option Canvas :=
  if y < 0 ∨ x < 0 then none
  else
    match canvas[y.toNat]? with
    | none => none
    | some row =>
      if x.toNat < row.length then some (canvas.set y.toNat (row.set x.toNat v)) else none

/-- The read `glyphs[i]` of a glyph table; `none` is the panic. -/
def glyphAt (glyphs : List Char) (i : Int) : Option Char :=
  if i < 0 then none else glyphs[i.toNat]?

/-- Runs a fallible loop body once per index, collecting the results in
order; the first failure aborts the loop. -/
def buildList {α : Type} (body : Nat → Option α) : Nat → Option (List α)
  | 0 => some []
  | n + 1 =>
    match buildList body n with
    | none => none
    | some done =>
      match body n with
      | none => none
      | some a => some (done ++ [a])

/-- Runs a fallible loop body over the items of a slice, threading the canvas;
the first failure aborts the loop. -/
def paintEach {α : Type} (body : Canvas → α → Option Canvas) : List α → Canvas → Option Canvas
  | [], c => some c
  | a :: rest, c =>
    match body c a with
    | none => none
    | some c1 => paintEach body rest c1

/-- What a painter decides about a cell before it reads the canvas: glyph,
foreground, bold flag and priority. The background is taken from the cell
that is already there. -/
structure Stroke where
  ch : Char
  fg : String
  bold : Bool
  priority : Int
  deriving DecidableEq, Repr

/-- The composite literal `cell{ch: .., fg: .., bg: bg, bold: .., priority: ..}`. -/
def Stroke.onto (s : Stroke) (bg : String) : cell :=
  { ch := s.ch, fg := s.fg, bg := bg, bold := s.bold, priority := s.priority }

/-- The body of the two loops of `prepareCanvas` for the cell `(x, y)`. -/
def model.backdropCell (E : Env) (m : model) (theme : moodTheme) (x y : Int) : Option cell :=
  let wav := E.sin ((x : ℚ) * (11 / 100) + m.t * (35 / 100))
    + E.cos ((y : ℚ) * (9 / 100) - m.t * (21 / 100) + (x : ℚ) * (3 / 100))
  let intensity := (wav + 2) / 4
  let n : Int := (theme.wispGlyphs.length : Int)
  if n = 0 then none
  else
    match glyphAt theme.wispGlyphs (Int.tmod (toInt (intensity * (n : ℚ))) n) with
    | none => none
    | some glyph =>
      let fg := theme.colorAt (15 / 100 + intensity * (35 / 100))
      let bg := theme.background
      match theme.shader with
      | none => some { ch := glyph, fg := fg, bg := bg, bold := false, priority := 0 }
      | some shader =>
        let (sGlyph, sFG, sBG) := shader (x : ℚ) (y : ℚ) m.t m.canvasWidth m.canvasHeight theme.tomoodBase
        let glyph := if sGlyph ≠ Char.ofNat 0 then sGlyph else glyph
        let fg := if sFG ≠ "" then sFG else fg
        let bg := if sBG ≠ "" then sBG else bg
        some { ch := glyph, fg := fg, bg := bg, bold := false, priority := 0 }

def model.prepareCanvas (E : Env) (m : model) (theme : moodTheme) : Option Canvas :=
  if m.canvasHeight < 0 then none
  else
    buildList (fun y =>
      if m.canvasWidth < 0 then none
      else buildList (fun x => m.backdropCell E theme (x : Int) (y : Int)) m.canvasWidth.toNat)
      m.canvasHeight.toNat

/-- Glyph, foreground, bold flag and priority of the trail point `i` of a
follower, as the inner loop of `paintTrails` computes them. -/
def trailStroke (E : Env) (theme : moodTheme) (f : follower) (i : Nat) : Option Stroke :=
  let trailLen : Int := (f.trace.length : Int)
  let ratio : ℚ := (((i : Int) + 1 : Int) : ℚ) / (trailLen : ℚ)
  let strength := E.pow ratio (13 / 10)
  let colorMix := clamp (strength * (8 / 10) + f.paletteSeed * (3 / 10)) 0 1
  let fg := theme.colorAt colorMix
  let n : Int := (theme.trailGlyphs.length : Int)
  match glyphAt theme.trailGlyphs (imin (toInt (strength * (n : ℚ))) (n - 1)) with
  | none => none
  | some glyph =>
    let (glyph, priority) : Char × Int := if (i : Int) = trailLen - 1 then ('@', 3) else (glyph, 1)
    some { ch := glyph, fg := fg, bold := decide ((i : Int) ≥ trailLen - 2), priority := priority }

/-- The body of the inner loop of `paintTrails` for the trail index `i`. -/
def model.paintTrailPoint (E : Env) (m : model) (theme : moodTheme) (f : follower)
    (canvas : Canvas) (i : Nat) : Option Canvas :=
  match f.trace[i]? with
  | none => none
  | some p =>
    let x := roundInt p.x
    let y := roundInt p.y
    if x < 0 ∨ y < 0 ∨ x ≥ m.canvasWidth ∨ y ≥ m.canvasHeight then some canvas
    else
      match trailStroke E theme f i with
      | none => none
      | some stroke =>
        match canvas.at y x with
        | none => none
        | some cur =>
          let cell := stroke.onto cur.bg
          if cell.priority ≥ cur.priority then canvas.put y x cell else some canvas

def model.paintTrails (E : Env) (m : model) (canvas : Canvas) (theme : moodTheme) : Option Canvas :=
  paintEach (fun canvas f =>
    let trailLen := f.trace.length
    if trailLen = 0 then some canvas
    else paintEach (fun canvas i => m.paintTrailPoint E theme f canvas i) (List.range trailLen) canvas)
    m.followers canvas

/-- Glyph, foreground, bold flag and priority of a particle, as the loop of
`paintSeeds` computes them. -/
def seedStroke (theme : moodTheme) (s : seed) : Stroke :=
  let glow := clamp (1 - s.life / s.ttl) 0 1
  let fg := blendHex s.color (theme.colorAt (98 / 100)) (1 - glow * (65 / 100))
  { ch := s.glyph, fg := fg, bold := true, priority := 4 }

def model.paintSeeds (m : model) (canvas : Canvas) (theme : moodTheme) : Option Canvas :=
  paintEach (fun canvas s =>
    let x := roundInt s.pos.x
    let y := roundInt s.pos.y
    if x < 0 ∨ y < 0 ∨ x ≥ m.canvasWidth ∨ y ≥ m.canvasHeight then some canvas
    else
      match canvas.at y x with
      | none => none
      | some cur =>
        let cell := (seedStroke theme s).onto cur.bg
        if cell.priority ≥ cur.priority then canvas.put y x cell else some canvas)
    m.seeds canvas

/-- Glyph, foreground, bold flag and priority of the target marker. -/
def targetStroke (theme : moodTheme) : Stroke :=
  { ch := '#', fg := theme.accent, bold := true, priority := 5 }

def model.paintTarget (m : model) (canvas : Canvas) (theme : moodTheme) : Option Canvas :=
  let tx := roundInt m.target.x
  let ty := roundInt m.target.y
  if tx < 0 ∨ ty < 0 ∨ tx ≥ m.canvasWidth ∨ ty ≥ m.canvasHeight then some canvas
  else
    match canvas.at ty tx with
    | none => none
    | some cur => canvas.put ty tx ((targetStroke theme).onto cur.bg)

/-- The canvas that `View` composes for a theme: the backdrop, then the
trail, particle and target passes. (`View` goes on to print the cells.) -/
def model.composeCanvas (E : Env) (m : model) (theme : moodTheme) : Option Canvas :=
  match m.prepareCanvas E theme with
  | none => none
  | some canvas =>
    match m.paintTrails E canvas theme with
    | none => none
    | some canvas =>
      match m.paintSeeds canvas theme with
      | none => none
      | some canvas => m.paintTarget canvas theme

/-- The canvas part of `View`: nothing is composed before the model is ready. -/
def model.View (E : Env) (m : model) : Option Canvas :=
  if m.ready = false then some [] else m.composeCanvas E (m.currentMood E)

/-! ## Runs of events -/

/-- The two events that change the size of the swarm. -/
inductive SwarmEvent where
  | add | remove
  deriving DecidableEq, Repr

def model.applySwarm (m : model) : SwarmEvent → model
  | .add => m.addFollower
  | .remove => m.removeFollower

def model.runSwarm (m : model) (events : List SwarmEvent) : model :=
  events.foldl model.applySwarm m

/-- The arguments of one call of `follower.step`. -/
structure StepArgs where
  target : vector
  formation : formationMode
  stageW : ℚ
  stageH : ℚ
  t : ℚ
  dt : ℚ
  count : Int
  mood : moodTheme

def follower.stepWith (E : Env) (f : follower) (a : StepArgs) : follower :=
  f.step E a.target a.formation a.stageW a.stageH a.t a.dt a.count a.mood

def follower.steps (E : Env) (f : follower) (calls : List StepArgs) : follower :=
  calls.foldl (follower.stepWith E) f

/-- The two events that re-tune the springs, with their deltas. -/
inductive TuneEvent where
  | frequency (delta : ℚ)
  | damping (delta : ℚ)

def model.applyTune (m : model) : TuneEvent → model
  | .frequency delta => m.adjustFrequency delta
  | .damping delta => m.adjustDamping delta

def model.runTune (m : model) (events : List TuneEvent) : model :=
  events.foldl model.applyTune m

/-- The model after a sequence of messages, commands dropped. -/
def model.run (E : Env) (m : model) (msgs : List Msg) : model :=
  msgs.foldl (fun m msg => (m.Update E msg).1) m

/-! ## Predicates of the specification -/

/-- The target lies inside the canvas. -/
def model.targetInside (m : model) : Prop :=
  0 ≤ m.target.x ∧ m.target.x ≤ ((m.canvasWidth - 1 : Int) : ℚ) ∧
  0 ≤ m.target.y ∧ m.target.y ≤ ((m.canvasHeight - 1 : Int) : ℚ)

/-- The trail invariant: at most 42 entries, the last one the position. -/
def follower.trailOk (f : follower) : Prop :=
  f.trace.length ≤ 42 ∧ f.trace.getLast? = some f.pos

/-- One axis of `clampTarget`: first the lower bound 0, then the upper bound. -/
def clampAxis (v hi : ℚ) : ℚ :=
  let v := if v < 0 then 0 else v
  if v > hi then hi else v

/-- Everything of a follower but its two springs: order, position, velocity,
phase, speed, radius, offset seed, palette seed and trail. -/
def follower.kinematics (f : follower) :
    Int × vector × vector × ℚ × ℚ × ℚ × ℚ × ℚ × List vector :=
  (f.order, f.pos, f.vel, f.phase, f.speed, f.radius, f.offsetSeed, f.paletteSeed, f.trace)

/-- One integration step of a particle, as the loop of `updateSeeds` performs
it: the projectile advances, the position follows, the life grows by one
timestep. -/
def seed.integrate (s : seed) : seed :=
  { s with
    projector := s.projector.Update
    pos := ⟨s.projector.Update.pos.x, s.projector.Update.pos.y⟩
    life := s.life + deltaTime }

/-- The position is within the 2-cell margin of a stage. -/
def seed.inMargin (stageW stageH : ℚ) (s : seed) : Prop :=
  -2 ≤ s.pos.x ∧ s.pos.x ≤ stageW + 2 ∧ -2 ≤ s.pos.y ∧ s.pos.y ≤ stageH + 2

instance (stageW stageH : ℚ) (s : seed) : Decidable (s.inMargin stageW stageH) := by
  unfold seed.inMargin
  infer_instance

/-- The particles that survive a tick: life below the time-to-live and
position within the margin. -/
def seed.survives (stageW stageH : ℚ) (s : seed) : Prop :=
  s.life < s.ttl ∧ s.inMargin stageW stageH

instance (stageW stageH : ℚ) (s : seed) : Decidable (s.survives stageW stageH) := by
  unfold seed.survives
  infer_instance

/-- A message that is not a resize to a display exactly one column wide. -/
def Msg.notOneColumn : Msg → Prop
  | .WindowSizeMsg Width _ => Width ≠ 1
  | _ => True

/-- The invariant of the event loop: before the first valid resize the canvas
is empty; afterwards it is at least 1 x 1 and the target lies inside it. -/
def model.settled (m : model) : Prop :=
  (m.ready = false → m.canvasWidth = 0 ∧ m.canvasHeight = 0) ∧
  (m.ready = true → 1 ≤ m.canvasWidth ∧ 1 ≤ m.canvasHeight ∧ m.targetInside)

/-- The sixteen upper-case hexadecimal digits. -/
def upperHexDigits : List Char := "0123456789ABCDEF".toList

/-- A stop written as '#' followed by six upper-case hexadecimal digits. -/
def isHexStop (s : String) : Prop :=
  ∃ d1 d2 d3 d4 d5 d6 : Char, s.toList = ['#', d1, d2, d3, d4, d5, d6] ∧
    d1 ∈ upperHexDigits ∧ d2 ∈ upperHexDigits ∧ d3 ∈ upperHexDigits ∧
    d4 ∈ upperHexDigits ∧ d5 ∈ upperHexDigits ∧ d6 ∈ upperHexDigits

/-- The order of every follower is its index in the swarm. -/
def ordered (fs : List follower) : Prop :=
  ∀ (i : Nat) (f : follower), fs[i]? = some f → f.order = (i : Int)

/-- The fields that select the trajectory: clock, scene and mode. -/
def model.clock (m : model) : ℚ × Fin 5 × Bool := (m.t, m.sceneIndex, m.autop)

/-- The Orbit parametrisation as the specification writes it: an ellipse
around the centre of a `w` x `h` canvas with a smaller wobble on each axis. -/
def orbitPoint (E : Env) (w h t : ℚ) : vector :=
  ⟨w / 2 + 35 / 100 * w * E.cos (55 / 100 * t) + 5 / 100 * w * E.cos (9 / 10 * t),
   h / 2 + 28 / 100 * h * E.sin (66 / 100 * t) + 4 / 100 * h * E.sin (77 / 100 * t)⟩

/-- Some painted point has the cell `(x, y)` as its rounded position: a trail
point of a follower, a particle, or the target. -/
def model.aimedAt (m : model) (x y : Int) : Prop :=
  (∃ f ∈ m.followers, ∃ p ∈ f.trace, roundInt p.x = x ∧ roundInt p.y = y) ∨
  (∃ s ∈ m.seeds, roundInt s.pos.x = x ∧ roundInt s.pos.y = y) ∨
  (roundInt m.target.x = x ∧ roundInt m.target.y = y)

/-- The random stream and the live particles: what the emitter reads and
writes. -/
def model.emitter (m : model) : (Nat → ℚ) × List seed := (m.rng.draws, m.seeds)

/-- Every particle has lived at least one tick more than the number of
particles behind it in the list (those were spawned later). -/
def aged : List seed → Prop
  | [] => True
  | s :: rest => ((rest.length : ℚ) + 1) * deltaTime ≤ s.life ∧ aged rest

/-- The bounds every live particle satisfies between ticks. -/
def model.seedsYoung (m : model) : Prop :=
  ∀ s ∈ m.seeds, s.life < s.ttl ∧ s.ttl < 23 / 10

/-- The invariant of the emitter: draws in [0, 1), particles ordered by age as
`aged` says, each below its time-to-live, which is below 2.3 s. -/
def model.emitterOk (m : model) : Prop :=
  (∀ i, 0 ≤ m.rng.draws i ∧ m.rng.draws i < 1) ∧ aged m.seeds ∧ m.seedsYoung

/-! ## Writes aimed at a cell -/

/-- The conditional overwrite of the trail and particle passes, seen from one
cell: a stroke replaces the cell when its priority is at least the cell's
priority, and keeps the background. -/
def cell.paint (cur : cell) (s : Stroke) : cell :=
  if s.priority ≥ cur.priority then s.onto cur.bg else cur

/-- Glyph, foreground, bold flag and priority of a cell, the backdrop write
when the cell is a backdrop cell. -/
def cell.stroke (c : cell) : Stroke :=
  { ch := c.ch, fg := c.fg, bold := c.bold, priority := c.priority }

/-- The grid has `H` rows of `W` cells. -/
def Canvas.sized (canvas : Canvas) (H W : Int) : Prop :=
  canvas.length = H.toNat ∧ ∀ row ∈ canvas, row.length = W.toNat

/-- The strokes of the trail of one follower whose rounded position is the
cell `(x, y)`, oldest first. -/
def trailAims (E : Env) (theme : moodTheme) (f : follower) (x y : Int) : List (Option Stroke) :=
  (List.range f.trace.length).flatMap fun i =>
    match f.trace[i]? with
    | some p => if roundInt p.x = x ∧ roundInt p.y = y then [trailStroke E theme f i] else []
    | none => []

/-- The stroke of a particle if its rounded position is the cell `(x, y)`. -/
def seedAims (theme : moodTheme) (s : seed) (x y : Int) : List (Option Stroke) :=
  if roundInt s.pos.x = x ∧ roundInt s.pos.y = y then [some (seedStroke theme s)] else []

/-- The stroke of the target marker if the rounded target is the cell `(x, y)`. -/
def model.targetAims (m : model) (theme : moodTheme) (x y : Int) : List (Option Stroke) :=
  if roundInt m.target.x = x ∧ roundInt m.target.y = y then [some (targetStroke theme)] else []

/-- All writes of one frame aimed at the cell `(x, y)`, in paint order: the
backdrop, the followers in swarm order with each trail oldest to newest, the
particles in list order, the target marker. An entry is `none` when its glyph
lookup fails. -/
def model.frameWrites (E : Env) (m : model) (theme : moodTheme) (x y : Int) :
    List (Option Stroke) :=
  (m.backdropCell E theme x y).map cell.stroke ::
    (m.followers.flatMap (fun f => trailAims E theme f x y) ++
      m.seeds.flatMap (fun s => seedAims theme s x y) ++ m.targetAims theme x y)

/-- The priorities of the trail points of one follower whose rounded position
is the cell `(x, y)`: 3 for the newest point of the trail, 1 for the others. -/
def trailPriorities (f : follower) (x y : Int) : List Int :=
  (List.range f.trace.length).flatMap fun i =>
    match f.trace[i]? with
    | some p =>
      if roundInt p.x = x ∧ roundInt p.y = y then
        [(if i + 1 = f.trace.length then 3 else 1 : Int)]
      else []
    | none => []

/-- The priorities of the writes of one frame aimed at the cell `(x, y)`:
backdrop 0, trail point 1, newest trail point 3, particle 4, target marker 5. -/
def model.aimedPriorities (m : model) (x y : Int) : List Int :=
  0 ::
    (m.followers.flatMap (fun f => trailPriorities f x y) ++
      m.seeds.flatMap (fun s =>
        if roundInt s.pos.x = x ∧ roundInt s.pos.y = y then [(4 : Int)] else []) ++
      (if roundInt m.target.x = x ∧ roundInt m.target.y = y then [(5 : Int)] else []))

/-- The grid `next` is the grid `canvas` after the strokes `aims x y` were
painted, in order, onto each cell `(x, y)` of an `H` by `W` canvas. -/
def Canvas.paintedBy (canvas next : Canvas) (H W : Int)
    (aims : Int → Int → List (Option Stroke)) : Prop :=
  next.sized H W ∧
  ∀ x y : Int, 0 ≤ x → x < W → 0 ≤ y → y < H →
    ∃ ws : List Stroke, aims x y = ws.map some ∧
      next.at y x = (canvas.at y x).map (fun cur => ws.foldl cell.paint cur)

/-! ## Sample inputs -/

/-- A sample environment for concrete evaluations: the rational
parametrisation of the circle for sine and cosine, and a spring that moves
halfway to its target. -/
def sampleEnv : Env :=
  { sin := fun x => 2 * x / (1 + x * x)
    cos := fun x => (1 - x * x) / (1 + x * x)
    pow := fun x _ => |x|
    sqrt := fun x => |x|
    atan2 := fun _ _ => 0
    springUpdate := fun _ _ _ pos _ target => ((pos + target) / 2, 0) }

/-- A sample generator: the draws 1/2, 1/3, 1/4, ... -/
def sampleRng : Rng := { draws := fun n => 1 / ((n : ℚ) + 2), pos := 0 }

/-- A model that is ready on an 80 x 18 canvas, after the first resize. -/
def sampleModel : model := ((newModel sampleRng).Update sampleEnv (.WindowSizeMsg 80 24)).1

/-- Two sample calls of `step`, on a 20 x 10 stage. -/
def sampleCalls : List StepArgs :=
  [ { target := ⟨3, 4⟩, formation := .formationRibbon, stageW := 20, stageH := 10, t := 0,
      dt := deltaTime, count := 1,
      mood := { name := "", description := "", palette := [], background := "", accent := "",
                wispGlyphs := [], trailGlyphs := [], seedGlyph := '*', seedInterval := 1,
                shader := none } },
    { target := ⟨5, 4⟩, formation := .formationRibbon, stageW := 20, stageH := 10, t := 0,
      dt := deltaTime, count := 1,
      mood := { name := "", description := "", palette := [], background := "", accent := "",
                wispGlyphs := [], trailGlyphs := [], seedGlyph := '*', seedInterval := 1,
                shader := none } } ]

/-- An environment whose functions are constant, for runs in which the
trigonometric values play no part. -/
def flatEnv : Env :=
  { sin := fun _ => 0
    cos := fun _ => 1
    pow := fun x _ => x
    sqrt := fun _ => 0
    atan2 := fun _ _ => 0
    springUpdate := fun _ _ _ _ _ target => (target, 0) }

/-- A generator whose every draw is 9/10. -/
def highRng : Rng := { draws := fun _ => 9 / 10, pos := 0 }

/-- A run on an 80 x 24 display: the first resize, nine presses of "up" that
walk the target from the centre row 9 to the top row 0 (and switch to manual
mode), then `n` frame ticks. -/
def topRowRun (n : Nat) : model :=
  (newModel highRng).run flatEnv
    (Msg.WindowSizeMsg 80 24 :: (List.replicate 9 (Msg.KeyMsg "up") ++ List.replicate n Msg.frameMsg))

/-- A particle in flight near the middle of the sample canvas. -/
def sampleSeed : seed :=
  { projector := NewProjectile (harmonicaFPS fps) ⟨40, 9⟩ ⟨7, -8⟩ ⟨0, 18⟩
    pos := ⟨40, 9⟩
    life := 1 / 2
    ttl := 2
    color := "#3E1F65"
    glyph := '*' }

/-- The sample model with one live particle. -/
def seededModel : model := { sampleModel with seeds := [sampleSeed] }

/-- A follower at rest with a given trail, for concrete frames. -/
def restingFollower (order : Int) (paletteSeed : ℚ) (trace : List vector) : follower :=
  { order := order, pos := trace.getLastD ⟨0, 0⟩, vel := ⟨0, 0⟩, phase := 0, speed := 0,
    radius := 0, offsetSeed := 0, paletteSeed := paletteSeed, trace := trace,
    springX := NewSpring (harmonicaFPS fps) (72 / 10) (22 / 100),
    springY := NewSpring (harmonicaFPS fps) (72 / 10) (22 / 100) }

/-- A frame on a 4 x 3 canvas: two followers whose newest trail points share
the cell (2, 1), one particle on the cell (0, 0), the target on (3, 2). -/
def tinyModel : model :=
  { newModel highRng with
    width := 4, height := 5, canvasWidth := 4, canvasHeight := 3, ready := true
    target := ⟨3, 2⟩
    followers := [restingFollower 0 (1 / 2) [⟨1, 1⟩, ⟨2, 1⟩], restingFollower 1 0 [⟨2, 1⟩]]
    seeds := [{ sampleSeed with pos := ⟨0, 0⟩ }] }

/-- The composed canvas of the tiny frame under its first mood. -/
def tinyCanvas : Canvas :=
  (tinyModel.composeCanvas flatEnv (tinyModel.currentMood flatEnv)).getD []

/-- A short session: the first resize, a frame, a nudge, a frame. -/
def sampleMsgs : List Msg :=
  [.WindowSizeMsg 80 24, .frameMsg, .KeyMsg "up", .frameMsg]

/-- The tiny frame after the backdrop pass. -/
def tinyBackdrop : Canvas :=
  (tinyModel.prepareCanvas flatEnv (tinyModel.currentMood flatEnv)).getD []

/-- The tiny frame after the trail pass. -/
def tinyTrails : Canvas :=
  (tinyModel.paintTrails flatEnv tinyBackdrop (tinyModel.currentMood flatEnv)).getD []

/-- The tiny frame after the particle pass. -/
def tinySeeds : Canvas :=
  (tinyModel.paintSeeds tinyTrails (tinyModel.currentMood flatEnv)).getD []

/-- A ready model in manual mode with the target at a given point of the
80 x 18 canvas. -/
def manualModelAt (target : vector) : model :=
  { newModel highRng with
    width := 80, height := 24, canvasWidth := 80, canvasHeight := 18, ready := true
    autop := false, target := target
    followers := [restingFollower 0 0 [target], restingFollower 1 0 [target],
                  restingFollower 2 0 [target]] }

/-- The value fields of the mood "Aurora Bloom". -/
def auroraBase : moodBase :=
  { name := "Aurora Bloom"
    description := "Iridescent dusk fields and electric petals"
    palette := ["#3E1F65", "#5C3C99", "#8D73FF", "#FF8BD5", "#FFE8A3"]
    background := "#0B0618"
    accent := "#FFD8FD"
    wispGlyphs := [' ', ' ', '.', Char.ofNat 96, '^']
    trailGlyphs := ['.', '*', '+', 'o']
    seedGlyph := '*'
    seedInterval := 28 / 100 }

/-- A palette of 21 stops: twenty times black, then white. -/
def longPalette : moodBase :=
  { auroraBase with palette := List.replicate 20 "#000000" ++ ["#FFFFFF"] }

/-- The sample model with one live particle and a timer one tick short of the
interval 0.28 of its mood. -/
def primedModel : model := { seededModel with seedTimer := 27 / 100 }

/-- The tiny frame with points far outside its 4 x 3 canvas: a trail that
starts left of the canvas and ends below it, a particle below the canvas and
one on the cell (3, 0), and the target far to the right and above. -/
def strayModel : model :=
  { tinyModel with
    target := ⟨1000, -50⟩
    followers := [restingFollower 0 (1 / 2) [⟨-7, 1⟩, ⟨2, 1⟩, ⟨2, 400⟩]]
    seeds := [{ sampleSeed with pos := ⟨0, 99⟩ }, { sampleSeed with pos := ⟨3, 0⟩ }] }

/-! # Theorems -/

/-! ## Swarm size (C1) -/

theorem addFollower_length (m : model) :
    m.addFollower.followers.length =
      if m.followers.length ≥ maxFollowers then m.followers.length else m.followers.length + 1 := by
  unfold model.addFollower
  split <;> simp

theorem removeFollower_length (m : model) :
    m.removeFollower.followers.length =
      if m.followers.length ≤ 3 then m.followers.length else m.followers.length - 1 := by
  unfold model.removeFollower
  split
  · rfl
  · simp

theorem applySwarm_bounds (m : model) (e : SwarmEvent)
    (h : 3 ≤ m.followers.length ∧ m.followers.length ≤ 30) :
    3 ≤ (m.applySwarm e).followers.length ∧ (m.applySwarm e).followers.length ≤ 30 := by
  cases e
  · simp only [model.applySwarm, addFollower_length, maxFollowers]
    split <;> omega
  · simp only [model.applySwarm, removeFollower_length]
    split <;> omega

theorem runSwarm_bounds (events : List SwarmEvent) :
    ∀ m : model, 3 ≤ m.followers.length ∧ m.followers.length ≤ 30 →
      3 ≤ (m.runSwarm events).followers.length ∧ (m.runSwarm events).followers.length ≤ 30 := by
  induction events with
  | nil => intro m h; exact h
  | cons e rest ih =>
    intro m h
    exact ih (m.applySwarm e) (applySwarm_bounds m e h)

/-- C1: from a swarm of 3 to 30 followers, the follower count after each event
of any sequence of add-follower and remove-follower events is still between 3
and 30. -/
theorem follower_count_stays_in_range (m : model) (events : List SwarmEvent)
    (h : 3 ≤ m.followers.length ∧ m.followers.length ≤ 30) :
    ∀ k, k ≤ events.length →
      3 ≤ (m.runSwarm (events.take k)).followers.length ∧
      (m.runSwarm (events.take k)).followers.length ≤ 30 :=
  fun k _ => runSwarm_bounds (events.take k) m h

theorem follower_count_stays_in_range_witness :
    (3 ≤ sampleModel.followers.length ∧ sampleModel.followers.length ≤ 30) ∧
    ∀ k, k ≤ [SwarmEvent.remove, .add, .add].length →
      3 ≤ (sampleModel.runSwarm ([SwarmEvent.remove, .add, .add].take k)).followers.length ∧
      (sampleModel.runSwarm ([SwarmEvent.remove, .add, .add].take k)).followers.length ≤ 30 :=
  ⟨by decide!, follower_count_stays_in_range sampleModel [.remove, .add, .add] (by decide!)⟩

/-! ## Trail of a follower (C2) -/

theorem pushTrail_spec (tr : List vector) (p : vector) :
    (pushTrail tr p).length ≤ 42 ∧ (pushTrail tr p).getLast? = some p := by
  unfold pushTrail
  have hfull : (tr ++ [p]).length = tr.length + 1 := by simp
  by_cases h : (tr ++ [p]).length > maxTrail
  · simp only [if_pos h]
    constructor
    · simp [maxTrail] at *; omega
    · rw [List.getLast?_drop]
      have : ¬ ((tr ++ [p]).length ≤ (tr ++ [p]).length - maxTrail) := by simp [maxTrail] at *; omega
      simp [this, maxTrail]
      omega
  · simp only [if_neg h]
    constructor
    · simp [maxTrail] at *; omega
    · simp

theorem formationOffset_trace (E : Env) (f : follower) (formation : formationMode)
    (stageW stageH t dt : ℚ) (count : Int) :
    (f.formationOffset E formation stageW stageH t dt count).1.trace = f.trace := by
  cases formation <;> rfl

theorem step_trace (E : Env) (f : follower) (a : StepArgs) :
    (f.stepWith E a).trace = pushTrail f.trace (f.stepWith E a).pos := by
  have h := formationOffset_trace E f a.formation a.stageW a.stageH a.t a.dt
    (if a.count < 1 then 1 else a.count)
  unfold follower.stepWith follower.step
  simp only []
  rw [h]

theorem stepWith_trailOk (E : Env) (f : follower) (a : StepArgs) : (f.stepWith E a).trailOk := by
  unfold follower.trailOk
  rw [step_trace]
  exact pushTrail_spec _ _

theorem steps_trailOk (E : Env) (calls : List StepArgs) :
    ∀ f : follower, f.trailOk → (f.steps E calls).trailOk := by
  induction calls with
  | nil => intro f h; exact h
  | cons a rest ih =>
    intro f _
    exact ih (f.stepWith E a) (stepWith_trailOk E f a)

theorem addFollower_last (m : model) (h : m.followers.length < maxFollowers) :
    ∃ f, m.addFollower.followers = m.followers ++ [f] ∧ f.pos = m.target ∧ f.trace = [m.target] ∧
      f.order = (m.followers.length : Int) := by
  unfold model.addFollower
  rw [if_neg (by omega)]
  exact ⟨_, rfl, rfl, rfl, rfl⟩

/-- C2: a follower created by addFollower and then advanced by any number of
step calls, whatever their arguments, has a trail of at most 42 entries whose
last entry is the current position of the follower. -/
theorem trail_bounded_and_ends_at_position (E : Env) (m : model) (calls : List StepArgs)
    (h : m.followers.length < maxFollowers) :
    ∃ f, m.addFollower.followers.getLast? = some f ∧
      (f.steps E calls).trace.length ≤ 42 ∧
      (f.steps E calls).trace.getLast? = some (f.steps E calls).pos := by
  obtain ⟨f, hf, hpos, htr, _⟩ := addFollower_last m h
  refine ⟨f, by rw [hf]; simp, ?_⟩
  have h0 : f.trailOk := by
    unfold follower.trailOk
    rw [htr, hpos]
    simp
  exact steps_trailOk E calls f h0

theorem trail_bounded_and_ends_at_position_witness :
    (newModel sampleRng).followers.length < maxFollowers ∧
    ∃ f, (newModel sampleRng).addFollower.followers.getLast? = some f ∧
      (f.steps sampleEnv sampleCalls).trace.length ≤ 42 ∧
      (f.steps sampleEnv sampleCalls).trace.getLast? = some (f.steps sampleEnv sampleCalls).pos :=
  ⟨by decide, trail_bounded_and_ends_at_position sampleEnv (newModel sampleRng) sampleCalls (by decide)⟩

/-! ## Clamping -/

theorem clamp_ge (v lo hi : ℚ) (h : lo ≤ hi) : lo ≤ clamp v lo hi := by
  unfold clamp
  split_ifs <;> linarith

theorem clamp_le (v lo hi : ℚ) (h : lo ≤ hi) : clamp v lo hi ≤ hi := by
  unfold clamp
  split_ifs <;> linarith

theorem clampAxis_bounds (v hi : ℚ) (h : 0 ≤ hi) : 0 ≤ clampAxis v hi ∧ clampAxis v hi ≤ hi := by
  unfold clampAxis
  simp only []
  split_ifs <;> constructor <;> linarith

theorem clampAxis_eq_clamp (v hi : ℚ) (h : 0 ≤ hi) : clampAxis v hi = clamp v 0 hi := by
  unfold clampAxis clamp
  simp only []
  split_ifs <;> linarith

theorem clampTarget_eq (m : model) :
    m.clampTarget =
      if m.canvasWidth ≤ 0 ∨ m.canvasHeight ≤ 0 then m
      else { m with target := ⟨clampAxis m.target.x ((m.canvasWidth - 1 : Int) : ℚ),
                               clampAxis m.target.y ((m.canvasHeight - 1 : Int) : ℚ)⟩ } := by
  unfold model.clampTarget clampAxis
  by_cases h0 : m.canvasWidth ≤ 0 ∨ m.canvasHeight ≤ 0
  · simp only [if_pos h0]
  · simp only [if_neg h0]
    by_cases h1 : m.target.x < 0 <;> by_cases h3 : m.target.y < 0 <;>
      simp only [h1, h3, if_true, if_false] <;> split_ifs <;> rfl

theorem clampTarget_canvas (m : model) :
    m.clampTarget.canvasWidth = m.canvasWidth ∧ m.clampTarget.canvasHeight = m.canvasHeight := by
  rw [clampTarget_eq]
  split_ifs <;> exact ⟨rfl, rfl⟩

theorem cast_pred_nonneg (n : Int) (h : 1 ≤ n) : (0 : ℚ) ≤ ((n - 1 : Int) : ℚ) := by
  exact_mod_cast (by omega : 0 ≤ n - 1)

theorem clampTarget_inside (m : model) (hw : 1 ≤ m.canvasWidth) (hh : 1 ≤ m.canvasHeight) :
    m.clampTarget.targetInside := by
  have hx := clampAxis_bounds m.target.x _ (cast_pred_nonneg _ hw)
  have hy := clampAxis_bounds m.target.y _ (cast_pred_nonneg _ hh)
  rw [clampTarget_eq, if_neg (by omega)]
  exact ⟨hx.1, hx.2, hy.1, hy.2⟩

/-! ## Trajectory generator (C5) -/

theorem updateTarget_canvas (E : Env) (m : model) :
    (m.updateTarget E).canvasWidth = m.canvasWidth ∧
      (m.updateTarget E).canvasHeight = m.canvasHeight := by
  unfold model.updateTarget
  split_ifs
  · exact ⟨rfl, rfl⟩
  · simp only []
    split <;> exact clampTarget_canvas _

theorem retuneFollowers_freq (m : model) :
    m.retuneFollowers.freq = m.freq ∧ m.retuneFollowers.damping = m.damping := ⟨rfl, rfl⟩

theorem applyTune_bounds (m : model) (e : TuneEvent)
    (h : (1 ≤ m.freq ∧ m.freq ≤ 14) ∧ (2 / 100 ≤ m.damping ∧ m.damping ≤ 32 / 10)) :
    (1 ≤ (m.applyTune e).freq ∧ (m.applyTune e).freq ≤ 14) ∧
    (2 / 100 ≤ (m.applyTune e).damping ∧ (m.applyTune e).damping ≤ 32 / 10) := by
  cases e with
  | frequency delta =>
    refine ⟨⟨?_, ?_⟩, h.2⟩
    · exact clamp_ge _ 1 14 (by norm_num)
    · exact clamp_le _ 1 14 (by norm_num)
  | damping delta =>
    refine ⟨h.1, ⟨?_, ?_⟩⟩
    · exact clamp_ge _ (2 / 100) (32 / 10) (by norm_num)
    · exact clamp_le _ (2 / 100) (32 / 10) (by norm_num)

theorem runTune_bounds (events : List TuneEvent) :
    ∀ m : model, ((1 ≤ m.freq ∧ m.freq ≤ 14) ∧ (2 / 100 ≤ m.damping ∧ m.damping ≤ 32 / 10)) →
      (1 ≤ (m.runTune events).freq ∧ (m.runTune events).freq ≤ 14) ∧
      (2 / 100 ≤ (m.runTune events).damping ∧ (m.runTune events).damping ≤ 32 / 10) := by
  induction events with
  | nil => intro m h; exact h
  | cons e rest ih => intro m h; exact ih (m.applyTune e) (applyTune_bounds m e h)

/-- C7: starting from frequency 7.2 and damping 0.22, after any finite sequence
of adjustFrequency and adjustDamping calls with arbitrary deltas the frequency
is in [1, 14] and the damping in [0.02, 3.2]; each call sets its parameter to
clamp(old + delta, min, max). -/
theorem tuning_stays_in_range (rng : Rng) (events : List TuneEvent) :
    (newModel rng).freq = 72 / 10 ∧ (newModel rng).damping = 22 / 100 ∧
    (1 ≤ ((newModel rng).runTune events).freq ∧ ((newModel rng).runTune events).freq ≤ 14) ∧
    (2 / 100 ≤ ((newModel rng).runTune events).damping ∧
      ((newModel rng).runTune events).damping ≤ 32 / 10) ∧
    (∀ (m : model) (delta : ℚ), (m.adjustFrequency delta).freq = clamp (m.freq + delta) 1 14) ∧
    (∀ (m : model) (delta : ℚ),
      (m.adjustDamping delta).damping = clamp (m.damping + delta) (2 / 100) (32 / 10)) := by
  have h0 : (1 ≤ (newModel rng).freq ∧ (newModel rng).freq ≤ 14) ∧
      (2 / 100 ≤ (newModel rng).damping ∧ (newModel rng).damping ≤ 32 / 10) := by
    simp only [newModel]; norm_num
  have h := runTune_bounds events (newModel rng) h0
  exact ⟨rfl, rfl, h.1, h.2, fun _ _ => rfl, fun _ _ => rfl⟩

theorem retuneFollowers_kinematics (m : model) :
    m.retuneFollowers.followers.map follower.kinematics = m.followers.map follower.kinematics := by
  unfold model.retuneFollowers
  simp only [List.map_map]
  rfl

/-- C8: adjustFrequency and adjustDamping (through retuneFollowers) keep the
number of followers and, follower by follower, the order, position, velocity,
phase, speed, radius, seeds and trail; of the model only the followers'
springs and the adjusted parameter change. -/
theorem retune_keeps_motion (m : model) (delta : ℚ) :
    ((m.adjustFrequency delta).followers.length = m.followers.length ∧
      (m.adjustFrequency delta).followers.map follower.kinematics =
        m.followers.map follower.kinematics ∧
      m.adjustFrequency delta =
        { m with freq := (m.adjustFrequency delta).freq
                 followers := (m.adjustFrequency delta).followers }) ∧
    ((m.adjustDamping delta).followers.length = m.followers.length ∧
      (m.adjustDamping delta).followers.map follower.kinematics =
        m.followers.map follower.kinematics ∧
      m.adjustDamping delta =
        { m with damping := (m.adjustDamping delta).damping
                 followers := (m.adjustDamping delta).followers }) := by
  refine ⟨⟨?_, ?_, rfl⟩, ⟨?_, ?_, rfl⟩⟩
  · simp [model.adjustFrequency, model.retuneFollowers]
  · exact retuneFollowers_kinematics _
  · simp [model.adjustDamping, model.retuneFollowers]
  · exact retuneFollowers_kinematics _

/-! ## Target inside the canvas (C6) -/

theorem addFollower_frame (m : model) :
    m.addFollower.target = m.target ∧ m.addFollower.canvasWidth = m.canvasWidth ∧
    m.addFollower.canvasHeight = m.canvasHeight ∧ m.addFollower.ready = m.ready := by
  unfold model.addFollower
  split_ifs <;> exact ⟨rfl, rfl, rfl, rfl⟩

theorem fillFollowers_frame (n : Nat) :
    ∀ m : model, (fillFollowers n m).target = m.target ∧
      (fillFollowers n m).canvasWidth = m.canvasWidth ∧
      (fillFollowers n m).canvasHeight = m.canvasHeight ∧ (fillFollowers n m).ready = m.ready := by
  induction n with
  | zero => intro m; exact ⟨rfl, rfl, rfl, rfl⟩
  | succ n ih =>
    intro m
    unfold fillFollowers
    split_ifs
    · have h1 := ih m.addFollower
      have h2 := addFollower_frame m
      exact ⟨h1.1.trans h2.1, h1.2.1.trans h2.2.1, h1.2.2.1.trans h2.2.2.1, h1.2.2.2.trans h2.2.2.2⟩
    · exact ⟨rfl, rfl, rfl, rfl⟩

theorem Update_resize (E : Env) (m : model) (w h : Int) :
    (m.Update E (.WindowSizeMsg w h)).1 =
      if ({ m with width := w, height := h } : model).recomputeCanvas.ready = false ∧
          ({ m with width := w, height := h } : model).recomputeCanvas.canvasWidth > 0 ∧
          ({ m with width := w, height := h } : model).recomputeCanvas.canvasHeight > 0 then
        { fillFollowers initialFollowers
            { ({ m with width := w, height := h } : model).recomputeCanvas with
              target :=
                ⟨(({ m with width := w, height := h } : model).recomputeCanvas.canvasWidth : ℚ) / 2,
                 (({ m with width := w, height := h } : model).recomputeCanvas.canvasHeight : ℚ) / 2⟩ }
          with ready := true }
      else ({ m with width := w, height := h } : model).recomputeCanvas := by
  unfold model.Update
  simp only []

theorem recomputeCanvas_eq (m : model) :
    m.recomputeCanvas =
      if m.width ≤ 0 ∨ m.height ≤ 0 then m
      else ({ m with canvasWidth := m.width
                     canvasHeight := if m.height - 6 < 10 then imax (m.height - 2) 3
                                     else m.height - 6 } : model).clampTarget := by
  unfold model.recomputeCanvas
  simp only [statusLines]
  split_ifs <;> rfl

/-- C6 at the failing input: the first resize to a display one column wide
makes the model ready with the target at x = 1/2 on a canvas of width 1, to
the right of the last column 0. -/
theorem first_resize_width_one_target_outside (E : Env) (rng : Rng) :
    ((newModel rng).Update E (.WindowSizeMsg 1 24)).1.ready = true ∧
    ((newModel rng).Update E (.WindowSizeMsg 1 24)).1.canvasWidth = 1 ∧
    ((newModel rng).Update E (.WindowSizeMsg 1 24)).1.canvasHeight = 18 ∧
    ((newModel rng).Update E (.WindowSizeMsg 1 24)).1.target = ⟨1 / 2, 9⟩ ∧
    ¬ ((newModel rng).Update E (.WindowSizeMsg 1 24)).1.targetInside := by
  have hrc : ({ (newModel rng) with width := 1, height := 24 } : model).recomputeCanvas =
      { (newModel rng) with width := 1, height := 24, canvasWidth := 1, canvasHeight := 18 } := by
    rw [recomputeCanvas_eq, if_neg (by simp), clampTarget_eq, if_neg (by simp)]
    simp [newModel, clampAxis]
  rw [Update_resize, hrc, if_pos (by simp [newModel])]
  have hf := fillFollowers_frame initialFollowers
    { ({ (newModel rng) with width := 1, height := 24, canvasWidth := 1, canvasHeight := 18 } : model)
      with target := ⟨((1 : Int) : ℚ) / 2, ((18 : Int) : ℚ) / 2⟩ }
  simp only [] at hf ⊢
  generalize fillFollowers initialFollowers _ = X at hf ⊢
  obtain ⟨ht, hw, hh, _⟩ := hf
  refine ⟨trivial, hw, hh, ?_, ?_⟩
  · rw [ht]; norm_num
  · unfold model.targetInside
    simp only [ht, hw]
    norm_num

/-! ## Particle emitter (C9, C10) -/

theorem pruneSeeds_eq_filter (stageW stageH : ℚ) (seeds : List seed) :
    pruneSeeds stageW stageH seeds =
      (seeds.map seed.integrate).filter (fun s => decide (s.survives stageW stageH)) := by
  induction seeds with
  | nil => rfl
  | cons s rest ih =>
    unfold pruneSeeds
    simp only [List.map_cons, List.filter_cons]
    rw [ih]
    by_cases h1 : (s.integrate).life ≥ (s.integrate).ttl
    · have hn : ¬ (s.integrate).survives stageW stageH := fun h => absurd h.1 (not_lt.mpr h1)
      have h1' : s.life + deltaTime ≥ s.ttl := h1
      simp only [h1', hn, if_true, decide_False]
      rfl
    · have h1' : ¬ (s.life + deltaTime ≥ s.ttl) := h1
      by_cases h2 : (s.integrate).pos.x < -2 ∨ (s.integrate).pos.y < -2 ∨
          (s.integrate).pos.x > stageW + 2 ∨ (s.integrate).pos.y > stageH + 2
      · have hn : ¬ (s.integrate).survives stageW stageH := by
          intro h
          obtain ⟨_, a, b, c, d⟩ := h
          rcases h2 with h2 | h2 | h2 | h2 <;> linarith
        have h2' : s.projector.Update.pos.x < -2 ∨ s.projector.Update.pos.y < -2 ∨
          s.projector.Update.pos.x > stageW + 2 ∨ s.projector.Update.pos.y > stageH + 2 := h2
        simp only [h1', h2', hn, if_true, if_false, decide_False]
        rfl
      · have hy : (s.integrate).survives stageW stageH := by
          simp only [not_or, not_lt] at h2
          exact ⟨not_le.mp h1, h2.1, h2.2.2.1, h2.2.1, h2.2.2.2⟩
        have h2' : ¬ (s.projector.Update.pos.x < -2 ∨ s.projector.Update.pos.y < -2 ∨
          s.projector.Update.pos.x > stageW + 2 ∨ s.projector.Update.pos.y > stageH + 2) := h2
        simp only [h1', h2', hy, if_true, if_false, decide_True]
        rfl

theorem emitSeed_seeds (m : model) (theme : moodTheme) :
    ∃ spawned : List seed, spawned.length ≤ 1 ∧ (m.emitSeed theme).seeds = m.seeds ++ spawned ∧
      (∀ s ∈ spawned, s.life = 0) ∧
      (m.emitSeed theme).canvasWidth = m.canvasWidth ∧
      (m.emitSeed theme).canvasHeight = m.canvasHeight := by
  unfold model.emitSeed
  split_ifs
  · exact ⟨[], by simp, by simp, by simp, rfl, rfl⟩
  · exact ⟨[_], by simp, rfl, by simp, rfl, rfl⟩

theorem advanceSeedTimer_seeds (m : model) (mood : moodTheme) :
    ∃ spawned : List seed, spawned.length ≤ 1 ∧
      (m.advanceSeedTimer mood).seeds = m.seeds ++ spawned ∧ (∀ s ∈ spawned, s.life = 0) := by
  unfold model.advanceSeedTimer
  simp only []
  split_ifs
  · obtain ⟨sp, h1, h2, h3, _⟩ :=
      emitSeed_seeds { m with seedTimer := m.seedTimer + deltaTime } mood
    exact ⟨sp, h1, h2, h3⟩
  · exact ⟨[], by simp, by simp, by simp⟩

theorem updateSeeds_seeds (E : Env) (m : model) (hw : m.canvasWidth ≠ 0) (hh : m.canvasHeight ≠ 0) :
    (m.updateSeeds E).seeds =
      ((m.advanceSeedTimer (m.currentMood E)).seeds.map seed.integrate).filter
        (fun s => decide (s.survives (m.canvasWidth : ℚ) (m.canvasHeight : ℚ))) := by
  unfold model.updateSeeds
  have hw' : ¬ ((m.canvasWidth : ℚ) = 0 ∨ (m.canvasHeight : ℚ) = 0) := by
    simp only [Int.cast_eq_zero]
    tauto
  simp only [if_neg hw']
  exact pruneSeeds_eq_filter _ _ _

/-- C9: after updateSeeds on a canvas of non-zero size the live particles are
exactly, in their original order, the integrated particles (those live before
the tick and the one spawned in it, if any) whose life is below their ttl and
whose position is within [-2, width+2] x [-2, height+2]; none of them has
life ≥ ttl. -/
theorem updateSeeds_rebuilds_live_set (E : Env) (m : model)
    (hw : m.canvasWidth ≠ 0) (hh : m.canvasHeight ≠ 0) :
    ∃ spawned : List seed, spawned.length ≤ 1 ∧
      (m.updateSeeds E).seeds =
        ((m.seeds ++ spawned).map seed.integrate).filter
          (fun s => decide (s.life < s.ttl ∧
            (-2 ≤ s.pos.x ∧ s.pos.x ≤ (m.canvasWidth : ℚ) + 2 ∧
             -2 ≤ s.pos.y ∧ s.pos.y ≤ (m.canvasHeight : ℚ) + 2))) ∧
      (m.updateSeeds E).seeds.Sublist ((m.seeds ++ spawned).map seed.integrate) ∧
      ∀ s ∈ (m.updateSeeds E).seeds, ¬ (s.life ≥ s.ttl) := by
  obtain ⟨spawned, h1, h2, _⟩ := advanceSeedTimer_seeds m (m.currentMood E)
  have h := updateSeeds_seeds E m hw hh
  rw [h2] at h
  refine ⟨spawned, h1, h, ?_, ?_⟩
  · rw [h]
    exact List.filter_sublist _
  · intro s hs
    rw [h] at hs
    have := (List.mem_filter.mp hs).2
    simp only [decide_eq_true_eq] at this
    exact not_le.mpr this.1

theorem updateSeeds_rebuilds_live_set_witness :
    (seededModel.canvasWidth ≠ 0 ∧ seededModel.canvasHeight ≠ 0) ∧
    ∃ spawned : List seed, spawned.length ≤ 1 ∧
      (seededModel.updateSeeds flatEnv).seeds =
        ((seededModel.seeds ++ spawned).map seed.integrate).filter
          (fun s => decide (s.life < s.ttl ∧
            (-2 ≤ s.pos.x ∧ s.pos.x ≤ (seededModel.canvasWidth : ℚ) + 2 ∧
             -2 ≤ s.pos.y ∧ s.pos.y ≤ (seededModel.canvasHeight : ℚ) + 2))) ∧
      (seededModel.updateSeeds flatEnv).seeds.Sublist
        ((seededModel.seeds ++ spawned).map seed.integrate) ∧
      ∀ s ∈ (seededModel.updateSeeds flatEnv).seeds, ¬ (s.life ≥ s.ttl) :=
  ⟨⟨by decide!, by decide!⟩,
   updateSeeds_rebuilds_live_set flatEnv seededModel (by decide!) (by decide!)⟩

theorem integrate_iterate_life (s : seed) (n : Nat) :
    (seed.integrate^[n] s).life = s.life + (n : ℚ) * deltaTime ∧ (seed.integrate^[n] s).ttl = s.ttl := by
  induction n with
  | zero => simp
  | succ n ih =>
    rw [Function.iterate_succ_apply']
    constructor
    · show (seed.integrate^[n] s).life + deltaTime = _
      rw [ih.1]; push_cast; ring
    · show (seed.integrate^[n] s).ttl = _
      exact ih.2

theorem emitSeed_canvas (m : model) (theme : moodTheme) :
    (m.emitSeed theme).canvasWidth = m.canvasWidth ∧
    (m.emitSeed theme).canvasHeight = m.canvasHeight ∧
    (m.emitSeed theme).moodIndex = m.moodIndex := by
  unfold model.emitSeed
  split_ifs <;> exact ⟨rfl, rfl, rfl⟩

theorem advanceSeedTimer_canvas (m : model) (mood : moodTheme) :
    (m.advanceSeedTimer mood).canvasWidth = m.canvasWidth ∧
    (m.advanceSeedTimer mood).canvasHeight = m.canvasHeight ∧
    (m.advanceSeedTimer mood).moodIndex = m.moodIndex := by
  unfold model.advanceSeedTimer
  simp only []
  split_ifs
  · exact emitSeed_canvas { m with seedTimer := m.seedTimer + deltaTime } mood
  · exact ⟨rfl, rfl, rfl⟩

theorem updateSeeds_canvas (E : Env) (m : model) :
    (m.updateSeeds E).canvasWidth = m.canvasWidth ∧
    (m.updateSeeds E).canvasHeight = m.canvasHeight := by
  unfold model.updateSeeds
  simp only []
  split_ifs
  · exact ⟨rfl, rfl⟩
  · exact ⟨(advanceSeedTimer_canvas m _).1, (advanceSeedTimer_canvas m _).2.1⟩

theorem updateSeeds_iterate_canvas (E : Env) (n : Nat) :
    ∀ m : model, ((model.updateSeeds E)^[n] m).canvasWidth = m.canvasWidth ∧
      ((model.updateSeeds E)^[n] m).canvasHeight = m.canvasHeight := by
  induction n with
  | zero => intro m; exact ⟨rfl, rfl⟩
  | succ n ih =>
    intro m
    rw [Function.iterate_succ_apply]
    have h1 := ih (m.updateSeeds E)
    have h2 := updateSeeds_canvas E m
    exact ⟨h1.1.trans h2.1, h1.2.trans h2.2⟩

theorem mem_advanceSeedTimer (m : model) (mood : moodTheme) (s : seed) (hs : s ∈ m.seeds) :
    s ∈ (m.advanceSeedTimer mood).seeds := by
  obtain ⟨sp, _, h, _⟩ := advanceSeedTimer_seeds m mood
  rw [h]
  exact List.mem_append_left _ hs

theorem updateSeeds_keeps (E : Env) (m : model) (s : seed)
    (hw : m.canvasWidth ≠ 0) (hh : m.canvasHeight ≠ 0)
    (hs : s ∈ (m.advanceSeedTimer (m.currentMood E)).seeds)
    (hk : s.integrate.survives (m.canvasWidth : ℚ) (m.canvasHeight : ℚ)) :
    s.integrate ∈ (m.updateSeeds E).seeds := by
  rw [updateSeeds_seeds E m hw hh, List.mem_filter]
  exact ⟨List.mem_map_of_mem _ hs, by simpa using hk⟩

theorem updateSeeds_all_young (E : Env) (m : model) (hw : m.canvasWidth ≠ 0) (hh : m.canvasHeight ≠ 0) :
    ∀ s ∈ (m.updateSeeds E).seeds, s.life < s.ttl := by
  intro s hs
  rw [updateSeeds_seeds E m hw hh, List.mem_filter] at hs
  have := hs.2
  simp only [decide_eq_true_eq] at this
  exact this.1

theorem updateSeeds_iterate_keeps (E : Env) (n : Nat) :
    ∀ (m : model) (s : seed), m.canvasWidth ≠ 0 → m.canvasHeight ≠ 0 →
      s ∈ (m.advanceSeedTimer (m.currentMood E)).seeds →
      (∀ j, 1 ≤ j → j ≤ n + 1 →
        (seed.integrate^[j] s).survives (m.canvasWidth : ℚ) (m.canvasHeight : ℚ)) →
      seed.integrate^[n + 1] s ∈ ((model.updateSeeds E)^[n + 1] m).seeds := by
  induction n with
  | zero =>
    intro m s hw hh hs hk
    exact updateSeeds_keeps E m s hw hh hs (hk 1 le_rfl le_rfl)
  | succ n ih =>
    intro m s hw hh hs hk
    rw [Function.iterate_succ_apply, Function.iterate_succ_apply]
    have hc := updateSeeds_canvas E m
    have h1 : s.integrate ∈ (m.updateSeeds E).seeds :=
      updateSeeds_keeps E m s hw hh hs (hk 1 le_rfl (by omega))
    refine ih (m.updateSeeds E) s.integrate (by rw [hc.1]; exact hw) (by rw [hc.2]; exact hh)
      (mem_advanceSeedTimer _ _ _ h1) ?_
    intro j hj1 hj2
    rw [hc.1, hc.2]
    have := hk (j + 1) (by omega) (by omega)
    rwa [Function.iterate_succ_apply] at this

/-- C10, amended: a particle that is in the set integrated at a tick (live
before it, or spawned in it with life 0) accumulates one timestep of life per
tick; it is in the live set after every tick up to which its life has stayed
below its ttl and its position within the 2-cell margin of the canvas, and it
is not in the live set after a tick at which its life is ≥ ttl. -/
theorem particle_lives_until_ttl_or_margin (E : Env) (m : model) (s : seed) (n : Nat)
    (hw : m.canvasWidth ≠ 0) (hh : m.canvasHeight ≠ 0)
    (hs : s ∈ (m.advanceSeedTimer (m.currentMood E)).seeds) :
    (seed.integrate^[n + 1] s).life = s.life + ((n + 1 : Nat) : ℚ) * deltaTime ∧
    ((∀ j, 1 ≤ j → j ≤ n + 1 →
        (seed.integrate^[j] s).life < s.ttl ∧
        (seed.integrate^[j] s).inMargin (m.canvasWidth : ℚ) (m.canvasHeight : ℚ)) →
      seed.integrate^[n + 1] s ∈ ((model.updateSeeds E)^[n + 1] m).seeds) ∧
    ((seed.integrate^[n + 1] s).life ≥ s.ttl →
      seed.integrate^[n + 1] s ∉ ((model.updateSeeds E)^[n + 1] m).seeds) := by
  refine ⟨(integrate_iterate_life s (n + 1)).1, ?_, ?_⟩
  · intro hk
    refine updateSeeds_iterate_keeps E n m s hw hh hs ?_
    intro j hj1 hj2
    have := hk j hj1 hj2
    exact ⟨by rw [(integrate_iterate_life s j).2]; exact this.1, this.2⟩
  · intro hold hmem
    rw [Function.iterate_succ_apply'] at hmem
    have hc := updateSeeds_iterate_canvas E n m
    have := updateSeeds_all_young E ((model.updateSeeds E)^[n] m)
      (by rw [hc.1]; exact hw) (by rw [hc.2]; exact hh) _ hmem
    rw [(integrate_iterate_life s (n + 1)).2] at this
    exact absurd this (not_lt.mpr hold)

theorem particle_lives_until_ttl_or_margin_witness :
    (seededModel.canvasWidth ≠ 0 ∧ seededModel.canvasHeight ≠ 0 ∧
      sampleSeed ∈ (seededModel.advanceSeedTimer (seededModel.currentMood flatEnv)).seeds) ∧
    ((seed.integrate^[2 + 1] sampleSeed).life = sampleSeed.life + ((2 + 1 : Nat) : ℚ) * deltaTime ∧
    ((∀ j, 1 ≤ j → j ≤ 2 + 1 →
        (seed.integrate^[j] sampleSeed).life < sampleSeed.ttl ∧
        (seed.integrate^[j] sampleSeed).inMargin (seededModel.canvasWidth : ℚ)
          (seededModel.canvasHeight : ℚ)) →
      seed.integrate^[2 + 1] sampleSeed ∈ ((model.updateSeeds flatEnv)^[2 + 1] seededModel).seeds) ∧
    ((seed.integrate^[2 + 1] sampleSeed).life ≥ sampleSeed.ttl →
      seed.integrate^[2 + 1] sampleSeed ∉ ((model.updateSeeds flatEnv)^[2 + 1] seededModel).seeds)) :=
  ⟨⟨by decide!, by decide!, by decide!⟩,
   particle_lives_until_ttl_or_margin flatEnv seededModel sampleSeed 2
     (by decide!) (by decide!) (by decide!)⟩

/-- C10 as stated fails: on an 80 x 24 display with the target walked to the
top row, the particle spawned at tick 17 with ttl 2.21 is live after tick 28
with life 12/60, and is gone after tick 29, where its life 13/60 is still
below its ttl: it has risen more than two cells above the canvas. -/
theorem particle_dropped_before_ttl :
    (topRowRun 17).seeds.map (fun s => (s.life, s.ttl)) = [(1 / 60, 221 / 100)] ∧
    (topRowRun 28).seeds.map (fun s => (s.life, s.ttl)) = [(12 / 60, 221 / 100)] ∧
    (∀ s ∈ (topRowRun 28).seeds, s.integrate.life < s.ttl) ∧
    (topRowRun 29).seeds = [] := by
  decide!

/-! ## Layered cell canvas (C3, C4) -/

theorem Canvas.at_eq (canvas : Canvas) (x y : Int) (hx0 : 0 ≤ x) (hy0 : 0 ≤ y) :
    canvas.at y x = (canvas[y.toNat]?).bind (fun row => row[x.toNat]?) := by
  have hn : ¬ (y < 0 ∨ x < 0) := by omega
  unfold Canvas.at
  rw [if_neg hn]
  cases canvas[y.toNat]? <;> rfl

theorem Canvas.at_of_sized (canvas : Canvas) (H W x y : Int) (hs : canvas.sized H W)
    (hx0 : 0 ≤ x) (hx : x < W) (hy0 : 0 ≤ y) (hy : y < H) : ∃ cur, canvas.at y x = some cur := by
  obtain ⟨hl, hr⟩ := hs
  have hyl : y.toNat < canvas.length := by rw [hl]; omega
  have hrow := hr _ (List.getElem_mem hyl)
  have hxl : x.toNat < (canvas[y.toNat]).length := by rw [hrow]; omega
  rw [Canvas.at_eq canvas x y hx0 hy0, List.getElem?_eq_getElem hyl]
  exact ⟨_, List.getElem?_eq_getElem hxl⟩

theorem Canvas.put_of_sized (canvas : Canvas) (H W x y : Int) (v : cell) (hs : canvas.sized H W)
    (hx0 : 0 ≤ x) (hx : x < W) (hy0 : 0 ≤ y) (hy : y < H) :
    ∃ next, canvas.put y x v = some next ∧ next.sized H W ∧
      ∀ x1 y1 : Int, 0 ≤ x1 → 0 ≤ y1 →
        next.at y1 x1 = if x1 = x ∧ y1 = y then some v else canvas.at y1 x1 := by
  obtain ⟨hl, hr⟩ := hs
  have hyl : y.toNat < canvas.length := by rw [hl]; omega
  have hrow := hr _ (List.getElem_mem hyl)
  have hxl : x.toNat < (canvas[y.toNat]).length := by rw [hrow]; omega
  have hn : ¬ (y < 0 ∨ x < 0) := by omega
  have hput : canvas.put y x v = some (canvas.set y.toNat ((canvas[y.toNat]).set x.toNat v)) := by
    unfold Canvas.put
    rw [if_neg hn, List.getElem?_eq_getElem hyl]
    simp only []
    rw [if_pos hxl]
  refine ⟨_, hput, ⟨?_, ?_⟩, ?_⟩
  · rw [List.length_set]; exact hl
  · intro row hrowmem
    rcases List.mem_or_eq_of_mem_set hrowmem with h | h
    · exact hr row h
    · rw [h, List.length_set]; exact hrow
  · intro x1 y1 hx1 hy1
    rw [Canvas.at_eq _ x1 y1 hx1 hy1, Canvas.at_eq _ x1 y1 hx1 hy1]
    by_cases hyy : y1 = y
    · subst hyy
      rw [List.getElem?_set_self hyl, List.getElem?_eq_getElem hyl]
      simp only [Option.some_bind, Option.bind_some]
      by_cases hxx : x1 = x
      · subst hxx
        rw [List.getElem?_set_self hxl]
        simp
      · have hne : x.toNat ≠ x1.toNat := by omega
        rw [List.getElem?_set_ne hne]
        simp [hxx]
    · have hne : y.toNat ≠ y1.toNat := by omega
      rw [List.getElem?_set_ne hne]
      simp [hyy]

theorem Canvas.paintedBy_refl (canvas : Canvas) (H W : Int) (hs : canvas.sized H W)
    (aims : Int → Int → List (Option Stroke))
    (h : ∀ x y, 0 ≤ x → x < W → 0 ≤ y → y < H → aims x y = []) :
    canvas.paintedBy canvas H W aims := by
  refine ⟨hs, ?_⟩
  intro x y hx0 hx hy0 hy
  refine ⟨[], by rw [h x y hx0 hx hy0 hy]; rfl, ?_⟩
  cases canvas.at y x <;> rfl

theorem Canvas.paintedBy_congr (c0 c1 : Canvas) (H W : Int)
    (a1 a2 : Int → Int → List (Option Stroke))
    (h : ∀ x y, 0 ≤ x → x < W → 0 ≤ y → y < H → a1 x y = a2 x y)
    (h1 : c0.paintedBy c1 H W a1) : c0.paintedBy c1 H W a2 := by
  refine ⟨h1.1, ?_⟩
  intro x y hx0 hx hy0 hy
  rw [← h x y hx0 hx hy0 hy]
  exact h1.2 x y hx0 hx hy0 hy

theorem Canvas.paintedBy_trans (c0 c1 c2 : Canvas) (H W : Int)
    (a1 a2 : Int → Int → List (Option Stroke))
    (h1 : c0.paintedBy c1 H W a1) (h2 : c1.paintedBy c2 H W a2) :
    c0.paintedBy c2 H W (fun x y => a1 x y ++ a2 x y) := by
  refine ⟨h2.1, ?_⟩
  intro x y hx0 hx hy0 hy
  obtain ⟨w1, e1, r1⟩ := h1.2 x y hx0 hx hy0 hy
  obtain ⟨w2, e2, r2⟩ := h2.2 x y hx0 hx hy0 hy
  refine ⟨w1 ++ w2, by simp only [e1, e2, List.map_append], ?_⟩
  rw [r2, r1]
  cases c0.at y x with
  | none => rfl
  | some cur => simp [List.foldl_append]

theorem paintEach_paintedBy {α : Type} (H W : Int) (body : Canvas → α → Option Canvas)
    (aims : α → Int → Int → List (Option Stroke)) (items : List α)
    (hbody : ∀ a ∈ items, ∀ c0 c1 : Canvas, c0.sized H W → body c0 a = some c1 →
      c0.paintedBy c1 H W (aims a)) :
    ∀ c0 c1 : Canvas, c0.sized H W → paintEach body items c0 = some c1 →
      c0.paintedBy c1 H W (fun x y => items.flatMap (fun a => aims a x y)) := by
  induction items with
  | nil =>
    intro c0 c1 hs h
    simp only [paintEach, Option.some.injEq] at h
    subst h
    exact Canvas.paintedBy_refl _ H W hs _ (fun _ _ _ _ _ _ => rfl)
  | cons a rest ih =>
    intro c0 c1 hs h
    unfold paintEach at h
    cases hb : body c0 a with
    | none => rw [hb] at h; exact absurd h (by simp)
    | some cm =>
      rw [hb] at h
      simp only [] at h
      have h1 := hbody a (List.mem_cons_self _ _) c0 cm hs hb
      have h2 := ih (fun b hb0 => hbody b (List.mem_cons_of_mem _ hb0)) cm c1 h1.1 h
      have := Canvas.paintedBy_trans c0 cm c1 H W _ _ h1 h2
      simpa only [List.flatMap_cons] using this

/-- The guarded overwrite that ends the body of the trail and particle loops,
for a point inside the canvas. -/
theorem overwrite_paintedBy (c0 c1 : Canvas) (H W px py : Int) (s : Stroke)
    (hs : c0.sized H W) (hx0 : 0 ≤ px) (hx : px < W) (hy0 : 0 ≤ py) (hy : py < H)
    (h : (match c0.at py px with
          | none => none
          | some cur =>
            if (s.onto cur.bg).priority ≥ cur.priority then c0.put py px (s.onto cur.bg)
            else some c0) = some c1) :
    c0.paintedBy c1 H W (fun x y => if x = px ∧ y = py then [some s] else []) := by
  obtain ⟨cur, hcur⟩ := Canvas.at_of_sized c0 H W px py hs hx0 hx hy0 hy
  rw [hcur] at h
  simp only [] at h
  by_cases hp : (s.onto cur.bg).priority ≥ cur.priority
  · rw [if_pos hp] at h
    obtain ⟨next, hput, hsz, hat⟩ := Canvas.put_of_sized c0 H W px py (s.onto cur.bg) hs hx0 hx hy0 hy
    rw [hput] at h
    cases h
    refine ⟨hsz, ?_⟩
    intro x y hx0' _ hy0' _
    rw [hat x y hx0' hy0']
    by_cases hxy : x = px ∧ y = py
    · obtain ⟨rfl, rfl⟩ := hxy
      refine ⟨[s], by simp, ?_⟩
      have hp' : s.priority ≥ cur.priority := hp
      simp [hcur, cell.paint, hp']
    · refine ⟨[], by simp [hxy], ?_⟩
      rw [if_neg hxy]
      cases c0.at y x <;> rfl
  · rw [if_neg hp] at h
    cases h
    refine ⟨hs, ?_⟩
    intro x y _ _ _ _
    by_cases hxy : x = px ∧ y = py
    · obtain ⟨rfl, rfl⟩ := hxy
      refine ⟨[s], by simp, ?_⟩
      have hp' : ¬ s.priority ≥ cur.priority := hp
      simp [hcur, cell.paint, hp']
    · refine ⟨[], by simp [hxy], ?_⟩
      cases c0.at y x <;> rfl

theorem paintTrailPoint_paintedBy (E : Env) (m : model) (theme : moodTheme) (f : follower)
    (i : Nat) (c0 c1 : Canvas) (hs : c0.sized m.canvasHeight m.canvasWidth)
    (h : m.paintTrailPoint E theme f c0 i = some c1) :
    c0.paintedBy c1 m.canvasHeight m.canvasWidth (fun x y =>
      match f.trace[i]? with
      | some p => if roundInt p.x = x ∧ roundInt p.y = y then [trailStroke E theme f i] else []
      | none => []) := by
  unfold model.paintTrailPoint at h
  cases hp : f.trace[i]? with
  | none => rw [hp] at h; exact absurd h (by simp)
  | some p =>
    rw [hp] at h
    simp only [] at h
    by_cases hout : roundInt p.x < 0 ∨ roundInt p.y < 0 ∨ roundInt p.x ≥ m.canvasWidth ∨
        roundInt p.y ≥ m.canvasHeight
    · rw [if_pos hout] at h
      cases h
      refine Canvas.paintedBy_refl _ _ _ hs _ ?_
      intro x y hx0 hx hy0 hy
      have : ¬ (roundInt p.x = x ∧ roundInt p.y = y) := by omega
      simp [this]
    · rw [if_neg hout] at h
      cases hst : trailStroke E theme f i with
      | none => rw [hst] at h; exact absurd h (by simp)
      | some stroke =>
        rw [hst] at h
        simp only [] at h
        have := overwrite_paintedBy c0 c1 m.canvasHeight m.canvasWidth (roundInt p.x) (roundInt p.y)
          stroke hs (by omega) (by omega) (by omega) (by omega) h
        refine Canvas.paintedBy_congr _ _ _ _ _ _ ?_ this
        intro x y _ _ _ _
        by_cases hxy : x = roundInt p.x ∧ y = roundInt p.y
        · obtain ⟨rfl, rfl⟩ := hxy
          simp
        · have : ¬ (roundInt p.x = x ∧ roundInt p.y = y) := fun hc => hxy ⟨hc.1.symm, hc.2.symm⟩
          simp [hxy, this]

theorem paintTrails_paintedBy (E : Env) (m : model) (theme : moodTheme) (c0 c1 : Canvas)
    (hs : c0.sized m.canvasHeight m.canvasWidth) (h : m.paintTrails E c0 theme = some c1) :
    c0.paintedBy c1 m.canvasHeight m.canvasWidth
      (fun x y => m.followers.flatMap (fun f => trailAims E theme f x y)) := by
  unfold model.paintTrails at h
  refine paintEach_paintedBy _ _ _ (fun f x y => trailAims E theme f x y) m.followers ?_ c0 c1 hs h
  intro f _ d0 d1 hd hb
  simp only [] at hb
  by_cases hz : f.trace.length = 0
  · rw [if_pos hz] at hb
    cases hb
    refine Canvas.paintedBy_refl _ _ _ hd _ ?_
    intro x y _ _ _ _
    simp [trailAims, hz]
  · rw [if_neg hz] at hb
    exact paintEach_paintedBy _ _ _ _ (List.range f.trace.length)
      (fun i _ e0 e1 he hbi => paintTrailPoint_paintedBy E m theme f i e0 e1 he hbi) d0 d1 hd hb

theorem paintSeeds_paintedBy (m : model) (theme : moodTheme) (c0 c1 : Canvas)
    (hs : c0.sized m.canvasHeight m.canvasWidth) (h : m.paintSeeds c0 theme = some c1) :
    c0.paintedBy c1 m.canvasHeight m.canvasWidth
      (fun x y => m.seeds.flatMap (fun s => seedAims theme s x y)) := by
  unfold model.paintSeeds at h
  refine paintEach_paintedBy _ _ _ (fun s x y => seedAims theme s x y) m.seeds ?_ c0 c1 hs h
  intro s _ d0 d1 hd hb
  simp only [] at hb
  by_cases hout : roundInt s.pos.x < 0 ∨ roundInt s.pos.y < 0 ∨ roundInt s.pos.x ≥ m.canvasWidth ∨
      roundInt s.pos.y ≥ m.canvasHeight
  · rw [if_pos hout] at hb
    cases hb
    refine Canvas.paintedBy_refl _ _ _ hd _ ?_
    intro x y hx0 hx hy0 hy
    have : ¬ (roundInt s.pos.x = x ∧ roundInt s.pos.y = y) := by omega
    simp [seedAims, this]
  · rw [if_neg hout] at hb
    have := overwrite_paintedBy d0 d1 m.canvasHeight m.canvasWidth (roundInt s.pos.x)
      (roundInt s.pos.y) (seedStroke theme s) hd (by omega) (by omega) (by omega) (by omega) hb
    refine Canvas.paintedBy_congr _ _ _ _ _ _ ?_ this
    intro x y _ _ _ _
    by_cases hxy : x = roundInt s.pos.x ∧ y = roundInt s.pos.y
    · obtain ⟨rfl, rfl⟩ := hxy
      simp [seedAims]
    · have : ¬ (roundInt s.pos.x = x ∧ roundInt s.pos.y = y) :=
        fun hc => hxy ⟨hc.1.symm, hc.2.symm⟩
      simp [seedAims, hxy, this]

theorem buildList_spec {α : Type} (body : Nat → Option α) (n : Nat) :
    ∀ l : List α, buildList body n = some l →
      l.length = n ∧ ∀ i, i < n → body i = l[i]? := by
  induction n with
  | zero =>
    intro l h
    simp only [buildList, Option.some.injEq] at h
    subst h
    exact ⟨rfl, fun i hi => absurd hi (Nat.not_lt_zero i)⟩
  | succ n ih =>
    intro l h
    unfold buildList at h
    cases hd : buildList body n with
    | none => rw [hd] at h; exact absurd h (by simp)
    | some done =>
      rw [hd] at h
      simp only [] at h
      cases hb : body n with
      | none => rw [hb] at h; exact absurd h (by simp)
      | some a =>
        rw [hb] at h
        simp only [Option.some.injEq] at h
        subst h
        obtain ⟨hl, hi⟩ := ih done hd
        refine ⟨by simp [hl], ?_⟩
        intro i hi'
        by_cases hlt : i < n
        · rw [hi i hlt, List.getElem?_append_left (by omega)]
        · have : i = n := by omega
          subst this
          rw [hb, List.getElem?_append_right (by omega)]
          simp [hl]

theorem prepareCanvas_spec (E : Env) (m : model) (theme : moodTheme) (c0 : Canvas)
    (h : m.prepareCanvas E theme = some c0) :
    c0.sized m.canvasHeight m.canvasWidth ∧
    ∀ x y : Int, 0 ≤ x → x < m.canvasWidth → 0 ≤ y → y < m.canvasHeight →
      ∃ cur, m.backdropCell E theme x y = some cur ∧ c0.at y x = some cur := by
  unfold model.prepareCanvas at h
  by_cases hneg : m.canvasHeight < 0
  · rw [if_pos hneg] at h; exact absurd h (by simp)
  · rw [if_neg hneg] at h
    obtain ⟨hlen, hrows⟩ := buildList_spec _ _ c0 h
    have hrow : ∀ j (hj : j < c0.length),
        0 ≤ m.canvasWidth ∧ (c0[j]).length = m.canvasWidth.toNat ∧
        ∀ i, i < m.canvasWidth.toNat →
          m.backdropCell E theme (i : Int) (j : Int) = (c0[j])[i]? := by
      intro j hj
      have hj' := hrows j (by omega)
      rw [List.getElem?_eq_getElem hj] at hj'
      by_cases hw : m.canvasWidth < 0
      · rw [if_pos hw] at hj'; exact absurd hj' (by simp)
      · rw [if_neg hw] at hj'
        obtain ⟨h1, h2⟩ := buildList_spec _ _ _ hj'
        exact ⟨by omega, h1, h2⟩
    refine ⟨⟨hlen, ?_⟩, ?_⟩
    · intro row hmem
      obtain ⟨j, hj, rfl⟩ := List.getElem_of_mem hmem
      exact (hrow j hj).2.1
    · intro x y hx0 hx hy0 hy
      have hyl : y.toNat < c0.length := by omega
      obtain ⟨_, hrl, hcells⟩ := hrow y.toNat hyl
      have hxl : x.toNat < (c0[y.toNat]).length := by omega
      have hcell := hcells x.toNat (by omega)
      rw [Int.toNat_of_nonneg hx0, Int.toNat_of_nonneg hy0, List.getElem?_eq_getElem hxl] at hcell
      refine ⟨_, hcell, ?_⟩
      rw [Canvas.at_eq c0 x y hx0 hy0, List.getElem?_eq_getElem hyl]
      exact List.getElem?_eq_getElem hxl

theorem backdropCell_priority (E : Env) (m : model) (theme : moodTheme) (x y : Int) (cur : cell)
    (h : m.backdropCell E theme x y = some cur) : cur.priority = 0 ∧ cur.bold = false := by
  unfold model.backdropCell at h
  simp only [] at h
  split_ifs at h
  split at h
  · exact absurd h (by simp)
  · split at h
    · cases h; exact ⟨rfl, rfl⟩
    · cases h; exact ⟨rfl, rfl⟩

theorem trailStroke_priority (E : Env) (theme : moodTheme) (f : follower) (i : Nat) (s : Stroke)
    (h : trailStroke E theme f i = some s) :
    s.priority = if i + 1 = f.trace.length then 3 else 1 := by
  unfold trailStroke at h
  simp only [] at h
  split at h
  · exact absurd h (by simp)
  · cases h
    by_cases hi : i + 1 = f.trace.length
    · have : (i : Int) = (f.trace.length : Int) - 1 := by omega
      simp [hi, this]
    · have : ¬ (i : Int) = (f.trace.length : Int) - 1 := by omega
      simp [hi, this]

theorem paint_bg (c : cell) (s : Stroke) : (c.paint s).bg = c.bg := by
  unfold cell.paint
  split_ifs <;> rfl

theorem foldl_paint_bg (ws : List Stroke) : ∀ c : cell, (ws.foldl cell.paint c).bg = c.bg := by
  induction ws with
  | nil => intro c; rfl
  | cons w rest ih => intro c; rw [List.foldl_cons, ih, paint_bg]

theorem paint_priority (c : cell) (s : Stroke) : (c.paint s).priority = max c.priority s.priority := by
  unfold cell.paint
  split_ifs with h
  · exact (max_eq_right h).symm
  · exact (max_eq_left (le_of_lt (not_le.mp h))).symm

theorem foldl_paint_priority_le (ws : List Stroke) (k : Int) :
    ∀ c : cell, c.priority ≤ k → (∀ v ∈ ws, v.priority ≤ k) →
      (ws.foldl cell.paint c).priority ≤ k := by
  induction ws with
  | nil => intro c hc _; exact hc
  | cons w rest ih =>
    intro c hc hv
    rw [List.foldl_cons]
    refine ih _ ?_ (fun v hvm => hv v (List.mem_cons_of_mem _ hvm))
    rw [paint_priority]
    exact max_le hc (hv w (List.mem_cons_self _ _))

theorem foldl_paint_priority_max (ws : List Stroke) :
    ∀ c : cell, (ws.foldl cell.paint c).priority ∈ c.priority :: ws.map Stroke.priority ∧
      ∀ p ∈ c.priority :: ws.map Stroke.priority, p ≤ (ws.foldl cell.paint c).priority := by
  induction ws with
  | nil => intro c; simp
  | cons w rest ih =>
    intro c
    rw [List.foldl_cons]
    obtain ⟨h1, h2⟩ := ih (c.paint w)
    rw [paint_priority] at h1 h2
    constructor
    · rcases List.mem_cons.mp h1 with h | h
      · rw [h]
        rcases max_choice c.priority w.priority with hm | hm <;> rw [hm] <;> simp
      · simp only [List.map_cons, List.mem_cons]
        exact Or.inr (Or.inr h)
    · intro p hp
      simp only [List.map_cons, List.mem_cons] at hp
      have hmax := h2 _ (List.mem_cons_self _ _)
      rcases hp with hp | hp | hp
      · rw [hp]; exact le_trans (le_max_left _ _) hmax
      · rw [hp]; exact le_trans (le_max_right _ _) hmax
      · exact h2 p (List.mem_cons_of_mem _ hp)

theorem foldl_paint_lt (ws : List Stroke) (c : cell) (h : ∀ v ∈ ws, v.priority < c.priority) :
    ws.foldl cell.paint c = c := by
  induction ws with
  | nil => rfl
  | cons w rest ih =>
    have hw := h w (List.mem_cons_self _ _)
    have : c.paint w = c := by
      unfold cell.paint
      rw [if_neg (not_le.mpr hw)]
    rw [List.foldl_cons, this]
    exact ih (fun v hv => h v (List.mem_cons_of_mem _ hv))

theorem paint_of_le (c : cell) (w : Stroke) (h : c.priority ≤ w.priority) :
    c.paint w = w.onto c.bg := by
  unfold cell.paint
  rw [if_pos h]

/-- Among the strokes painted onto a cell, the last one of the highest
priority decides the cell. -/
theorem foldl_paint_winner (ws pre post : List Stroke) (c : cell) (w : Stroke)
    (hsplit : c.stroke :: ws = pre ++ w :: post)
    (hpre : ∀ v ∈ pre, v.priority ≤ w.priority)
    (hpost : ∀ v ∈ post, v.priority < w.priority) :
    (ws.foldl cell.paint c).stroke = w := by
  cases pre with
  | nil =>
    simp only [List.nil_append, List.cons.injEq] at hsplit
    obtain ⟨hw, hws⟩ := hsplit
    subst hws
    rw [foldl_paint_lt ws c (fun v hv => by rw [← hw] at hpost; exact hpost v hv)]
    exact hw
  | cons p pre1 =>
    simp only [List.cons_append, List.cons.injEq] at hsplit
    obtain ⟨hp, hws⟩ := hsplit
    subst hws
    have hc : c.priority ≤ w.priority := by
      have := hpre p (List.mem_cons_self _ _)
      rw [← hp] at this
      exact this
    rw [List.foldl_append, List.foldl_cons]
    have hmid : (pre1.foldl cell.paint c).priority ≤ w.priority :=
      foldl_paint_priority_le pre1 _ c hc (fun v hv => hpre v (List.mem_cons_of_mem _ hv))
    rw [paint_of_le _ w hmid, foldl_paint_lt post _ (fun v hv => hpost v hv)]
    rfl

theorem paintTarget_paintedBy (m : model) (theme : moodTheme) (c0 c1 : Canvas)
    (hs : c0.sized m.canvasHeight m.canvasWidth)
    (hle : ∀ (x y : Int) (cur : cell), 0 ≤ x → x < m.canvasWidth → 0 ≤ y → y < m.canvasHeight →
      c0.at y x = some cur → cur.priority ≤ 5)
    (h : m.paintTarget c0 theme = some c1) :
    c0.paintedBy c1 m.canvasHeight m.canvasWidth (m.targetAims theme) := by
  unfold model.paintTarget at h
  simp only [] at h
  by_cases hout : roundInt m.target.x < 0 ∨ roundInt m.target.y < 0 ∨
      roundInt m.target.x ≥ m.canvasWidth ∨ roundInt m.target.y ≥ m.canvasHeight
  · rw [if_pos hout] at h
    cases h
    refine Canvas.paintedBy_refl _ _ _ hs _ ?_
    intro x y hx0 hx hy0 hy
    have : ¬ (roundInt m.target.x = x ∧ roundInt m.target.y = y) := by omega
    simp [model.targetAims, this]
  · rw [if_neg hout] at h
    obtain ⟨cur, hcur⟩ := Canvas.at_of_sized c0 _ _ (roundInt m.target.x) (roundInt m.target.y) hs
      (by omega) (by omega) (by omega) (by omega)
    have hprio := hle _ _ cur (by omega) (by omega) (by omega) (by omega) hcur
    have h' : (match c0.at (roundInt m.target.y) (roundInt m.target.x) with
        | none => none
        | some cur =>
          if ((targetStroke theme).onto cur.bg).priority ≥ cur.priority then
            c0.put (roundInt m.target.y) (roundInt m.target.x) ((targetStroke theme).onto cur.bg)
          else some c0) = some c1 := by
      rw [hcur] at h ⊢
      simp only [] at h ⊢
      rw [if_pos (by exact hprio)]
      exact h
    have := overwrite_paintedBy c0 c1 m.canvasHeight m.canvasWidth (roundInt m.target.x)
      (roundInt m.target.y) (targetStroke theme) hs (by omega) (by omega) (by omega) (by omega) h'
    refine Canvas.paintedBy_congr _ _ _ _ _ _ ?_ this
    intro x y _ _ _ _
    by_cases hxy : x = roundInt m.target.x ∧ y = roundInt m.target.y
    · obtain ⟨rfl, rfl⟩ := hxy
      simp [model.targetAims]
    · have : ¬ (roundInt m.target.x = x ∧ roundInt m.target.y = y) :=
        fun hc => hxy ⟨hc.1.symm, hc.2.symm⟩
      simp [model.targetAims, hxy, this]

theorem mem_trailAims (E : Env) (theme : moodTheme) (f : follower) (x y : Int) (o : Option Stroke) :
    o ∈ trailAims E theme f x y ↔
      ∃ i p, i < f.trace.length ∧ f.trace[i]? = some p ∧ roundInt p.x = x ∧ roundInt p.y = y ∧
        o = trailStroke E theme f i := by
  unfold trailAims
  simp only [List.mem_flatMap, List.mem_range]
  constructor
  · rintro ⟨i, hi, ho⟩
    cases hp : f.trace[i]? with
    | none => rw [hp] at ho; simp at ho
    | some p =>
      rw [hp] at ho
      simp only [] at ho
      by_cases ha : roundInt p.x = x ∧ roundInt p.y = y
      · rw [if_pos ha] at ho
        exact ⟨i, p, hi, hp, ha.1, ha.2, by simpa using ho⟩
      · rw [if_neg ha] at ho; simp at ho
  · rintro ⟨i, p, hi, hp, hx, hy, ho⟩
    refine ⟨i, hi, ?_⟩
    rw [hp]
    simp [hx, hy, ho]

theorem mem_seedAims (theme : moodTheme) (s : seed) (x y : Int) (o : Option Stroke) :
    o ∈ seedAims theme s x y ↔
      (roundInt s.pos.x = x ∧ roundInt s.pos.y = y) ∧ o = some (seedStroke theme s) := by
  unfold seedAims
  split_ifs with h <;> simp [h]

theorem mem_targetAims (m : model) (theme : moodTheme) (x y : Int) (o : Option Stroke) :
    o ∈ m.targetAims theme x y ↔
      (roundInt m.target.x = x ∧ roundInt m.target.y = y) ∧ o = some (targetStroke theme) := by
  unfold model.targetAims
  split_ifs with h <;> simp [h]

theorem trail_seed_priority_le (E : Env) (m : model) (theme : moodTheme) (x y : Int) (s : Stroke)
    (h : some s ∈ m.followers.flatMap (fun f => trailAims E theme f x y) ++
      m.seeds.flatMap (fun sd => seedAims theme sd x y)) : s.priority ≤ 5 := by
  rcases List.mem_append.mp h with h | h
  · obtain ⟨f, _, hf⟩ := List.mem_flatMap.mp h
    obtain ⟨i, p, _, _, _, _, ho⟩ := (mem_trailAims E theme f x y _).mp hf
    rw [trailStroke_priority E theme f i s ho.symm]
    split_ifs <;> omega
  · obtain ⟨sd, _, hsd⟩ := List.mem_flatMap.mp h
    obtain ⟨_, ho⟩ := (mem_seedAims theme sd x y _).mp hsd
    cases ho
    simp [seedStroke]

/-- The cell of the composed canvas is the backdrop cell with the strokes
aimed at it painted over it in paint order. -/
theorem composeCanvas_cell (E : Env) (m : model) (theme : moodTheme) (canvas : Canvas) (x y : Int)
    (h : m.composeCanvas E theme = some canvas)
    (hx0 : 0 ≤ x) (hx : x < m.canvasWidth) (hy0 : 0 ≤ y) (hy : y < m.canvasHeight) :
    ∃ (c0 : cell) (ws : List Stroke), m.backdropCell E theme x y = some c0 ∧
      m.frameWrites E theme x y = some c0.stroke :: ws.map some ∧
      canvas.at y x = some (ws.foldl cell.paint c0) := by
  unfold model.composeCanvas at h
  cases h0 : m.prepareCanvas E theme with
  | none => rw [h0] at h; exact absurd h (by simp)
  | some g0 =>
    rw [h0] at h
    simp only [] at h
    cases h1 : m.paintTrails E g0 theme with
    | none => rw [h1] at h; exact absurd h (by simp)
    | some g1 =>
      rw [h1] at h
      simp only [] at h
      cases h2 : m.paintSeeds g1 theme with
      | none => rw [h2] at h; exact absurd h (by simp)
      | some g2 =>
        rw [h2] at h
        simp only [] at h
        obtain ⟨hs0, hback⟩ := prepareCanvas_spec E m theme g0 h0
        have p01 := paintTrails_paintedBy E m theme g0 g1 hs0 h1
        have p12 := paintSeeds_paintedBy m theme g1 g2 p01.1 h2
        have p02 := Canvas.paintedBy_trans g0 g1 g2 _ _ _ _ p01 p12
        have hle : ∀ (x y : Int) (cur : cell), 0 ≤ x → x < m.canvasWidth → 0 ≤ y →
            y < m.canvasHeight → g2.at y x = some cur → cur.priority ≤ 5 := by
          intro x1 y1 cur a1 a2 a3 a4 hcur
          obtain ⟨b, hb, hbat⟩ := hback x1 y1 a1 a2 a3 a4
          obtain ⟨ws, hws, hat⟩ := p02.2 x1 y1 a1 a2 a3 a4
          rw [hbat, hcur] at hat
          simp only [Option.map_some', Option.some.injEq] at hat
          rw [hat]
          refine foldl_paint_priority_le ws 5 b ?_ ?_
          · rw [(backdropCell_priority E m theme x1 y1 b hb).1]; omega
          · intro v hv
            refine trail_seed_priority_le E m theme x1 y1 v ?_
            simp only [] at hws
            rw [hws]
            exact List.mem_map_of_mem _ hv
        have p23 := paintTarget_paintedBy m theme g2 canvas p02.1 hle h
        have p03 := Canvas.paintedBy_trans g0 g2 canvas _ _ _ _ p02 p23
        obtain ⟨b, hb, hbat⟩ := hback x y hx0 hx hy0 hy
        obtain ⟨ws, hws, hat⟩ := p03.2 x y hx0 hx hy0 hy
        refine ⟨b, ws, hb, ?_, ?_⟩
        · unfold model.frameWrites
          rw [hb]
          simp only [] at hws
          rw [hws]
          rfl
        · rw [hat, hbat]
          rfl

theorem mem_trailPriorities (f : follower) (x y : Int) (q : Int) :
    q ∈ trailPriorities f x y ↔
      ∃ i p, i < f.trace.length ∧ f.trace[i]? = some p ∧ roundInt p.x = x ∧ roundInt p.y = y ∧
        q = if i + 1 = f.trace.length then 3 else 1 := by
  unfold trailPriorities
  simp only [List.mem_flatMap, List.mem_range]
  constructor
  · rintro ⟨i, hi, ho⟩
    cases hp : f.trace[i]? with
    | none => rw [hp] at ho; simp at ho
    | some p =>
      rw [hp] at ho
      simp only [] at ho
      by_cases ha : roundInt p.x = x ∧ roundInt p.y = y
      · rw [if_pos ha] at ho
        exact ⟨i, p, hi, hp, ha.1, ha.2, by simpa using ho⟩
      · rw [if_neg ha] at ho; simp at ho
  · rintro ⟨i, p, hi, hp, hx, hy, ho⟩
    refine ⟨i, hi, ?_⟩
    rw [hp]
    simp [hx, hy, ho]

theorem mem_aimedPriorities (E : Env) (m : model) (theme : moodTheme) (x y : Int)
    (c0 : cell) (ws : List Stroke)
    (hw : m.frameWrites E theme x y = some c0.stroke :: ws.map some) (q : Int) :
    q ∈ m.aimedPriorities x y ↔ q ∈ (0 : Int) :: ws.map Stroke.priority := by
  unfold model.frameWrites at hw
  simp only [List.cons.injEq] at hw
  obtain ⟨_, haims⟩ := hw
  have hsome : ∀ o, o ∈ (m.followers.flatMap (fun f => trailAims E theme f x y) ++
      m.seeds.flatMap (fun s => seedAims theme s x y) ++ m.targetAims theme x y) →
      ∃ s ∈ ws, o = some s := by
    intro o ho
    rw [haims] at ho
    obtain ⟨s, hs, rfl⟩ := List.mem_map.mp ho
    exact ⟨s, hs, rfl⟩
  have hback : ∀ s ∈ ws, some s ∈ (m.followers.flatMap (fun f => trailAims E theme f x y) ++
      m.seeds.flatMap (fun s => seedAims theme s x y) ++ m.targetAims theme x y) := by
    intro s hs
    rw [haims]
    exact List.mem_map_of_mem _ hs
  unfold model.aimedPriorities
  simp only [List.mem_cons, List.mem_append, List.mem_map]
  constructor
  · rintro (h | (h | h) | h)
    · exact Or.inl h
    · obtain ⟨f, hf, hq⟩ := List.mem_flatMap.mp h
      obtain ⟨i, p, hi, hp, hx, hy, hq⟩ := (mem_trailPriorities f x y q).mp hq
      have hmem : trailStroke E theme f i ∈ trailAims E theme f x y :=
        (mem_trailAims E theme f x y _).mpr ⟨i, p, hi, hp, hx, hy, rfl⟩
      obtain ⟨s, hs, hos⟩ := hsome _ (List.mem_append_left _ (List.mem_append_left _
        (List.mem_flatMap.mpr ⟨f, hf, hmem⟩)))
      exact Or.inr ⟨s, hs, by rw [trailStroke_priority E theme f i s hos, hq]⟩
    · obtain ⟨sd, hsd, hq⟩ := List.mem_flatMap.mp h
      by_cases ha : roundInt sd.pos.x = x ∧ roundInt sd.pos.y = y
      · rw [if_pos ha] at hq
        have hmem : some (seedStroke theme sd) ∈ seedAims theme sd x y :=
          (mem_seedAims theme sd x y _).mpr ⟨ha, rfl⟩
        obtain ⟨s, hs, hos⟩ := hsome _ (List.mem_append_left _ (List.mem_append_right _
          (List.mem_flatMap.mpr ⟨sd, hsd, hmem⟩)))
        cases hos
        exact Or.inr ⟨_, hs, by simp only [List.mem_singleton] at hq; rw [hq]; rfl⟩
      · rw [if_neg ha] at hq; simp at hq
    · by_cases ha : roundInt m.target.x = x ∧ roundInt m.target.y = y
      · rw [if_pos ha] at h
        have hmem : some (targetStroke theme) ∈ m.targetAims theme x y :=
          (mem_targetAims m theme x y _).mpr ⟨ha, rfl⟩
        obtain ⟨s, hs, hos⟩ := hsome _ (List.mem_append_right _ hmem)
        cases hos
        exact Or.inr ⟨_, hs, by simp only [List.mem_singleton] at h; rw [h]; rfl⟩
      · rw [if_neg ha] at h; simp at h
  · rintro (h | ⟨s, hs, hq⟩)
    · exact Or.inl h
    · right
      rcases List.mem_append.mp (hback s hs) with h12 | h3
      · rcases List.mem_append.mp h12 with h1 | h2
        · obtain ⟨f, hf, hmem⟩ := List.mem_flatMap.mp h1
          obtain ⟨i, p, hi, hp, hx, hy, ho⟩ := (mem_trailAims E theme f x y _).mp hmem
          refine Or.inl (Or.inl (List.mem_flatMap.mpr ⟨f, hf, ?_⟩))
          refine (mem_trailPriorities f x y q).mpr ⟨i, p, hi, hp, hx, hy, ?_⟩
          rw [← hq, trailStroke_priority E theme f i s ho.symm]
        · obtain ⟨sd, hsd, hmem⟩ := List.mem_flatMap.mp h2
          obtain ⟨ha, ho⟩ := (mem_seedAims theme sd x y _).mp hmem
          cases ho
          refine Or.inl (Or.inr (List.mem_flatMap.mpr ⟨sd, hsd, ?_⟩))
          rw [if_pos ha, ← hq]
          simp [seedStroke]
      · obtain ⟨ha, ho⟩ := (mem_targetAims m theme x y _).mp h3
        cases ho
        refine Or.inr ?_
        rw [if_pos ha, ← hq]
        simp [targetStroke]

/-! ## The render passes return a canvas -/

theorem toInt_nonneg (v : ℚ) (h : 0 ≤ v) : 0 ≤ toInt v := by
  unfold toInt
  rw [if_pos h]
  exact Int.floor_nonneg.mpr h

theorem glyphAt_some (glyphs : List Char) (i : Int) (h0 : 0 ≤ i) (h1 : i < glyphs.length) :
    ∃ g, glyphAt glyphs i = some g := by
  unfold glyphAt
  rw [if_neg (by omega)]
  exact ⟨_, List.getElem?_eq_getElem (by omega)⟩

theorem backdropCell_total (E : Env) (m : model) (theme : moodTheme) (x y : Int)
    (hsin : ∀ v, -1 ≤ E.sin v) (hcos : ∀ v, -1 ≤ E.cos v) (hw : theme.wispGlyphs ≠ []) :
    ∃ cur, m.backdropCell E theme x y = some cur := by
  have hn : 0 < theme.wispGlyphs.length := List.length_pos.mpr hw
  have hn' : ¬ ((theme.wispGlyphs.length : Int) = 0) := by omega
  unfold model.backdropCell
  simp only []
  rw [if_neg hn']
  have hint : 0 ≤ (E.sin ((x : ℚ) * (11 / 100) + m.t * (35 / 100)) +
      E.cos ((y : ℚ) * (9 / 100) - m.t * (21 / 100) + (x : ℚ) * (3 / 100)) + 2) / 4 *
      ((theme.wispGlyphs.length : Int) : ℚ) := by
    have h1 := hsin ((x : ℚ) * (11 / 100) + m.t * (35 / 100))
    have h2 := hcos ((y : ℚ) * (9 / 100) - m.t * (21 / 100) + (x : ℚ) * (3 / 100))
    have h3 : (0 : ℚ) ≤ ((theme.wispGlyphs.length : Int) : ℚ) := by exact_mod_cast hn.le
    exact mul_nonneg (by linarith) h3
  have hidx0 := Int.tmod_nonneg (theme.wispGlyphs.length : Int) (toInt_nonneg _ hint)
  have hidx1 := Int.tmod_lt_of_pos (toInt ((E.sin ((x : ℚ) * (11 / 100) + m.t * (35 / 100)) +
      E.cos ((y : ℚ) * (9 / 100) - m.t * (21 / 100) + (x : ℚ) * (3 / 100)) + 2) / 4 *
      ((theme.wispGlyphs.length : Int) : ℚ))) (by omega : (0 : Int) < theme.wispGlyphs.length)
  obtain ⟨g, hg⟩ := glyphAt_some theme.wispGlyphs _ hidx0 hidx1
  rw [hg]
  simp only []
  split
  · exact ⟨_, rfl⟩
  · exact ⟨_, rfl⟩

theorem buildList_total {α : Type} (body : Nat → Option α) (n : Nat)
    (h : ∀ i, i < n → ∃ a, body i = some a) : ∃ l, buildList body n = some l := by
  induction n with
  | zero => exact ⟨[], rfl⟩
  | succ n ih =>
    obtain ⟨done, hd⟩ := ih (fun i hi => h i (by omega))
    obtain ⟨a, ha⟩ := h n (by omega)
    exact ⟨done ++ [a], by unfold buildList; rw [hd]; simp only []; rw [ha]⟩

theorem prepareCanvas_total (E : Env) (m : model) (theme : moodTheme)
    (hsin : ∀ v, -1 ≤ E.sin v) (hcos : ∀ v, -1 ≤ E.cos v) (hw : theme.wispGlyphs ≠ [])
    (hW : 0 ≤ m.canvasWidth) (hH : 0 ≤ m.canvasHeight) :
    ∃ canvas, m.prepareCanvas E theme = some canvas := by
  unfold model.prepareCanvas
  rw [if_neg (by omega)]
  refine buildList_total _ _ ?_
  intro j _
  rw [if_neg (by omega)]
  exact buildList_total _ _ (fun i _ => backdropCell_total E m theme _ _ hsin hcos hw)

theorem paintEach_total {α : Type} (H W : Int) (body : Canvas → α → Option Canvas)
    (items : List α)
    (hbody : ∀ a ∈ items, ∀ c0 : Canvas, c0.sized H W →
      ∃ c1, body c0 a = some c1 ∧ c1.sized H W) :
    ∀ c0 : Canvas, c0.sized H W → ∃ c1, paintEach body items c0 = some c1 ∧ c1.sized H W := by
  induction items with
  | nil => intro c0 hs; exact ⟨c0, rfl, hs⟩
  | cons a rest ih =>
    intro c0 hs
    obtain ⟨cm, hb, hsm⟩ := hbody a (List.mem_cons_self _ _) c0 hs
    obtain ⟨c1, hr, hs1⟩ := ih (fun b hb0 => hbody b (List.mem_cons_of_mem _ hb0)) cm hsm
    exact ⟨c1, by unfold paintEach; rw [hb]; exact hr, hs1⟩

theorem overwrite_total (c0 : Canvas) (H W px py : Int) (s : Stroke)
    (hs : c0.sized H W) (hx0 : 0 ≤ px) (hx : px < W) (hy0 : 0 ≤ py) (hy : py < H) :
    ∃ c1, (match c0.at py px with
          | none => none
          | some cur =>
            if (s.onto cur.bg).priority ≥ cur.priority then c0.put py px (s.onto cur.bg)
            else some c0) = some c1 ∧ c1.sized H W := by
  obtain ⟨cur, hcur⟩ := Canvas.at_of_sized c0 H W px py hs hx0 hx hy0 hy
  rw [hcur]
  simp only []
  split_ifs
  · obtain ⟨next, hput, hsz, _⟩ :=
      Canvas.put_of_sized c0 H W px py (s.onto cur.bg) hs hx0 hx hy0 hy
    exact ⟨next, hput, hsz⟩
  · exact ⟨c0, rfl, hs⟩

theorem trailStroke_total (E : Env) (theme : moodTheme) (f : follower) (i : Nat)
    (hpow : ∀ a b, 0 ≤ a → 0 ≤ E.pow a b) (ht : theme.trailGlyphs ≠ []) :
    ∃ s, trailStroke E theme f i = some s := by
  have hn : 0 < theme.trailGlyphs.length := List.length_pos.mpr ht
  have hratio : (0 : ℚ) ≤ (((i : Int) + 1 : Int) : ℚ) / ((f.trace.length : Int) : ℚ) := by
    apply div_nonneg
    · exact_mod_cast (by omega : (0 : Int) ≤ (i : Int) + 1)
    · exact_mod_cast (by omega : (0 : Int) ≤ (f.trace.length : Int))
  have hstr := hpow _ (13 / 10) hratio
  have hprod : 0 ≤ E.pow ((((i : Int) + 1 : Int) : ℚ) / ((f.trace.length : Int) : ℚ)) (13 / 10) *
      ((theme.trailGlyphs.length : Int) : ℚ) :=
    mul_nonneg hstr (by exact_mod_cast hn.le)
  have hi0 := toInt_nonneg _ hprod
  have hidx : 0 ≤ imin (toInt (E.pow ((((i : Int) + 1 : Int) : ℚ) / ((f.trace.length : Int) : ℚ))
      (13 / 10) * ((theme.trailGlyphs.length : Int) : ℚ))) ((theme.trailGlyphs.length : Int) - 1) ∧
      imin (toInt (E.pow ((((i : Int) + 1 : Int) : ℚ) / ((f.trace.length : Int) : ℚ))
      (13 / 10) * ((theme.trailGlyphs.length : Int) : ℚ))) ((theme.trailGlyphs.length : Int) - 1) <
        theme.trailGlyphs.length := by
    unfold imin
    split_ifs <;> omega
  obtain ⟨g, hg⟩ := glyphAt_some theme.trailGlyphs _ hidx.1 hidx.2
  unfold trailStroke
  simp only []
  rw [hg]
  exact ⟨_, rfl⟩

theorem paintTrails_total (E : Env) (m : model) (theme : moodTheme) (c0 : Canvas)
    (hpow : ∀ a b, 0 ≤ a → 0 ≤ E.pow a b) (ht : theme.trailGlyphs ≠ [])
    (hs : c0.sized m.canvasHeight m.canvasWidth) :
    ∃ c1, m.paintTrails E c0 theme = some c1 ∧ c1.sized m.canvasHeight m.canvasWidth := by
  unfold model.paintTrails
  refine paintEach_total _ _ _ m.followers ?_ c0 hs
  intro f _ d0 hd
  simp only []
  split_ifs
  · exact ⟨d0, rfl, hd⟩
  · refine paintEach_total _ _ _ (List.range f.trace.length) ?_ d0 hd
    intro i hi e0 he
    have hi' : i < f.trace.length := List.mem_range.mp hi
    unfold model.paintTrailPoint
    rw [List.getElem?_eq_getElem hi']
    simp only []
    split_ifs with hout
    · exact ⟨e0, rfl, he⟩
    · obtain ⟨s, hst⟩ := trailStroke_total E theme f i hpow ht
      rw [hst]
      exact overwrite_total e0 _ _ _ _ s he (by omega) (by omega) (by omega) (by omega)

theorem paintSeeds_total (m : model) (theme : moodTheme) (c0 : Canvas)
    (hs : c0.sized m.canvasHeight m.canvasWidth) :
    ∃ c1, m.paintSeeds c0 theme = some c1 ∧ c1.sized m.canvasHeight m.canvasWidth := by
  unfold model.paintSeeds
  refine paintEach_total _ _ _ m.seeds ?_ c0 hs
  intro s _ d0 hd
  simp only []
  split_ifs with hout
  · exact ⟨d0, rfl, hd⟩
  · exact overwrite_total d0 _ _ _ _ (seedStroke theme s) hd (by omega) (by omega) (by omega)
      (by omega)

theorem paintTarget_total (m : model) (theme : moodTheme) (c0 : Canvas)
    (hs : c0.sized m.canvasHeight m.canvasWidth) :
    ∃ c1, m.paintTarget c0 theme = some c1 := by
  unfold model.paintTarget
  simp only []
  split_ifs with hout
  · exact ⟨c0, rfl⟩
  · obtain ⟨cur, hcur⟩ := Canvas.at_of_sized c0 _ _ (roundInt m.target.x) (roundInt m.target.y) hs
      (by omega) (by omega) (by omega) (by omega)
    obtain ⟨next, hput, _, _⟩ := Canvas.put_of_sized c0 _ _ (roundInt m.target.x)
      (roundInt m.target.y) ((targetStroke theme).onto cur.bg) hs
      (by omega) (by omega) (by omega) (by omega)
    rw [hcur]
    exact ⟨next, hput⟩

/-- The four render passes return a canvas whenever the canvas has
non-negative dimensions, the glyph tables of the theme are not empty, sine
and cosine are at least -1 and powers of non-negative numbers are
non-negative: no read of a glyph table or of the grid is out of range. -/
theorem composeCanvas_returns (E : Env) (m : model) (theme : moodTheme)
    (hsin : ∀ v, -1 ≤ E.sin v) (hcos : ∀ v, -1 ≤ E.cos v)
    (hpow : ∀ a b, 0 ≤ a → 0 ≤ E.pow a b)
    (hw : theme.wispGlyphs ≠ []) (ht : theme.trailGlyphs ≠ [])
    (hW : 0 ≤ m.canvasWidth) (hH : 0 ≤ m.canvasHeight) :
    ∃ canvas, m.composeCanvas E theme = some canvas := by
  obtain ⟨g0, h0⟩ := prepareCanvas_total E m theme hsin hcos hw hW hH
  obtain ⟨g1, h1, s1⟩ := paintTrails_total E m theme g0 hpow ht (prepareCanvas_spec E m theme g0 h0).1
  obtain ⟨g2, h2, s2⟩ := paintSeeds_total m theme g1 s1
  obtain ⟨g3, h3⟩ := paintTarget_total m theme g2 s2
  exact ⟨g3, by unfold model.composeCanvas; rw [h0]; simp only []; rw [h1]; simp only []; rw [h2]; exact h3⟩

/-- C3: after prepareCanvas, paintTrails, paintSeeds and paintTarget, the
priority of every canvas cell is the maximum of the priorities of the writes
aimed at that cell in the frame (backdrop 0, trail point 1, newest trail
point 3, particle 4, target marker 5); and the four passes do return a canvas
when the glyph tables of the theme are not empty, sine and cosine are at
least -1 and powers of non-negative numbers are non-negative. -/
theorem cell_priority_is_max_of_writes (E : Env) (m : model) (theme : moodTheme) (x y : Int)
    (hx0 : 0 ≤ x) (hx : x < m.canvasWidth) (hy0 : 0 ≤ y) (hy : y < m.canvasHeight) :
    (∀ canvas : Canvas, m.composeCanvas E theme = some canvas →
      ∃ c : cell, canvas.at y x = some c ∧
        c.priority ∈ m.aimedPriorities x y ∧ ∀ q ∈ m.aimedPriorities x y, q ≤ c.priority) ∧
    ((∀ v, -1 ≤ E.sin v) → (∀ v, -1 ≤ E.cos v) → (∀ a b, 0 ≤ a → 0 ≤ E.pow a b) →
      theme.wispGlyphs ≠ [] → theme.trailGlyphs ≠ [] →
      ∃ canvas : Canvas, m.composeCanvas E theme = some canvas) := by
  constructor
  · intro canvas h
    obtain ⟨c0, ws, hb, hw, hat⟩ := composeCanvas_cell E m theme canvas x y h hx0 hx hy0 hy
    have hmax := foldl_paint_priority_max ws c0
    rw [(backdropCell_priority E m theme x y c0 hb).1] at hmax
    refine ⟨_, hat, ?_, ?_⟩
    · exact (mem_aimedPriorities E m theme x y c0 ws hw _).mpr hmax.1
    · intro q hq
      exact hmax.2 q ((mem_aimedPriorities E m theme x y c0 ws hw q).mp hq)
  · intro hsin hcos hpow hw ht
    exact composeCanvas_returns E m theme hsin hcos hpow hw ht (by omega) (by omega)

/-- C4: when several writes aimed at a cell share the highest priority, the
final glyph, foreground and bold flag of the cell are those of the write that
comes last in paint order (backdrop, followers in swarm order with each trail
oldest to newest, particles in list order, target marker); and the four
passes do return a canvas when the glyph tables of the theme are not empty,
sine and cosine are at least -1 and powers of non-negative numbers are
non-negative. -/
theorem tie_goes_to_later_write (E : Env) (m : model) (theme : moodTheme) (x y : Int)
    (hx0 : 0 ≤ x) (hx : x < m.canvasWidth) (hy0 : 0 ≤ y) (hy : y < m.canvasHeight) :
    (∀ canvas : Canvas, m.composeCanvas E theme = some canvas →
      ∃ (c : cell) (writes : List Stroke), canvas.at y x = some c ∧
        m.frameWrites E theme x y = writes.map some ∧
        ∀ (pre post : List Stroke) (w : Stroke), writes = pre ++ w :: post →
          (∀ v ∈ pre, v.priority ≤ w.priority) → (∀ v ∈ post, v.priority < w.priority) →
          c.ch = w.ch ∧ c.fg = w.fg ∧ c.bold = w.bold) ∧
    ((∀ v, -1 ≤ E.sin v) → (∀ v, -1 ≤ E.cos v) → (∀ a b, 0 ≤ a → 0 ≤ E.pow a b) →
      theme.wispGlyphs ≠ [] → theme.trailGlyphs ≠ [] →
      ∃ canvas : Canvas, m.composeCanvas E theme = some canvas) := by
  constructor
  · intro canvas h
    obtain ⟨c0, ws, _, hw, hat⟩ := composeCanvas_cell E m theme canvas x y h hx0 hx hy0 hy
    refine ⟨_, c0.stroke :: ws, hat, by rw [hw]; rfl, ?_⟩
    intro pre post w hsplit hpre hpost
    have := foldl_paint_winner ws pre post c0 w hsplit hpre hpost
    rw [← this]
    exact ⟨rfl, rfl, rfl⟩
  · intro hsin hcos hpow hw ht
    exact composeCanvas_returns E m theme hsin hcos hpow hw ht (by omega) (by omega)

theorem cell_priority_is_max_of_writes_witness :
    ((0 : Int) ≤ 2 ∧ (2 : Int) < tinyModel.canvasWidth ∧
      (0 : Int) ≤ 1 ∧ (1 : Int) < tinyModel.canvasHeight) ∧
    ((∀ canvas : Canvas,
        tinyModel.composeCanvas flatEnv (tinyModel.currentMood flatEnv) = some canvas →
        ∃ c : cell, canvas.at 1 2 = some c ∧
          c.priority ∈ tinyModel.aimedPriorities 2 1 ∧
          ∀ q ∈ tinyModel.aimedPriorities 2 1, q ≤ c.priority) ∧
     ((∀ v, -1 ≤ flatEnv.sin v) → (∀ v, -1 ≤ flatEnv.cos v) →
        (∀ a b, 0 ≤ a → 0 ≤ flatEnv.pow a b) →
        (tinyModel.currentMood flatEnv).wispGlyphs ≠ [] →
        (tinyModel.currentMood flatEnv).trailGlyphs ≠ [] →
        ∃ canvas : Canvas,
          tinyModel.composeCanvas flatEnv (tinyModel.currentMood flatEnv) = some canvas)) :=
  ⟨⟨by decide!, by decide!, by decide!, by decide!⟩,
   cell_priority_is_max_of_writes flatEnv tinyModel (tinyModel.currentMood flatEnv) 2 1
     (by decide!) (by decide!) (by decide!) (by decide!)⟩

theorem tie_goes_to_later_write_witness :
    ((0 : Int) ≤ 2 ∧ (2 : Int) < tinyModel.canvasWidth ∧
      (0 : Int) ≤ 1 ∧ (1 : Int) < tinyModel.canvasHeight) ∧
    ((∀ canvas : Canvas,
        tinyModel.composeCanvas flatEnv (tinyModel.currentMood flatEnv) = some canvas →
        ∃ (c : cell) (writes : List Stroke), canvas.at 1 2 = some c ∧
          tinyModel.frameWrites flatEnv (tinyModel.currentMood flatEnv) 2 1 = writes.map some ∧
          ∀ (pre post : List Stroke) (w : Stroke), writes = pre ++ w :: post →
            (∀ v ∈ pre, v.priority ≤ w.priority) → (∀ v ∈ post, v.priority < w.priority) →
            c.ch = w.ch ∧ c.fg = w.fg ∧ c.bold = w.bold) ∧
     ((∀ v, -1 ≤ flatEnv.sin v) → (∀ v, -1 ≤ flatEnv.cos v) →
        (∀ a b, 0 ≤ a → 0 ≤ flatEnv.pow a b) →
        (tinyModel.currentMood flatEnv).wispGlyphs ≠ [] →
        (tinyModel.currentMood flatEnv).trailGlyphs ≠ [] →
        ∃ canvas : Canvas,
          tinyModel.composeCanvas flatEnv (tinyModel.currentMood flatEnv) = some canvas)) :=
  ⟨⟨by decide!, by decide!, by decide!, by decide!⟩,
   tie_goes_to_later_write flatEnv tinyModel (tinyModel.currentMood flatEnv) 2 1
     (by decide!) (by decide!) (by decide!) (by decide!)⟩

/-- The tiny frame, evaluated: the passes return a canvas, the cell (2, 1) receives the backdrop and the
newest trail points of both followers, at priorities 0, 3 and 3, and shows
the stroke of the second follower. -/
theorem tiny_frame_tie :
    tinyModel.composeCanvas flatEnv (tinyModel.currentMood flatEnv) = some tinyCanvas ∧
    tinyModel.aimedPriorities 2 1 = [0, 3, 3] ∧
    tinyModel.frameWrites flatEnv (tinyModel.currentMood flatEnv) 2 1 =
      [some { ch := Char.ofNat 96, fg := "#7C60DB", bold := false, priority := 0 },
       some { ch := '@', fg := "#FFD5AD", bold := true, priority := 3 },
       some { ch := '@', fg := "#FF9ECB", bold := true, priority := 3 }] ∧
    tinyCanvas.at 1 2 =
      some { ch := '@', fg := "#FF9ECB", bg := "#0B0618", bold := true, priority := 3 } := by
  decide!

/-! ## The target stays inside the canvas, one-column displays apart -/

theorem settled_of_frame (m n : model) (hm : m.settled) (hr : n.ready = m.ready)
    (hw : n.canvasWidth = m.canvasWidth) (hh : n.canvasHeight = m.canvasHeight)
    (ht : n.target = m.target) : n.settled := by
  unfold model.settled model.targetInside at *
  rw [hr, hw, hh, ht]
  exact hm

theorem removeFollower_frame (m : model) :
    m.removeFollower.target = m.target ∧ m.removeFollower.canvasWidth = m.canvasWidth ∧
    m.removeFollower.canvasHeight = m.canvasHeight ∧ m.removeFollower.ready = m.ready := by
  unfold model.removeFollower
  split_ifs <;> exact ⟨rfl, rfl, rfl, rfl⟩

theorem clampTarget_ready (m : model) : m.clampTarget.ready = m.ready := by
  rw [clampTarget_eq]
  split_ifs <;> rfl

theorem clampTarget_settled (m : model)
    (h0 : m.ready = false → m.canvasWidth = 0 ∧ m.canvasHeight = 0)
    (h1 : m.ready = true → 1 ≤ m.canvasWidth ∧ 1 ≤ m.canvasHeight) : m.clampTarget.settled := by
  have hc := clampTarget_canvas m
  have hr := clampTarget_ready m
  constructor
  · intro h
    rw [hc.1, hc.2]
    exact h0 (hr ▸ h)
  · intro h
    obtain ⟨hw, hh⟩ := h1 (hr ▸ h)
    rw [hc.1, hc.2]
    exact ⟨hw, hh, clampTarget_inside m hw hh⟩

theorem manualTarget_settled (m : model) (dx dy : ℚ) (hm : m.settled) :
    (m.manualTarget dx dy).settled := by
  unfold model.manualTarget
  exact clampTarget_settled _ hm.1 (fun h => ⟨(hm.2 h).1, (hm.2 h).2.1⟩)

theorem updateKey_settled (m : model) (key : String) (hm : m.settled) :
    (m.updateKey key).1.settled := by
  have hadd := addFollower_frame m
  have hrem := removeFollower_frame m
  unfold model.updateKey
  by_cases h : key ∈ keysQuit
  · rw [if_pos h]; exact hm
  rw [if_neg h]; clear h
  by_cases h : key ∈ keysToggleMode
  · rw [if_pos h]; exact settled_of_frame m _ hm rfl rfl rfl rfl
  rw [if_neg h]; clear h
  by_cases h : key ∈ keysCycleScene
  · rw [if_pos h]; exact settled_of_frame m _ hm rfl rfl rfl rfl
  rw [if_neg h]; clear h
  by_cases h : key ∈ keysCycleFormation
  · rw [if_pos h]; exact settled_of_frame m _ hm rfl rfl rfl rfl
  rw [if_neg h]; clear h
  by_cases h : key ∈ keysCycleMood
  · rw [if_pos h]; exact settled_of_frame m _ hm rfl rfl rfl rfl
  rw [if_neg h]; clear h
  by_cases h : key ∈ keysAddFollower
  · rw [if_pos h]; exact settled_of_frame m _ hm hadd.2.2.2 hadd.2.1 hadd.2.2.1 hadd.1
  rw [if_neg h]; clear h
  by_cases h : key ∈ keysRemoveFollower
  · rw [if_pos h]; exact settled_of_frame m _ hm hrem.2.2.2 hrem.2.1 hrem.2.2.1 hrem.1
  rw [if_neg h]; clear h
  by_cases h : key ∈ keysIncreaseFreq
  · rw [if_pos h]; exact settled_of_frame m _ hm rfl rfl rfl rfl
  rw [if_neg h]; clear h
  by_cases h : key ∈ keysDecreaseFreq
  · rw [if_pos h]; exact settled_of_frame m _ hm rfl rfl rfl rfl
  rw [if_neg h]; clear h
  by_cases h : key ∈ keysIncreaseDamping
  · rw [if_pos h]; exact settled_of_frame m _ hm rfl rfl rfl rfl
  rw [if_neg h]; clear h
  by_cases h : key ∈ keysDecreaseDamping
  · rw [if_pos h]; exact settled_of_frame m _ hm rfl rfl rfl rfl
  rw [if_neg h]; clear h
  by_cases h : key ∈ keysMoveNorth
  · rw [if_pos h]; exact manualTarget_settled m _ _ hm
  rw [if_neg h]; clear h
  by_cases h : key ∈ keysMoveSouth
  · rw [if_pos h]; exact manualTarget_settled m _ _ hm
  rw [if_neg h]; clear h
  by_cases h : key ∈ keysMoveWest
  · rw [if_pos h]; exact manualTarget_settled m _ _ hm
  rw [if_neg h]; clear h
  by_cases h : key ∈ keysMoveEast
  · rw [if_pos h]; exact manualTarget_settled m _ _ hm
  rw [if_neg h]; clear h
  by_cases h : key ∈ keysToggleHelp
  · rw [if_pos h]; exact settled_of_frame m _ hm rfl rfl rfl rfl
  rw [if_neg h]; clear h
  exact hm

theorem updateTarget_settled (E : Env) (m : model) (hm : m.settled) :
    (m.updateTarget E).settled := by
  have h1 : m.ready = true → 1 ≤ m.canvasWidth ∧ 1 ≤ m.canvasHeight :=
    fun h => ⟨(hm.2 h).1, (hm.2 h).2.1⟩
  unfold model.updateTarget
  split_ifs
  · exact hm
  · simp only []
    split <;> exact clampTarget_settled _ hm.1 h1

theorem updateFollowers_frame (E : Env) (m : model) :
    (m.updateFollowers E).target = m.target ∧ (m.updateFollowers E).canvasWidth = m.canvasWidth ∧
    (m.updateFollowers E).canvasHeight = m.canvasHeight ∧ (m.updateFollowers E).ready = m.ready := by
  unfold model.updateFollowers
  simp only []
  split_ifs <;> exact ⟨rfl, rfl, rfl, rfl⟩

theorem emitSeed_frame (m : model) (theme : moodTheme) :
    (m.emitSeed theme).target = m.target ∧ (m.emitSeed theme).ready = m.ready := by
  unfold model.emitSeed
  split_ifs <;> exact ⟨rfl, rfl⟩

theorem advanceSeedTimer_frame (m : model) (mood : moodTheme) :
    (m.advanceSeedTimer mood).target = m.target ∧ (m.advanceSeedTimer mood).ready = m.ready := by
  unfold model.advanceSeedTimer
  simp only []
  split_ifs
  · exact emitSeed_frame { m with seedTimer := m.seedTimer + deltaTime } mood
  · exact ⟨rfl, rfl⟩

theorem updateSeeds_frame (E : Env) (m : model) :
    (m.updateSeeds E).target = m.target ∧ (m.updateSeeds E).canvasWidth = m.canvasWidth ∧
    (m.updateSeeds E).canvasHeight = m.canvasHeight ∧ (m.updateSeeds E).ready = m.ready := by
  have hc := updateSeeds_canvas E m
  refine ⟨?_, hc.1, hc.2, ?_⟩
  · unfold model.updateSeeds
    simp only []
    split_ifs
    · rfl
    · exact (advanceSeedTimer_frame m _).1
  · unfold model.updateSeeds
    simp only []
    split_ifs
    · rfl
    · exact (advanceSeedTimer_frame m _).2

theorem frame_settled (E : Env) (m : model) (hm : m.settled) :
    (m.Update E .frameMsg).1.settled := by
  unfold model.Update
  simp only []
  split_ifs with hr ha
  · exact hm
  · have h0 : ({ m with t := m.t + deltaTime } : model).settled :=
      settled_of_frame m _ hm rfl rfl rfl rfl
    have h1 := updateTarget_settled E _ h0
    have f2 := updateFollowers_frame E (({ m with t := m.t + deltaTime } : model).updateTarget E)
    have h2 := settled_of_frame _ _ h1 f2.2.2.2 f2.2.1 f2.2.2.1 f2.1
    have f3 := updateSeeds_frame E
      ((({ m with t := m.t + deltaTime } : model).updateTarget E).updateFollowers E)
    exact settled_of_frame _ _ h2 f3.2.2.2 f3.2.1 f3.2.2.1 f3.1
  · have h0 : ({ m with t := m.t + deltaTime } : model).settled :=
      settled_of_frame m _ hm rfl rfl rfl rfl
    have f2 := updateFollowers_frame E ({ m with t := m.t + deltaTime } : model)
    have h2 := settled_of_frame _ _ h0 f2.2.2.2 f2.2.1 f2.2.2.1 f2.1
    have f3 := updateSeeds_frame E (({ m with t := m.t + deltaTime } : model).updateFollowers E)
    exact settled_of_frame _ _ h2 f3.2.2.2 f3.2.1 f3.2.2.1 f3.1

theorem recomputeCanvas_invalid (m : model) (h : m.width ≤ 0 ∨ m.height ≤ 0) :
    m.recomputeCanvas = m := by
  rw [recomputeCanvas_eq, if_pos h]

theorem recomputeCanvas_valid (m : model) (hw : 0 < m.width) (hh : 0 < m.height) :
    m.recomputeCanvas.canvasWidth = m.width ∧ 3 ≤ m.recomputeCanvas.canvasHeight ∧
    m.recomputeCanvas.ready = m.ready ∧ m.recomputeCanvas.targetInside := by
  have hch : 3 ≤ (if m.height - 6 < 10 then imax (m.height - 2) 3 else m.height - 6) := by
    unfold imax
    split_ifs <;> omega
  rw [recomputeCanvas_eq, if_neg (by omega)]
  have hc := clampTarget_canvas ({ m with canvasWidth := m.width
                                          canvasHeight := if m.height - 6 < 10 then imax (m.height - 2) 3
                                                          else m.height - 6 } : model)
  have hr := clampTarget_ready ({ m with canvasWidth := m.width
                                         canvasHeight := if m.height - 6 < 10 then imax (m.height - 2) 3
                                                         else m.height - 6 } : model)
  have hi := clampTarget_inside ({ m with canvasWidth := m.width
                                          canvasHeight := if m.height - 6 < 10 then imax (m.height - 2) 3
                                                          else m.height - 6 } : model)
    (by show 1 ≤ m.width; omega)
    (by show 1 ≤ (if m.height - 6 < 10 then imax (m.height - 2) 3 else m.height - 6); omega)
  refine ⟨hc.1, ?_, hr, hi⟩
  rw [hc.2]
  exact hch

theorem centre_inside (w h : Int) (hw : 2 ≤ w) (hh : 2 ≤ h) :
    (0 : ℚ) ≤ (w : ℚ) / 2 ∧ (w : ℚ) / 2 ≤ ((w - 1 : Int) : ℚ) ∧
    (0 : ℚ) ≤ (h : ℚ) / 2 ∧ (h : ℚ) / 2 ≤ ((h - 1 : Int) : ℚ) := by
  have hw' : (2 : ℚ) ≤ (w : ℚ) := by exact_mod_cast hw
  have hh' : (2 : ℚ) ≤ (h : ℚ) := by exact_mod_cast hh
  push_cast
  refine ⟨?_, ?_, ?_, ?_⟩ <;> linarith

theorem resize_settled (E : Env) (m : model) (w h : Int) (hm : m.settled) (hw1 : w ≠ 1) :
    (m.Update E (.WindowSizeMsg w h)).1.settled := by
  rw [Update_resize]
  have h0 : ({ m with width := w, height := h } : model).settled :=
    settled_of_frame m _ hm rfl rfl rfl rfl
  by_cases hbad : w ≤ 0 ∨ h ≤ 0
  · rw [recomputeCanvas_invalid _ hbad]
    split_ifs with hc
    · exact absurd (h0.1 hc.1).1 (by have := hc.2.1; omega)
    · exact h0
  · obtain ⟨hcw, hch, hrd, hin⟩ :=
      recomputeCanvas_valid ({ m with width := w, height := h } : model) (by show 0 < w; omega)
        (by show 0 < h; omega)
    generalize ({ m with width := w, height := h } : model).recomputeCanvas = m1 at hcw hch hrd hin ⊢
    have hcw' : m1.canvasWidth = w := hcw
    split_ifs with hc
    · have hf := fillFollowers_frame initialFollowers
        { m1 with target := ⟨(m1.canvasWidth : ℚ) / 2, (m1.canvasHeight : ℚ) / 2⟩ }
      generalize fillFollowers initialFollowers _ = X at hf ⊢
      obtain ⟨ht, hfw, hfh, _⟩ := hf
      have hfw' : X.canvasWidth = m1.canvasWidth := hfw
      have hfh' : X.canvasHeight = m1.canvasHeight := hfh
      have ht' : X.target = ⟨(m1.canvasWidth : ℚ) / 2, (m1.canvasHeight : ℚ) / 2⟩ := ht
      have hcen := centre_inside m1.canvasWidth m1.canvasHeight (by omega) (by omega)
      constructor
      · intro hfalse
        exact absurd hfalse (by simp)
      · intro _
        refine ⟨by show 1 ≤ X.canvasWidth; omega, by show 1 ≤ X.canvasHeight; omega, ?_⟩
        unfold model.targetInside
        show 0 ≤ X.target.x ∧ X.target.x ≤ ((X.canvasWidth - 1 : Int) : ℚ) ∧
          0 ≤ X.target.y ∧ X.target.y ≤ ((X.canvasHeight - 1 : Int) : ℚ)
        rw [ht', hfw', hfh']
        exact hcen
    · have hready : m1.ready = true := by
        by_contra hne
        have hf : m1.ready = false := by simpa using hne
        exact hc ⟨hf, by omega, by omega⟩
      constructor
      · intro hfalse
        rw [hready] at hfalse
        exact absurd hfalse (by simp)
      · intro _
        exact ⟨by omega, by omega, hin⟩

theorem newModel_settled (rng : Rng) : (newModel rng).settled :=
  ⟨fun _ => ⟨rfl, rfl⟩, fun h => absurd h (by simp [newModel])⟩

theorem Update_settled (E : Env) (m : model) (msg : Msg) (hm : m.settled)
    (hmsg : msg.notOneColumn) : (m.Update E msg).1.settled := by
  cases msg with
  | WindowSizeMsg w h => exact resize_settled E m w h hm hmsg
  | KeyMsg key => exact updateKey_settled m key hm
  | frameMsg => exact frame_settled E m hm
  | other => exact hm

theorem run_settled (E : Env) (msgs : List Msg) :
    ∀ m : model, m.settled → (∀ msg ∈ msgs, msg.notOneColumn) → (m.run E msgs).settled := by
  induction msgs with
  | nil => intro m hm _; exact hm
  | cons msg rest ih =>
    intro m hm hall
    exact ih _ (Update_settled E m msg hm (hall msg (List.mem_cons_self _ _)))
      (fun x hx => hall x (List.mem_cons_of_mem _ hx))

/-- In every state reached from the initial model by resize, key and frame
messages none of which is a resize to a display exactly one column wide, a
ready model has its target inside the canvas. -/
theorem target_inside_unless_one_column (E : Env) (rng : Rng) (msgs : List Msg)
    (hall : ∀ msg ∈ msgs, msg.notOneColumn)
    (hready : ((newModel rng).run E msgs).ready = true) :
    0 ≤ ((newModel rng).run E msgs).target.x ∧
    ((newModel rng).run E msgs).target.x ≤ ((((newModel rng).run E msgs).canvasWidth - 1 : Int) : ℚ) ∧
    0 ≤ ((newModel rng).run E msgs).target.y ∧
    ((newModel rng).run E msgs).target.y ≤ ((((newModel rng).run E msgs).canvasHeight - 1 : Int) : ℚ) :=
  ((run_settled E msgs (newModel rng) (newModel_settled rng) hall).2 hready).2.2

theorem sampleMsgs_notOneColumn : ∀ msg ∈ sampleMsgs, msg.notOneColumn := by
  intro msg h
  simp only [sampleMsgs, List.mem_cons, List.mem_singleton, List.not_mem_nil, or_false] at h
  rcases h with rfl | rfl | rfl | rfl <;> simp [Msg.notOneColumn]

theorem target_inside_unless_one_column_witness :
    ((∀ msg ∈ sampleMsgs, msg.notOneColumn) ∧
      ((newModel highRng).run flatEnv sampleMsgs).ready = true) ∧
    (0 ≤ ((newModel highRng).run flatEnv sampleMsgs).target.x ∧
    ((newModel highRng).run flatEnv sampleMsgs).target.x ≤
      ((((newModel highRng).run flatEnv sampleMsgs).canvasWidth - 1 : Int) : ℚ) ∧
    0 ≤ ((newModel highRng).run flatEnv sampleMsgs).target.y ∧
    ((newModel highRng).run flatEnv sampleMsgs).target.y ≤
      ((((newModel highRng).run flatEnv sampleMsgs).canvasHeight - 1 : Int) : ℚ)) :=
  ⟨⟨sampleMsgs_notOneColumn, by decide!⟩,
   target_inside_unless_one_column flatEnv highRng sampleMsgs sampleMsgs_notOneColumn (by decide!)⟩

/-! ## Swarm growth and shrinkage (C14, C15) -/

theorem addFollower_noop (m : model) (h : m.followers.length ≥ maxFollowers) :
    m.addFollower = m := by
  unfold model.addFollower
  rw [if_pos h]

theorem addFollower_iterate_length (k : Nat) :
    ∀ m : model, m.followers.length + k ≤ maxFollowers →
      (model.addFollower^[k] m).followers.length = m.followers.length + k := by
  induction k with
  | zero => intro m _; rfl
  | succ k ih =>
    intro m h
    rw [Function.iterate_succ_apply']
    rw [addFollower_length, ih m (by omega), if_neg (by omega)]
    omega

theorem addFollower_iterate_saturated (k : Nat) :
    ∀ m : model, m.followers.length = maxFollowers →
      model.addFollower^[k] m = m := by
  induction k with
  | zero => intro m _; rfl
  | succ k ih =>
    intro m h
    rw [Function.iterate_succ_apply, addFollower_noop m (by omega)]
    exact ih m h

/-- C14, amended: from a swarm of 9 followers, each of the first 21 calls of
addFollower adds one follower, so the count is 30 after the 21st call; the
22nd call and every later call leaves the model unchanged, and the count
after 30 calls is 30. -/
theorem add_thirty_from_nine (m : model) (h : m.followers.length = 9) :
    (model.addFollower^[30] m).followers.length = 30 ∧
    (∀ k, k < 21 →
      (model.addFollower (model.addFollower^[k] m)).followers.length =
        (model.addFollower^[k] m).followers.length + 1) ∧
    (∀ k, 21 ≤ k →
      model.addFollower (model.addFollower^[k] m) = model.addFollower^[k] m) := by
  have h21 : (model.addFollower^[21] m).followers.length = maxFollowers := by
    rw [addFollower_iterate_length 21 m (by simp [maxFollowers]; omega), h]
    rfl
  have hsat : ∀ k, 21 ≤ k → model.addFollower^[k] m = model.addFollower^[21] m := by
    intro k hk
    obtain ⟨j, rfl⟩ : ∃ j, k = j + 21 := ⟨k - 21, by omega⟩
    rw [Function.iterate_add_apply]
    exact addFollower_iterate_saturated j _ h21
  refine ⟨?_, ?_, ?_⟩
  · rw [hsat 30 (by omega), h21]; rfl
  · intro k hk
    rw [addFollower_length, addFollower_iterate_length k m (by simp [maxFollowers]; omega),
      if_neg (by simp [maxFollowers]; omega)]
  · intro k hk
    rw [hsat k hk]
    exact addFollower_noop _ (by omega)

theorem add_thirty_from_nine_witness :
    sampleModel.followers.length = 9 ∧
    ((model.addFollower^[30] sampleModel).followers.length = 30 ∧
    (∀ k, k < 21 →
      (model.addFollower (model.addFollower^[k] sampleModel)).followers.length =
        (model.addFollower^[k] sampleModel).followers.length + 1) ∧
    (∀ k, 21 ≤ k →
      model.addFollower (model.addFollower^[k] sampleModel) =
        model.addFollower^[k] sampleModel)) :=
  ⟨by decide!, add_thirty_from_nine sampleModel (by decide!)⟩

/-- C14 as stated fails: from the 9 followers of the sample model, the 21st
call of addFollower is not a no-op, it takes the count from 29 to 30. -/
theorem twenty_first_add_changes_swarm :
    sampleModel.followers.length = 9 ∧
    (model.addFollower^[20] sampleModel).followers.length = 29 ∧
    (model.addFollower (model.addFollower^[20] sampleModel)).followers.length = 30 := by
  decide!

/-- C15: removeFollower leaves a swarm of at most 3 followers unchanged; of a
larger swarm it keeps exactly the first n - 1 followers, unchanged and in
order, and removes the last one. -/
theorem removeFollower_pops_last (m : model) :
    (m.followers.length ≤ 3 → m.removeFollower = m) ∧
    (m.followers.length > 3 →
      m.removeFollower.followers = m.followers.take (m.followers.length - 1) ∧
      m.removeFollower.followers.length = m.followers.length - 1 ∧
      ∃ last, m.followers = m.removeFollower.followers ++ [last]) := by
  constructor
  · intro h
    unfold model.removeFollower
    rw [if_pos h]
  · intro h
    have hrem : m.removeFollower.followers = m.followers.take (m.followers.length - 1) := by
      unfold model.removeFollower
      rw [if_neg (by omega)]
    refine ⟨hrem, by rw [hrem, List.length_take]; omega, ?_⟩
    have hne : m.followers ≠ [] := by
      intro hnil
      rw [hnil] at h
      simp at h
    refine ⟨m.followers.getLast hne, ?_⟩
    rw [hrem, ← List.dropLast_eq_take]
    exact (List.dropLast_append_getLast hne).symm

/-! ## The trail is a queue of 42 (C16) -/

/-- C16: the trail after a step is the last 42 entries of the trail before
the step followed by the new position: with fewer than 42 entries before,
nothing is dropped; with 42 entries before, exactly the oldest entry is
dropped and the others keep their order. -/
theorem step_trail_is_last_42 (E : Env) (f : follower) (a : StepArgs) :
    (f.stepWith E a).trace =
      (f.trace ++ [(f.stepWith E a).pos]).drop ((f.trace ++ [(f.stepWith E a).pos]).length - 42) ∧
    (f.trace.length < 42 → (f.stepWith E a).trace = f.trace ++ [(f.stepWith E a).pos]) ∧
    (f.trace.length = 42 → (f.stepWith E a).trace = f.trace.tail ++ [(f.stepWith E a).pos]) := by
  have hpush : ∀ (tr : List vector) (p : vector),
      pushTrail tr p = (tr ++ [p]).drop ((tr ++ [p]).length - 42) := by
    intro tr p
    unfold pushTrail
    simp only [maxTrail]
    split_ifs with h
    · rfl
    · have : (tr ++ [p]).length - 42 = 0 := by omega
      rw [this, List.drop_zero]
  rw [step_trace, hpush]
  refine ⟨rfl, ?_, ?_⟩
  · intro h
    have : (f.trace ++ [(f.stepWith E a).pos]).length - 42 = 0 := by
      rw [List.length_append, List.length_singleton]; omega
    rw [this, List.drop_zero]
  · intro h
    have : (f.trace ++ [(f.stepWith E a).pos]).length - 42 = 1 := by
      rw [List.length_append, List.length_singleton]; omega
    rw [this]
    cases hf : f.trace with
    | nil => rw [hf] at h; simp at h
    | cons p rest => rfl

/-! ## Canvas size (C19) -/

/-- C19: for a resize to width > 0 and height > 0, recomputeCanvas sets the
canvas width to the width and the canvas height to height - 6 when that is at
least 10, otherwise to max(height - 2, 3); the canvas height is at least 3. -/
theorem recomputeCanvas_dimensions (m : model) (hw : 0 < m.width) (hh : 0 < m.height) :
    m.recomputeCanvas.canvasWidth = m.width ∧
    (m.height - 6 ≥ 10 → m.recomputeCanvas.canvasHeight = m.height - 6) ∧
    (¬ m.height - 6 ≥ 10 → m.recomputeCanvas.canvasHeight = imax (m.height - 2) 3) ∧
    (∀ a b : Int, imax a b = max a b) ∧
    3 ≤ m.recomputeCanvas.canvasHeight := by
  have himax : ∀ a b : Int, imax a b = max a b := by
    intro a b
    unfold imax
    split_ifs with h
    · exact (max_eq_left (le_of_lt h)).symm
    · exact (max_eq_right (not_lt.mp h)).symm
  have hc := clampTarget_canvas ({ m with canvasWidth := m.width
                                          canvasHeight := if m.height - 6 < 10 then imax (m.height - 2) 3
                                                          else m.height - 6 } : model)
  have hH : m.recomputeCanvas.canvasHeight =
      if m.height - 6 < 10 then imax (m.height - 2) 3 else m.height - 6 := by
    rw [recomputeCanvas_eq, if_neg (by omega)]
    exact hc.2
  have hW : m.recomputeCanvas.canvasWidth = m.width := by
    rw [recomputeCanvas_eq, if_neg (by omega)]
    exact hc.1
  refine ⟨hW, ?_, ?_, himax, ?_⟩
  · intro h
    rw [hH, if_neg (by omega)]
  · intro h
    rw [hH, if_pos (by omega)]
  · rw [hH]
    split_ifs
    · rw [himax]; exact le_max_right _ _
    · omega

theorem recomputeCanvas_dimensions_witness :
    ((0 : Int) < ({ newModel sampleRng with width := 80, height := 12 } : model).width ∧
     (0 : Int) < ({ newModel sampleRng with width := 80, height := 12 } : model).height) ∧
    (({ newModel sampleRng with width := 80, height := 12 } : model).recomputeCanvas.canvasWidth =
        ({ newModel sampleRng with width := 80, height := 12 } : model).width ∧
    (({ newModel sampleRng with width := 80, height := 12 } : model).height - 6 ≥ 10 →
      ({ newModel sampleRng with width := 80, height := 12 } : model).recomputeCanvas.canvasHeight =
        ({ newModel sampleRng with width := 80, height := 12 } : model).height - 6) ∧
    (¬ ({ newModel sampleRng with width := 80, height := 12 } : model).height - 6 ≥ 10 →
      ({ newModel sampleRng with width := 80, height := 12 } : model).recomputeCanvas.canvasHeight =
        imax (({ newModel sampleRng with width := 80, height := 12 } : model).height - 2) 3) ∧
    (∀ a b : Int, imax a b = max a b) ∧
    3 ≤ ({ newModel sampleRng with width := 80, height := 12 } : model).recomputeCanvas.canvasHeight) :=
  ⟨⟨by decide, by decide⟩,
   recomputeCanvas_dimensions ({ newModel sampleRng with width := 80, height := 12 } : model)
     (by decide) (by decide)⟩

/-! ## Single-stop palettes (C13) -/

/-- C13: for a palette of one stop, colorAt returns that stop unchanged for
every t. -/
theorem colorAt_single_stop (m : moodBase) (stop : String) (t : ℚ) (h : m.palette = [stop]) :
    m.colorAt t = stop := by
  unfold moodBase.colorAt
  rw [h]
  rfl

theorem colorAt_single_stop_witness :
    ({ name := "", description := "", palette := ["#3E1F65"], background := "", accent := "",
       wispGlyphs := [], trailGlyphs := [], seedGlyph := '*', seedInterval := 1 } : moodBase).palette
      = ["#3E1F65"] ∧
    ({ name := "", description := "", palette := ["#3E1F65"], background := "", accent := "",
       wispGlyphs := [], trailGlyphs := [], seedGlyph := '*', seedInterval := 1 } : moodBase).colorAt
      (7 / 3) = "#3E1F65" :=
  ⟨rfl, colorAt_single_stop _ "#3E1F65" (7 / 3) rfl⟩

/-! ## Target marker and backgrounds (C17, C18) -/

theorem map_some_eq_append_singleton (ws : List Stroke) (front : List (Option Stroke)) (s : Stroke)
    (h : front ++ [some s] = ws.map some) :
    ∃ pre : List Stroke, ws = pre ++ [s] ∧ front = pre.map some := by
  obtain ⟨l1, l2, hws, h1, h2⟩ := List.map_eq_append_iff.mp h.symm
  cases l2 with
  | nil => simp at h2
  | cons a rest =>
    cases rest with
    | nil =>
      simp only [List.map_cons, List.map_nil, List.cons.injEq, Option.some.injEq, and_true] at h2
      subst h2
      exact ⟨l1, hws, h1.symm⟩
    | cons b rest2 => simp at h2

/-- C17: in every frame in which the rounded target (tx, ty) is inside the
canvas, the final cell at (tx, ty) has glyph '#', the accent colour of the
theme as foreground, the bold flag set and priority 5, whatever else was
painted there; the canvas of View is this composed canvas under the current
mood, and the passes return a canvas for well-formed themes. -/
theorem target_marker_wins (E : Env) (m : model) (theme : moodTheme)
    (hx0 : 0 ≤ roundInt m.target.x) (hx : roundInt m.target.x < m.canvasWidth)
    (hy0 : 0 ≤ roundInt m.target.y) (hy : roundInt m.target.y < m.canvasHeight) :
    (∀ canvas : Canvas, m.composeCanvas E theme = some canvas →
      ∃ c : cell, canvas.at (roundInt m.target.y) (roundInt m.target.x) = some c ∧
        c.ch = '#' ∧ c.fg = theme.accent ∧ c.bold = true ∧ c.priority = 5) ∧
    (m.ready = true → m.View E = m.composeCanvas E (m.currentMood E)) ∧
    ((∀ v, -1 ≤ E.sin v) → (∀ v, -1 ≤ E.cos v) → (∀ a b, 0 ≤ a → 0 ≤ E.pow a b) →
      theme.wispGlyphs ≠ [] → theme.trailGlyphs ≠ [] →
      ∃ canvas : Canvas, m.composeCanvas E theme = some canvas) := by
  refine ⟨?_, ?_, ?_⟩
  · intro canvas h
    obtain ⟨c0, ws, hb, hw, hat⟩ := composeCanvas_cell E m theme canvas _ _ h hx0 hx hy0 hy
    unfold model.frameWrites at hw
    simp only [List.cons.injEq] at hw
    have haim : m.targetAims theme (roundInt m.target.x) (roundInt m.target.y) =
        [some (targetStroke theme)] := by
      unfold model.targetAims
      rw [if_pos ⟨rfl, rfl⟩]
    rw [haim] at hw
    obtain ⟨pre, hws, hfront⟩ := map_some_eq_append_singleton ws _ _ hw.2
    have hle : (pre.foldl cell.paint c0).priority ≤ (targetStroke theme).priority := by
      refine foldl_paint_priority_le pre 5 c0 ?_ ?_
      · rw [(backdropCell_priority E m theme _ _ c0 hb).1]; omega
      · intro v hv
        refine trail_seed_priority_le E m theme (roundInt m.target.x) (roundInt m.target.y) v ?_
        rw [hfront]
        exact List.mem_map_of_mem _ hv
    refine ⟨_, hat, ?_⟩
    rw [hws, List.foldl_append, List.foldl_cons, List.foldl_nil, paint_of_le _ _ hle]
    exact ⟨rfl, rfl, rfl, rfl⟩
  · intro hr
    unfold model.View
    rw [if_neg (by rw [hr]; simp)]
  · intro hsin hcos hpow hw ht
    exact composeCanvas_returns E m theme hsin hcos hpow hw ht (by omega) (by omega)

theorem target_marker_wins_witness :
    ((0 : Int) ≤ roundInt tinyModel.target.x ∧ roundInt tinyModel.target.x < tinyModel.canvasWidth ∧
      (0 : Int) ≤ roundInt tinyModel.target.y ∧
      roundInt tinyModel.target.y < tinyModel.canvasHeight) ∧
    ((∀ canvas : Canvas,
        tinyModel.composeCanvas flatEnv (tinyModel.currentMood flatEnv) = some canvas →
        ∃ c : cell, canvas.at (roundInt tinyModel.target.y) (roundInt tinyModel.target.x) = some c ∧
          c.ch = '#' ∧ c.fg = (tinyModel.currentMood flatEnv).accent ∧ c.bold = true ∧
          c.priority = 5) ∧
     (tinyModel.ready = true →
        tinyModel.View flatEnv = tinyModel.composeCanvas flatEnv (tinyModel.currentMood flatEnv)) ∧
     ((∀ v, -1 ≤ flatEnv.sin v) → (∀ v, -1 ≤ flatEnv.cos v) →
        (∀ a b, 0 ≤ a → 0 ≤ flatEnv.pow a b) →
        (tinyModel.currentMood flatEnv).wispGlyphs ≠ [] →
        (tinyModel.currentMood flatEnv).trailGlyphs ≠ [] →
        ∃ canvas : Canvas,
          tinyModel.composeCanvas flatEnv (tinyModel.currentMood flatEnv) = some canvas)) :=
  ⟨⟨by decide!, by decide!, by decide!, by decide!⟩,
   target_marker_wins flatEnv tinyModel (tinyModel.currentMood flatEnv)
     (by decide!) (by decide!) (by decide!) (by decide!)⟩

theorem paintedBy_bg (g0 g1 : Canvas) (H W x y : Int) (aims : Int → Int → List (Option Stroke))
    (c0 : cell) (hp : g0.paintedBy g1 H W aims) (h0 : g0.at y x = some c0)
    (hx0 : 0 ≤ x) (hx : x < W) (hy0 : 0 ≤ y) (hy : y < H) :
    ∃ c1, g1.at y x = some c1 ∧ c1.bg = c0.bg ∧
      ∃ ws : List Stroke, aims x y = ws.map some ∧ c1 = ws.foldl cell.paint c0 := by
  obtain ⟨ws, hws, hat⟩ := hp.2 x y hx0 hx hy0 hy
  rw [h0] at hat
  exact ⟨_, hat, foldl_paint_bg ws c0, ws, hws, rfl⟩

/-- C18: for every cell of the canvas, the background after the trail pass,
after the particle pass and after the target pass is the background that
prepareCanvas gave the cell. -/
theorem backgrounds_survive (E : Env) (m : model) (theme : moodTheme) (g0 g1 g2 g3 : Canvas)
    (x y : Int)
    (h0 : m.prepareCanvas E theme = some g0) (h1 : m.paintTrails E g0 theme = some g1)
    (h2 : m.paintSeeds g1 theme = some g2) (h3 : m.paintTarget g2 theme = some g3)
    (hx0 : 0 ≤ x) (hx : x < m.canvasWidth) (hy0 : 0 ≤ y) (hy : y < m.canvasHeight) :
    m.composeCanvas E theme = some g3 ∧
    ∃ c0 c1 c2 c3 : cell,
      g0.at y x = some c0 ∧ g1.at y x = some c1 ∧ g2.at y x = some c2 ∧ g3.at y x = some c3 ∧
      c1.bg = c0.bg ∧ c2.bg = c0.bg ∧ c3.bg = c0.bg := by
  have hcomp : m.composeCanvas E theme = some g3 := by
    unfold model.composeCanvas
    rw [h0]; simp only []; rw [h1]; simp only []; rw [h2]; exact h3
  obtain ⟨hs0, hback⟩ := prepareCanvas_spec E m theme g0 h0
  obtain ⟨c0, hb, hc0⟩ := hback x y hx0 hx hy0 hy
  have p01 := paintTrails_paintedBy E m theme g0 g1 hs0 h1
  have p12 := paintSeeds_paintedBy m theme g1 g2 p01.1 h2
  obtain ⟨c1, hc1, hbg1, w1, hw1, he1⟩ := paintedBy_bg g0 g1 _ _ x y _ c0 p01 hc0 hx0 hx hy0 hy
  obtain ⟨c2, hc2, hbg2, w2, hw2, he2⟩ := paintedBy_bg g1 g2 _ _ x y _ c1 p12 hc1 hx0 hx hy0 hy
  obtain ⟨b, ws, hb', _, hat⟩ := composeCanvas_cell E m theme g3 x y hcomp hx0 hx hy0 hy
  rw [hb] at hb'
  cases hb'
  exact ⟨hcomp, c0, c1, c2, _, hc0, hc1, hc2, hat, hbg1, hbg2.trans hbg1, foldl_paint_bg ws c0⟩

theorem backgrounds_survive_witness :
    (tinyModel.prepareCanvas flatEnv (tinyModel.currentMood flatEnv) = some tinyBackdrop ∧
      tinyModel.paintTrails flatEnv tinyBackdrop (tinyModel.currentMood flatEnv) = some tinyTrails ∧
      tinyModel.paintSeeds tinyTrails (tinyModel.currentMood flatEnv) = some tinySeeds ∧
      tinyModel.paintTarget tinySeeds (tinyModel.currentMood flatEnv) = some tinyCanvas ∧
      (0 : Int) ≤ 2 ∧ (2 : Int) < tinyModel.canvasWidth ∧
      (0 : Int) ≤ 1 ∧ (1 : Int) < tinyModel.canvasHeight) ∧
    (tinyModel.composeCanvas flatEnv (tinyModel.currentMood flatEnv) = some tinyCanvas ∧
    ∃ c0 c1 c2 c3 : cell,
      tinyBackdrop.at 1 2 = some c0 ∧ tinyTrails.at 1 2 = some c1 ∧
      tinySeeds.at 1 2 = some c2 ∧ tinyCanvas.at 1 2 = some c3 ∧
      c1.bg = c0.bg ∧ c2.bg = c0.bg ∧ c3.bg = c0.bg) :=
  ⟨⟨by decide!, by decide!, by decide!, by decide!, by decide!, by decide!, by decide!,
    by decide!⟩,
   backgrounds_survive flatEnv tinyModel (tinyModel.currentMood flatEnv)
     tinyBackdrop tinyTrails tinySeeds tinyCanvas 2 1
     (by decide!) (by decide!) (by decide!) (by decide!)
     (by decide!) (by decide!) (by decide!) (by decide!)⟩

/-! ## Automatic mode recomputes the target (C20) -/

theorem updateTarget_forgets_target (E : Env) (m : model) (p : vector)
    (hw : m.canvasWidth ≠ 0) (hh : m.canvasHeight ≠ 0) :
    (({ m with target := p } : model).updateTarget E).target = (m.updateTarget E).target := by
  have hz : ¬ (m.canvasWidth = 0 ∨ m.canvasHeight = 0) := by tauto
  have hz' : ¬ (({ m with target := p } : model).canvasWidth = 0 ∨
      ({ m with target := p } : model).canvasHeight = 0) := hz
  unfold model.updateTarget
  rw [if_neg hz, if_neg hz']

theorem updateKey_space (m : model) :
    m.updateKey "space" = ({ m with autop := !m.autop }, Cmd.nil) := by
  unfold model.updateKey
  rw [if_neg (by decide), if_pos (by decide)]

theorem frame_auto_target (E : Env) (m : model) (hr : m.ready = true) (ha : m.autop = true) :
    (m.Update E .frameMsg).1.target =
      (({ m with t := m.t + deltaTime } : model).updateTarget E).target := by
  have hr' : ¬ (m.ready = false) := by rw [hr]; simp
  unfold model.Update
  simp only []
  rw [if_neg hr', if_pos ha]
  exact (updateSeeds_frame E _).1.trans (updateFollowers_frame E _).1

/-- C20, amended: toggling from manual back to automatic mode snaps. On a
canvas of non-zero size the target after the first automatic tick is the same
whatever the target was before it: it is the point that updateTarget computes
from scene, elapsed time and canvas size. -/
theorem automatic_tick_snaps_target (E : Env) (m : model) (p : vector)
    (hr : m.ready = true) (hm : m.autop = false)
    (hw : m.canvasWidth ≠ 0) (hh : m.canvasHeight ≠ 0) :
    (({ m with target := p } : model).run E [.KeyMsg "space", .frameMsg]).target =
      (m.run E [.KeyMsg "space", .frameMsg]).target ∧
    (m.run E [.KeyMsg "space", .frameMsg]).target =
      (({ m with autop := true, t := m.t + deltaTime } : model).updateTarget E).target := by
  have hrun : ∀ q : vector, (({ m with target := q } : model).run E [.KeyMsg "space", .frameMsg]).target =
      (({ m with autop := true, t := m.t + deltaTime } : model).updateTarget E).target := by
    intro q
    have hstep : (({ m with target := q } : model).run E [.KeyMsg "space", .frameMsg]) =
        (({ m with target := q, autop := !m.autop } : model).Update E .frameMsg).1 := by
      unfold model.run
      simp only [List.foldl_cons, List.foldl_nil]
      have : (({ m with target := q } : model).Update E (.KeyMsg "space")).1 =
          ({ m with target := q, autop := !m.autop } : model) := by
        show (({ m with target := q } : model).updateKey "space").1 = _
        rw [updateKey_space]
      rw [this]
    rw [hstep]
    simp only [hm, Bool.not_false]
    rw [frame_auto_target E ({ m with target := q, autop := true } : model) hr rfl]
    exact updateTarget_forgets_target E
      ({ m with autop := true, t := m.t + deltaTime } : model) q hw hh
  constructor
  · rw [hrun p]
    have := hrun m.target
    exact this.symm
  · exact hrun m.target

theorem automatic_tick_snaps_target_witness :
    ((manualModelAt ⟨5, 5⟩).ready = true ∧ (manualModelAt ⟨5, 5⟩).autop = false ∧
      (manualModelAt ⟨5, 5⟩).canvasWidth ≠ 0 ∧ (manualModelAt ⟨5, 5⟩).canvasHeight ≠ 0) ∧
    ((({ manualModelAt ⟨5, 5⟩ with target := ⟨70, 12⟩ } : model).run sampleEnv
        [.KeyMsg "space", .frameMsg]).target =
      ((manualModelAt ⟨5, 5⟩).run sampleEnv [.KeyMsg "space", .frameMsg]).target ∧
    ((manualModelAt ⟨5, 5⟩).run sampleEnv [.KeyMsg "space", .frameMsg]).target =
      (({ manualModelAt ⟨5, 5⟩ with
          autop := true, t := (manualModelAt ⟨5, 5⟩).t + deltaTime } : model).updateTarget
        sampleEnv).target) :=
  ⟨⟨by decide!, by decide!, by decide!, by decide!⟩,
   automatic_tick_snaps_target sampleEnv (manualModelAt ⟨5, 5⟩) ⟨70, 12⟩
     (by decide!) (by decide!) (by decide!) (by decide!)⟩

/-- C20 as stated fails: two models in manual mode that differ only in where
the target (and the swarm around it) stands, at (5, 5) and at (70, 12), have
the same target after the toggle to automatic mode and one tick, and it is
neither of the two starting points. -/
theorem toggle_to_auto_forgets_position :
    (manualModelAt ⟨5, 5⟩).target ≠ (manualModelAt ⟨70, 12⟩).target ∧
    ((manualModelAt ⟨5, 5⟩).run sampleEnv [.KeyMsg "space", .frameMsg]).autop = true ∧
    ((manualModelAt ⟨5, 5⟩).run sampleEnv [.KeyMsg "space", .frameMsg]).target =
      ((manualModelAt ⟨70, 12⟩).run sampleEnv [.KeyMsg "space", .frameMsg]).target ∧
    ((manualModelAt ⟨5, 5⟩).run sampleEnv [.KeyMsg "space", .frameMsg]).target =
      ⟨4148106888712 / 57617801089, 328750269363081 / 36010285717409⟩ := by
  decide!

/-! ## Colour gradient engine (C11, C12) -/

theorem roundInt_near (k : Int) (d : ℚ) (h1 : -(1 / 2) < d) (h2 : d < 1 / 2) :
    roundInt ((k : ℚ) + d) = k := by
  unfold roundInt
  split_ifs with h
  · rw [Int.floor_eq_iff]
    constructor <;> linarith
  · rw [neg_eq_iff_eq_neg, Int.floor_eq_iff]
    push_cast
    constructor <;> linarith

theorem roundInt_intCast (k : Int) : roundInt (k : ℚ) = k := by
  have := roundInt_near k 0 (by norm_num) (by norm_num)
  rwa [add_zero] at this

theorem hex_pair_table :
    ∀ a ∈ upperHexDigits, ∀ b ∈ upperHexDigits,
      (a ≠ '+' ∧ a ≠ '-') ∧
      (hexDigit a).bind (fun v => (hexDigit b).map (fun w =>
        (fmtHex02 ((16 * v + w : Nat) : Int), decide (16 * v + w ≤ 255)))) = some ([a, b], true) := by
  decide!

theorem scanHex2_pair (a b : Char) (rest : List Char)
    (ha : a ∈ upperHexDigits) (hb : b ∈ upperHexDigits) :
    ∃ v : Nat, v ≤ 255 ∧ scanHex2 (a :: b :: rest) = some ((v : Int), rest) ∧
      fmtHex02 (v : Int) = [a, b] := by
  obtain ⟨⟨hp, hm⟩, htab⟩ := hex_pair_table a ha b hb
  cases hva : hexDigit a with
  | none => rw [hva] at htab; simp at htab
  | some v =>
    cases hvb : hexDigit b with
    | none => rw [hva, hvb] at htab; simp at htab
    | some w =>
      rw [hva, hvb] at htab
      simp only [Option.some_bind, Option.map_some', Option.some.injEq, Prod.mk.injEq,
        decide_eq_true_eq] at htab
      refine ⟨16 * v + w, htab.2, ?_, htab.1⟩
      have hsign : ¬ (a = '+' ∨ a = '-') := by tauto
      simp only [scanHex2, if_neg hsign, hva, hvb]

theorem hexToRGB_of_stop (s : String) (h : isHexStop s) :
    ∃ r g b : Nat, r ≤ 255 ∧ g ≤ 255 ∧ b ≤ 255 ∧
      hexToRGB s = ((r : Int), (g : Int), (b : Int)) ∧
      s = String.mk ('#' :: (fmtHex02 (r : Int) ++ fmtHex02 (g : Int) ++ fmtHex02 (b : Int))) := by
  obtain ⟨d1, d2, d3, d4, d5, d6, hs, h1, h2, h3, h4, h5, h6⟩ := h
  obtain ⟨r, hr, hsr, hfr⟩ := scanHex2_pair d1 d2 [d3, d4, d5, d6] h1 h2
  obtain ⟨g, hg, hsg, hfg⟩ := scanHex2_pair d3 d4 [d5, d6] h3 h4
  obtain ⟨b, hb, hsb, hfb⟩ := scanHex2_pair d5 d6 [] h5 h6
  refine ⟨r, g, b, hr, hg, hb, ?_, ?_⟩
  · unfold hexToRGB
    rw [hs]
    simp only [hsr, hsg, hsb]
  · rw [hfr, hfg, hfb]
    have : s = String.mk s.toList := rfl
    rw [this, hs]
    rfl

theorem blendHex_eq (a b : String) (t : ℚ) (r1 g1 b1 r2 g2 b2 : Int)
    (ha : hexToRGB a = (r1, g1, b1)) (hb : hexToRGB b = (r2, g2, b2)) :
    blendHex a b t =
      String.mk ('#' :: (fmtHex02 (roundInt ((r1 : ℚ) + ((r2 : ℚ) - (r1 : ℚ)) * t)) ++
        fmtHex02 (roundInt ((g1 : ℚ) + ((g2 : ℚ) - (g1 : ℚ)) * t)) ++
        fmtHex02 (roundInt ((b1 : ℚ) + ((b2 : ℚ) - (b1 : ℚ)) * t)))) := by
  unfold blendHex
  rw [ha, hb]

/-- Blending with fraction 0 returns a well-formed first colour exactly. -/
theorem blendHex_zero (a b : String) (ha : isHexStop a) : blendHex a b 0 = a := by
  obtain ⟨r, g, bl, _, _, _, hrgb, hstr⟩ := hexToRGB_of_stop a ha
  rw [blendHex_eq a b 0 _ _ _ (hexToRGB b).1 (hexToRGB b).2.1 (hexToRGB b).2.2 hrgb rfl]
  simp only [mul_zero, add_zero, roundInt_intCast]
  exact hstr.symm

theorem mix_near_end (v1 v2 : Nat) (t : ℚ) (h1 : v1 ≤ 255) (h2 : v2 ≤ 255)
    (ht0 : 0 ≤ 1 - t) (ht : 1 - t ≤ 19 / 10000) :
    roundInt ((((v1 : Int) : ℚ)) + ((((v2 : Int) : ℚ)) - (((v1 : Int) : ℚ))) * t) = (v2 : Int) := by
  have e : (((v1 : Int) : ℚ)) + ((((v2 : Int) : ℚ)) - (((v1 : Int) : ℚ))) * t =
      (((v2 : Int) : ℚ)) + ((((v1 : Int) : ℚ)) - (((v2 : Int) : ℚ))) * (1 - t) := by ring
  rw [e]
  have hv1 : (0 : ℚ) ≤ ((v1 : Int) : ℚ) ∧ ((v1 : Int) : ℚ) ≤ 255 := by
    constructor
    · exact_mod_cast Nat.zero_le v1
    · exact_mod_cast h1
  have hv2 : (0 : ℚ) ≤ ((v2 : Int) : ℚ) ∧ ((v2 : Int) : ℚ) ≤ 255 := by
    constructor
    · exact_mod_cast Nat.zero_le v2
    · exact_mod_cast h2
  apply roundInt_near
  · have : -(255 : ℚ) * (1 - t) ≤ ((((v1 : Int) : ℚ)) - (((v2 : Int) : ℚ))) * (1 - t) :=
      mul_le_mul_of_nonneg_right (by linarith) ht0
    nlinarith
  · have : ((((v1 : Int) : ℚ)) - (((v2 : Int) : ℚ))) * (1 - t) ≤ (255 : ℚ) * (1 - t) :=
      mul_le_mul_of_nonneg_right (by linarith) ht0
    nlinarith

/-- Blending with a fraction within 19/10000 of 1 returns a well-formed
second colour exactly. -/
theorem blendHex_near_end (a b : String) (t : ℚ) (ha : isHexStop a) (hb : isHexStop b)
    (ht0 : 0 ≤ 1 - t) (ht : 1 - t ≤ 19 / 10000) : blendHex a b t = b := by
  obtain ⟨r1, g1, b1, hr1, hg1, hb1, hrgb1, _⟩ := hexToRGB_of_stop a ha
  obtain ⟨r2, g2, b2, hr2, hg2, hb2, hrgb2, hstr2⟩ := hexToRGB_of_stop b hb
  rw [blendHex_eq a b t _ _ _ _ _ _ hrgb1 hrgb2,
    mix_near_end r1 r2 t hr1 hr2 ht0 ht, mix_near_end g1 g2 t hg1 hg2 ht0 ht,
    mix_near_end b1 b2 t hb1 hb2 ht0 ht]
  exact hstr2.symm

theorem colorAt_eq (m : moodBase) (t : ℚ) (h : 2 ≤ m.palette.length) :
    m.colorAt t =
      blendHex
        (stopAt m.palette (toInt (clamp t 0 (9999 / 10000) * (((m.palette.length : Int) - 1 : Int) : ℚ))))
        (stopAt m.palette
          (toInt (clamp t 0 (9999 / 10000) * (((m.palette.length : Int) - 1 : Int) : ℚ)) + 1))
        (clamp t 0 (9999 / 10000) * (((m.palette.length : Int) - 1 : Int) : ℚ) -
          ((toInt (clamp t 0 (9999 / 10000) * (((m.palette.length : Int) - 1 : Int) : ℚ)) : Int) : ℚ)) := by
  unfold moodBase.colorAt
  rw [if_neg (by omega), if_neg (by omega)]

theorem stopAt_eq (palette : List String) (i : Nat) (h : i < palette.length) :
    stopAt palette (i : Int) = palette[i] := by
  unfold stopAt
  rw [if_pos (by omega)]
  simp [List.getD_eq_getElem?_getD, List.getElem?_eq_getElem h]

/-- C11: for every palette of at least 2 stops, each written as '#' followed
by six upper-case hexadecimal digits, colorAt(0) is exactly the first stop. -/
theorem colorAt_zero_is_first_stop (m : moodBase) (h : 2 ≤ m.palette.length)
    (hstops : ∀ s ∈ m.palette, isHexStop s) :
    m.palette.head? = some (m.colorAt 0) := by
  have hclamp : clamp 0 0 (9999 / 10000) = 0 := by
    unfold clamp
    norm_num
  have hidx : toInt (0 : ℚ) = 0 := by
    unfold toInt
    simp
  rw [colorAt_eq m 0 h, hclamp, zero_mul, hidx]
  have h0 : stopAt m.palette 0 = m.palette[0] := stopAt_eq m.palette 0 (by omega)
  rw [h0]
  simp only [Int.cast_zero, sub_zero]
  rw [blendHex_zero _ _ (hstops _ (List.getElem_mem _))]
  rw [List.head?_eq_getElem?, List.getElem?_eq_getElem (by omega)]

/-- C12, amended: for every palette of 2 to 20 stops, each written as '#'
followed by six upper-case hexadecimal digits, colorAt(1) is exactly the last
stop. -/
theorem colorAt_one_is_last_stop (m : moodBase) (h : 2 ≤ m.palette.length)
    (h20 : m.palette.length ≤ 20) (hstops : ∀ s ∈ m.palette, isHexStop s) :
    m.palette.getLast? = some (m.colorAt 1) := by
  obtain ⟨n, hn⟩ : ∃ n : Nat, m.palette.length = n + 2 := ⟨m.palette.length - 2, by omega⟩
  have hclamp : clamp 1 0 (9999 / 10000) = 9999 / 10000 := by
    unfold clamp
    norm_num
  have hlen : (((m.palette.length : Int) - 1 : Int) : ℚ) = (n : ℚ) + 1 := by
    rw [hn]; push_cast; ring
  have hnle : (n : ℚ) ≤ 18 := by exact_mod_cast (by omega : n ≤ 18)
  have hn0 : (0 : ℚ) ≤ (n : ℚ) := by exact_mod_cast Nat.zero_le n
  have hidx : toInt (9999 / 10000 * ((n : ℚ) + 1)) = (n : Int) := by
    unfold toInt
    rw [if_pos (by positivity), Int.floor_eq_iff]
    push_cast
    constructor <;> linarith
  rw [colorAt_eq m 1 h, hclamp, hlen, hidx]
  have hA : stopAt m.palette (n : Int) = m.palette[n] := stopAt_eq m.palette n (by omega)
  have hB : stopAt m.palette ((n : Int) + 1) = m.palette[n + 1] := by
    have := stopAt_eq m.palette (n + 1) (by omega)
    rw [← this]
    push_cast
    rfl
  rw [hA, hB, blendHex_near_end _ _ _ (hstops _ (List.getElem_mem _))
    (hstops _ (List.getElem_mem _)) (by push_cast; linarith) (by push_cast; linarith)]
  rw [List.getLast?_eq_getElem?, List.getElem?_eq_getElem (by omega)]
  congr 1
  simp only [hn]
  rfl

theorem auroraBase_stops : ∀ s ∈ auroraBase.palette, isHexStop s := by
  intro s hs
  simp only [auroraBase, List.mem_cons, List.mem_singleton, List.not_mem_nil, or_false] at hs
  rcases hs with rfl | rfl | rfl | rfl | rfl
  · exact ⟨'3', 'E', '1', 'F', '6', '5', rfl, by decide, by decide, by decide, by decide,
      by decide, by decide⟩
  · exact ⟨'5', 'C', '3', 'C', '9', '9', rfl, by decide, by decide, by decide, by decide,
      by decide, by decide⟩
  · exact ⟨'8', 'D', '7', '3', 'F', 'F', rfl, by decide, by decide, by decide, by decide,
      by decide, by decide⟩
  · exact ⟨'F', 'F', '8', 'B', 'D', '5', rfl, by decide, by decide, by decide, by decide,
      by decide, by decide⟩
  · exact ⟨'F', 'F', 'E', '8', 'A', '3', rfl, by decide, by decide, by decide, by decide,
      by decide, by decide⟩

theorem longPalette_stops : ∀ s ∈ longPalette.palette, isHexStop s := by
  intro s hs
  simp only [longPalette, List.mem_append, List.mem_replicate, List.mem_singleton] at hs
  rcases hs with ⟨_, rfl⟩ | rfl
  · exact ⟨'0', '0', '0', '0', '0', '0', rfl, by decide, by decide, by decide, by decide,
      by decide, by decide⟩
  · exact ⟨'F', 'F', 'F', 'F', 'F', 'F', rfl, by decide, by decide, by decide, by decide,
      by decide, by decide⟩

theorem colorAt_zero_is_first_stop_witness :
    (2 ≤ auroraBase.palette.length ∧ ∀ s ∈ auroraBase.palette, isHexStop s) ∧
    auroraBase.palette.head? = some (auroraBase.colorAt 0) :=
  ⟨⟨by decide, auroraBase_stops⟩,
   colorAt_zero_is_first_stop auroraBase (by decide) auroraBase_stops⟩

theorem colorAt_one_is_last_stop_witness :
    (2 ≤ auroraBase.palette.length ∧ auroraBase.palette.length ≤ 20 ∧
      ∀ s ∈ auroraBase.palette, isHexStop s) ∧
    auroraBase.palette.getLast? = some (auroraBase.colorAt 1) :=
  ⟨⟨by decide, by decide, auroraBase_stops⟩,
   colorAt_one_is_last_stop auroraBase (by decide) (by decide) auroraBase_stops⟩

/-- C12 as stated fails: for the palette of 21 well-formed stops that ends in
black, white, colorAt(1) is "#FEFEFE" and not the last stop "#FFFFFF". -/
theorem colorAt_one_misses_last_of_21 :
    longPalette.palette.length = 21 ∧ (∀ s ∈ longPalette.palette, isHexStop s) ∧
    longPalette.palette.getLast? = some "#FFFFFF" ∧
    longPalette.colorAt 1 = "#FEFEFE" ∧
    longPalette.palette.getLast? ≠ some (longPalette.colorAt 1) :=
  ⟨by decide, longPalette_stops, by decide, by decide!, by decide!⟩

/-! ## Manual nudges (C21) -/

/-- C21: on a canvas at least 1 x 1, manualTarget dx dy moves the target to
(clamp (x + dx) 0 (width - 1), clamp (y + dy) 0 (height - 1)) and leaves the
model in manual mode, whatever the mode was before; nothing but the target and
the mode flag changes. -/
theorem manualTarget_nudges_and_clamps (m : model) (dx dy : ℚ)
    (hw : 1 ≤ m.canvasWidth) (hh : 1 ≤ m.canvasHeight) :
    (m.manualTarget dx dy).target =
        ⟨clamp (m.target.x + dx) 0 ((m.canvasWidth - 1 : Int) : ℚ),
         clamp (m.target.y + dy) 0 ((m.canvasHeight - 1 : Int) : ℚ)⟩ ∧
      (m.manualTarget dx dy).autop = false ∧
      m.manualTarget dx dy =
        { m with autop := false, target := (m.manualTarget dx dy).target } := by
  have h0 : ¬ (m.canvasWidth ≤ 0 ∨ m.canvasHeight ≤ 0) := by omega
  have key : m.manualTarget dx dy =
      { m with autop := false
               target := ⟨clampAxis (m.target.x + dx) ((m.canvasWidth - 1 : Int) : ℚ),
                          clampAxis (m.target.y + dy) ((m.canvasHeight - 1 : Int) : ℚ)⟩ } := by
    unfold model.manualTarget
    simp only [clampTarget_eq]
    rw [if_neg h0]
  rw [key, clampAxis_eq_clamp _ _ (cast_pred_nonneg _ hw),
    clampAxis_eq_clamp _ _ (cast_pred_nonneg _ hh)]
  exact ⟨rfl, rfl, rfl⟩

theorem manualTarget_nudges_and_clamps_witness :
    (1 ≤ sampleModel.canvasWidth ∧ 1 ≤ sampleModel.canvasHeight) ∧
      sampleModel.autop = true ∧
      ((sampleModel.manualTarget 100 (-1)).target =
          ⟨clamp (sampleModel.target.x + 100) 0 ((sampleModel.canvasWidth - 1 : Int) : ℚ),
           clamp (sampleModel.target.y + (-1)) 0 ((sampleModel.canvasHeight - 1 : Int) : ℚ)⟩ ∧
        (sampleModel.manualTarget 100 (-1)).autop = false ∧
        sampleModel.manualTarget 100 (-1) =
          { sampleModel with autop := false,
                             target := (sampleModel.manualTarget 100 (-1)).target }) :=
  ⟨⟨by decide!, by decide!⟩, by decide!,
    manualTarget_nudges_and_clamps sampleModel 100 (-1) (by decide!) (by decide!)⟩

/-! ## Positions and goals of a step (C23) -/

/-- C23: for every formation, target and spring, on a stage at least 1 x 1 and,
in the Helix formation, with a count of at least 2 (so that the depth does not
divide by zero), the position after step lies in [0, width - 1] x
[0, height - 1]; it is the clamped result of the two spring updates, and the
goal handed to each of them is target + offset clamped into the same range. -/
theorem step_position_and_goal_clamped (E : Env) (f : follower) (target : vector)
    (formation : formationMode) (stageW stageH t dt : ℚ) (count : Int) (mood : moodTheme)
    (hw : 1 ≤ stageW) (hh : 1 ≤ stageH) (hc : formation = .formationHelix → 2 ≤ count) :
    (formation = .formationHelix →
      (((if count < 1 then 1 else count) - 1 : Int) : ℚ) ≠ 0) ∧
    (0 ≤ (f.step E target formation stageW stageH t dt count mood).pos.x ∧
      (f.step E target formation stageW stageH t dt count mood).pos.x ≤ stageW - 1 ∧
      0 ≤ (f.step E target formation stageW stageH t dt count mood).pos.y ∧
      (f.step E target formation stageW stageH t dt count mood).pos.y ≤ stageH - 1) ∧
    ∃ (g : follower) (offset : vector) (goalX goalY : ℚ),
      (g, offset) = f.formationOffset E formation stageW stageH t dt
        (if count < 1 then 1 else count) ∧
      goalX = clamp (target.x + offset.x) 0 (stageW - 1) ∧
      goalY = clamp (target.y + offset.y) 0 (stageH - 1) ∧
      (0 ≤ goalX ∧ goalX ≤ stageW - 1 ∧ 0 ≤ goalY ∧ goalY ≤ stageH - 1) ∧
      (f.step E target formation stageW stageH t dt count mood).pos =
        ⟨clamp (g.springX.Update E g.pos.x g.vel.x goalX).1 0 (stageW - 1),
         clamp (g.springY.Update E g.pos.y g.vel.y goalY).1 0 (stageH - 1)⟩ ∧
      (f.step E target formation stageW stageH t dt count mood).vel =
        ⟨(g.springX.Update E g.pos.x g.vel.x goalX).2,
         (g.springY.Update E g.pos.y g.vel.y goalY).2⟩ := by
  have hW : (0 : ℚ) ≤ stageW - 1 := by linarith
  have hH : (0 : ℚ) ≤ stageH - 1 := by linarith
  refine ⟨?_, ⟨?_, ?_, ?_, ?_⟩, _, _, _, _, rfl, rfl, rfl,
    ⟨clamp_ge _ _ _ hW, clamp_le _ _ _ hW, clamp_ge _ _ _ hH, clamp_le _ _ _ hH⟩, rfl, rfl⟩
  · intro hf
    have h2 := hc hf
    rw [if_neg (by omega)]
    have h3 : count - 1 ≠ 0 := by omega
    exact_mod_cast h3
  · exact clamp_ge _ _ _ hW
  · exact clamp_le _ _ _ hW
  · exact clamp_ge _ _ _ hH
  · exact clamp_le _ _ _ hH

theorem step_position_and_goal_clamped_witness :
    ((1 : ℚ) ≤ 20 ∧ (1 : ℚ) ≤ 10 ∧
      (formationMode.formationHelix = .formationHelix → (2 : Int) ≤ 3)) ∧
    ((formationMode.formationHelix = .formationHelix →
      (((if (3 : Int) < 1 then 1 else 3) - 1 : Int) : ℚ) ≠ 0) ∧
    (0 ≤ ((restingFollower 2 0 [⟨3, 4⟩]).step sampleEnv ⟨300, -40⟩ .formationHelix
          20 10 0 deltaTime 3 (sampleModel.currentMood sampleEnv)).pos.x ∧
      ((restingFollower 2 0 [⟨3, 4⟩]).step sampleEnv ⟨300, -40⟩ .formationHelix
          20 10 0 deltaTime 3 (sampleModel.currentMood sampleEnv)).pos.x ≤ 20 - 1 ∧
      0 ≤ ((restingFollower 2 0 [⟨3, 4⟩]).step sampleEnv ⟨300, -40⟩ .formationHelix
          20 10 0 deltaTime 3 (sampleModel.currentMood sampleEnv)).pos.y ∧
      ((restingFollower 2 0 [⟨3, 4⟩]).step sampleEnv ⟨300, -40⟩ .formationHelix
          20 10 0 deltaTime 3 (sampleModel.currentMood sampleEnv)).pos.y ≤ 10 - 1) ∧
    ∃ (g : follower) (offset : vector) (goalX goalY : ℚ),
      (g, offset) = (restingFollower 2 0 [⟨3, 4⟩]).formationOffset sampleEnv .formationHelix
        20 10 0 deltaTime (if (3 : Int) < 1 then 1 else 3) ∧
      goalX = clamp ((⟨300, -40⟩ : vector).x + offset.x) 0 (20 - 1) ∧
      goalY = clamp ((⟨300, -40⟩ : vector).y + offset.y) 0 (10 - 1) ∧
      (0 ≤ goalX ∧ goalX ≤ 20 - 1 ∧ 0 ≤ goalY ∧ goalY ≤ 10 - 1) ∧
      ((restingFollower 2 0 [⟨3, 4⟩]).step sampleEnv ⟨300, -40⟩ .formationHelix
          20 10 0 deltaTime 3 (sampleModel.currentMood sampleEnv)).pos =
        ⟨clamp (g.springX.Update sampleEnv g.pos.x g.vel.x goalX).1 0 (20 - 1),
         clamp (g.springY.Update sampleEnv g.pos.y g.vel.y goalY).1 0 (10 - 1)⟩ ∧
      ((restingFollower 2 0 [⟨3, 4⟩]).step sampleEnv ⟨300, -40⟩ .formationHelix
          20 10 0 deltaTime 3 (sampleModel.currentMood sampleEnv)).vel =
        ⟨(g.springX.Update sampleEnv g.pos.x g.vel.x goalX).2,
         (g.springY.Update sampleEnv g.pos.y g.vel.y goalY).2⟩) :=
  ⟨⟨by norm_num, by norm_num, fun _ => by decide⟩,
    step_position_and_goal_clamped sampleEnv (restingFollower 2 0 [⟨3, 4⟩]) ⟨300, -40⟩
      .formationHelix 20 10 0 deltaTime 3 (sampleModel.currentMood sampleEnv)
      (by norm_num) (by norm_num) (fun _ => by decide)⟩

/-! ## The particle timer (C22) -/

theorem fmod_of_nonneg (x y : ℚ) (hx : 0 ≤ x) (hy : 0 < y) :
    fmod x y = x - y * (⌊x / y⌋ : ℚ) ∧ 0 ≤ fmod x y ∧ fmod x y < y := by
  have hq : 0 ≤ x / y := div_nonneg hx hy.le
  have hf : fmod x y = x - y * (⌊x / y⌋ : ℚ) := by
    unfold fmod toInt
    rw [if_pos hq]
  have h1 : (⌊x / y⌋ : ℚ) ≤ x / y := Int.floor_le _
  have h2 : x / y < (⌊x / y⌋ : ℚ) + 1 := Int.lt_floor_add_one _
  have hxy : x = y * (x / y) := by field_simp
  refine ⟨hf, ?_, ?_⟩
  · rw [hf]
    nlinarith [mul_le_mul_of_nonneg_left h1 hy.le]
  · rw [hf]
    nlinarith [mul_lt_mul_of_pos_left h2 hy]

theorem emitSeed_spawns (m : model) (theme : moodTheme)
    (hw : m.canvasWidth ≠ 0) (hh : m.canvasHeight ≠ 0) :
    ∃ s : seed, s.life = 0 ∧ (m.emitSeed theme).seeds = m.seeds ++ [s] ∧
      (m.emitSeed theme).seedTimer = m.seedTimer := by
  unfold model.emitSeed
  rw [if_neg (by tauto)]
  exact ⟨_, rfl, rfl, rfl⟩

theorem advanceSeedTimer_spawn (m : model) (mood : moodTheme)
    (hw : m.canvasWidth ≠ 0) (hh : m.canvasHeight ≠ 0)
    (ha : mood.seedInterval ≤ m.seedTimer + deltaTime) :
    ∃ s : seed, s.life = 0 ∧ (m.advanceSeedTimer mood).seeds = m.seeds ++ [s] ∧
      (m.advanceSeedTimer mood).seedTimer = fmod (m.seedTimer + deltaTime) mood.seedInterval := by
  obtain ⟨s, h1, h2, h3⟩ :=
    emitSeed_spawns { m with seedTimer := m.seedTimer + deltaTime } mood hw hh
  refine ⟨s, h1, ?_, ?_⟩
  · unfold model.advanceSeedTimer
    simp only []
    rw [if_pos ha]
    exact h2
  · unfold model.advanceSeedTimer
    simp only []
    rw [if_pos ha]
    show fmod (model.emitSeed _ mood).seedTimer _ = _
    rw [h3]

theorem advanceSeedTimer_idle (m : model) (mood : moodTheme)
    (ha : m.seedTimer + deltaTime < mood.seedInterval) :
    (m.advanceSeedTimer mood).seeds = m.seeds ∧
      (m.advanceSeedTimer mood).seedTimer = m.seedTimer + deltaTime := by
  unfold model.advanceSeedTimer
  simp only []
  rw [if_neg (not_le.mpr ha)]
  exact ⟨rfl, rfl⟩

theorem updateSeeds_seedTimer (E : Env) (m : model)
    (hw : m.canvasWidth ≠ 0) (hh : m.canvasHeight ≠ 0) :
    (m.updateSeeds E).seedTimer = (m.advanceSeedTimer (m.currentMood E)).seedTimer := by
  unfold model.updateSeeds
  have hw' : ¬ ((m.canvasWidth : ℚ) = 0 ∨ (m.canvasHeight : ℚ) = 0) := by
    simp only [Int.cast_eq_zero]
    tauto
  simp only [if_neg hw']


theorem emitSeed_eq (m : model) (theme : moodTheme)
    (hw : m.canvasWidth ≠ 0) (hh : m.canvasHeight ≠ 0) :
    (m.emitSeed theme).seeds = m.seeds ++
      [{ projector := NewProjectile (harmonicaFPS fps) ⟨m.target.x, m.target.y⟩
            ⟨(m.rng.draws m.rng.pos * 2 - 1) * 14, -6 - m.rng.draws (m.rng.pos + 1) * 6⟩ ⟨0, 18⟩
         pos := ⟨0, 0⟩
         life := 0
         ttl := 14 / 10 + m.rng.draws (m.rng.pos + 2) * (9 / 10)
         color := theme.colorAt (m.rng.draws (m.rng.pos + 3))
         glyph := theme.seedGlyph }] := by
  unfold model.emitSeed
  rw [if_neg (by tauto)]
  rfl

theorem advanceSeedTimer_spawn_eq (m : model) (mood : moodTheme)
    (hw : m.canvasWidth ≠ 0) (hh : m.canvasHeight ≠ 0)
    (ha : mood.seedInterval ≤ m.seedTimer + deltaTime) :
    (m.advanceSeedTimer mood).seeds = m.seeds ++
      [{ projector := NewProjectile (harmonicaFPS fps) ⟨m.target.x, m.target.y⟩
            ⟨(m.rng.draws m.rng.pos * 2 - 1) * 14, -6 - m.rng.draws (m.rng.pos + 1) * 6⟩ ⟨0, 18⟩
         pos := ⟨0, 0⟩
         life := 0
         ttl := 14 / 10 + m.rng.draws (m.rng.pos + 2) * (9 / 10)
         color := mood.colorAt (m.rng.draws (m.rng.pos + 3))
         glyph := mood.seedGlyph }] := by
  have h := emitSeed_eq { m with seedTimer := m.seedTimer + deltaTime } mood hw hh
  unfold model.advanceSeedTimer
  simp only []
  rw [if_pos ha]
  exact h

/-- C22: on a tick with a non-zero canvas and an interval I > 0 of the current
mood, let a = seedTimer + 1/60. If a >= I, exactly one particle is spawned:
the list handed to the integration loop is the old list followed by one new
particle of life 0, built from the next four draws, and that particle is live
after the tick exactly when its first step stays within the margin (its
time-to-live being at least 1.4 for a draw >= 0); the timer becomes
math.Mod(a, I), which is a - I * floor(a / I), not a reset to 0. If a < I, no
particle is spawned and the timer becomes a. In both cases a timer that was
>= 0 ends the tick in [0, I). -/
theorem updateSeeds_spawns_at_most_one (E : Env) (m : model)
    (hw : m.canvasWidth ≠ 0) (hh : m.canvasHeight ≠ 0)
    (hI : 0 < (m.currentMood E).seedInterval) :
    ((m.currentMood E).seedInterval ≤ m.seedTimer + deltaTime →
      (∃ s : seed,
        s = { projector := NewProjectile (harmonicaFPS fps) ⟨m.target.x, m.target.y⟩
                ⟨(m.rng.draws m.rng.pos * 2 - 1) * 14, -6 - m.rng.draws (m.rng.pos + 1) * 6⟩
                ⟨0, 18⟩
              pos := ⟨0, 0⟩
              life := 0
              ttl := 14 / 10 + m.rng.draws (m.rng.pos + 2) * (9 / 10)
              color := (m.currentMood E).colorAt (m.rng.draws (m.rng.pos + 3))
              glyph := (m.currentMood E).seedGlyph } ∧
        (m.advanceSeedTimer (m.currentMood E)).seeds = m.seeds ++ [s] ∧
        (m.updateSeeds E).seeds = ((m.seeds ++ [s]).map seed.integrate).filter
          (fun s => decide (s.survives (m.canvasWidth : ℚ) (m.canvasHeight : ℚ))) ∧
        (0 ≤ m.rng.draws (m.rng.pos + 2) →
          (s.integrate ∈ (m.updateSeeds E).seeds ↔
            s.integrate.inMargin (m.canvasWidth : ℚ) (m.canvasHeight : ℚ)))) ∧
      (m.updateSeeds E).seedTimer =
        fmod (m.seedTimer + deltaTime) (m.currentMood E).seedInterval ∧
      (m.updateSeeds E).seedTimer =
        m.seedTimer + deltaTime - (m.currentMood E).seedInterval *
          (⌊(m.seedTimer + deltaTime) / (m.currentMood E).seedInterval⌋ : ℚ)) ∧
    (m.seedTimer + deltaTime < (m.currentMood E).seedInterval →
      (m.advanceSeedTimer (m.currentMood E)).seeds = m.seeds ∧
      (m.updateSeeds E).seeds = (m.seeds.map seed.integrate).filter
          (fun s => decide (s.survives (m.canvasWidth : ℚ) (m.canvasHeight : ℚ))) ∧
      (m.updateSeeds E).seedTimer = m.seedTimer + deltaTime) ∧
    (0 ≤ m.seedTimer →
      0 ≤ (m.updateSeeds E).seedTimer ∧
      (m.updateSeeds E).seedTimer < (m.currentMood E).seedInterval) := by
  have hdt : (0 : ℚ) < deltaTime := by norm_num [deltaTime]
  have htimer : (m.currentMood E).seedInterval ≤ m.seedTimer + deltaTime →
      (m.updateSeeds E).seedTimer =
        fmod (m.seedTimer + deltaTime) (m.currentMood E).seedInterval := by
    intro ha
    obtain ⟨s, _, _, h3⟩ := advanceSeedTimer_spawn m (m.currentMood E) hw hh ha
    rw [updateSeeds_seedTimer E m hw hh, h3]
  have hidle : m.seedTimer + deltaTime < (m.currentMood E).seedInterval →
      (m.updateSeeds E).seedTimer = m.seedTimer + deltaTime := by
    intro ha
    rw [updateSeeds_seedTimer E m hw hh, (advanceSeedTimer_idle m (m.currentMood E) ha).2]
  refine ⟨?_, ?_, ?_⟩
  · intro ha
    have happ := advanceSeedTimer_spawn_eq m (m.currentMood E) hw hh ha
    have hseeds := updateSeeds_seeds E m hw hh
    rw [happ] at hseeds
    have hm := fmod_of_nonneg (m.seedTimer + deltaTime) _ (by linarith) hI
    refine ⟨⟨_, rfl, happ, hseeds, ?_⟩, htimer ha, ?_⟩
    · intro hdraw
      rw [hseeds, List.mem_filter]
      constructor
      · intro hmem
        have := hmem.2
        simp only [decide_eq_true_eq] at this
        exact this.2
      · intro hin
        refine ⟨List.mem_map_of_mem _ (List.mem_append_right _ (List.mem_singleton_self _)), ?_⟩
        simp only [decide_eq_true_eq]
        refine ⟨?_, hin⟩
        show (0 : ℚ) + deltaTime < 14 / 10 + m.rng.draws (m.rng.pos + 2) * (9 / 10)
        unfold deltaTime
        linarith
    · rw [htimer ha]
      exact hm.1
  · intro ha
    have h2 := (advanceSeedTimer_idle m (m.currentMood E) ha).1
    exact ⟨h2, by rw [updateSeeds_seeds E m hw hh, h2], hidle ha⟩
  · intro h0
    rcases le_or_lt (m.currentMood E).seedInterval (m.seedTimer + deltaTime) with ha | ha
    · have hm := fmod_of_nonneg (m.seedTimer + deltaTime) _ (by linarith) hI
      rw [htimer ha]
      exact hm.2
    · rw [hidle ha]
      exact ⟨by linarith, ha⟩

theorem updateSeeds_spawns_at_most_one_witness :
    (primedModel.canvasWidth ≠ 0 ∧ primedModel.canvasHeight ≠ 0 ∧
      0 < (primedModel.currentMood sampleEnv).seedInterval) ∧
    ((primedModel.currentMood sampleEnv).seedInterval ≤ primedModel.seedTimer + deltaTime ∧
      (primedModel.updateSeeds sampleEnv).seedTimer = 1 / 150 ∧
      primedModel.seeds.length = 1 ∧
      (primedModel.updateSeeds sampleEnv).seeds.length = 2) ∧
    (((primedModel.currentMood sampleEnv).seedInterval ≤ primedModel.seedTimer + deltaTime →
      (∃ s : seed,
        s = { projector := NewProjectile (harmonicaFPS fps)
                ⟨primedModel.target.x, primedModel.target.y⟩
                ⟨(primedModel.rng.draws primedModel.rng.pos * 2 - 1) * 14,
                 -6 - primedModel.rng.draws (primedModel.rng.pos + 1) * 6⟩
                ⟨0, 18⟩
              pos := ⟨0, 0⟩
              life := 0
              ttl := 14 / 10 + primedModel.rng.draws (primedModel.rng.pos + 2) * (9 / 10)
              color := (primedModel.currentMood sampleEnv).colorAt
                (primedModel.rng.draws (primedModel.rng.pos + 3))
              glyph := (primedModel.currentMood sampleEnv).seedGlyph } ∧
        (primedModel.advanceSeedTimer (primedModel.currentMood sampleEnv)).seeds =
          primedModel.seeds ++ [s] ∧
        (primedModel.updateSeeds sampleEnv).seeds =
          ((primedModel.seeds ++ [s]).map seed.integrate).filter
            (fun s => decide (s.survives (primedModel.canvasWidth : ℚ)
              (primedModel.canvasHeight : ℚ))) ∧
        (0 ≤ primedModel.rng.draws (primedModel.rng.pos + 2) →
          (s.integrate ∈ (primedModel.updateSeeds sampleEnv).seeds ↔
            s.integrate.inMargin (primedModel.canvasWidth : ℚ)
              (primedModel.canvasHeight : ℚ)))) ∧
      (primedModel.updateSeeds sampleEnv).seedTimer =
        fmod (primedModel.seedTimer + deltaTime) (primedModel.currentMood sampleEnv).seedInterval ∧
      (primedModel.updateSeeds sampleEnv).seedTimer =
        primedModel.seedTimer + deltaTime - (primedModel.currentMood sampleEnv).seedInterval *
          (⌊(primedModel.seedTimer + deltaTime) /
            (primedModel.currentMood sampleEnv).seedInterval⌋ : ℚ)) ∧
    (primedModel.seedTimer + deltaTime < (primedModel.currentMood sampleEnv).seedInterval →
      (primedModel.advanceSeedTimer (primedModel.currentMood sampleEnv)).seeds =
        primedModel.seeds ∧
      (primedModel.updateSeeds sampleEnv).seeds = (primedModel.seeds.map seed.integrate).filter
          (fun s => decide (s.survives (primedModel.canvasWidth : ℚ)
            (primedModel.canvasHeight : ℚ))) ∧
      (primedModel.updateSeeds sampleEnv).seedTimer = primedModel.seedTimer + deltaTime) ∧
    (0 ≤ primedModel.seedTimer →
      0 ≤ (primedModel.updateSeeds sampleEnv).seedTimer ∧
      (primedModel.updateSeeds sampleEnv).seedTimer <
        (primedModel.currentMood sampleEnv).seedInterval)) :=
  ⟨⟨by decide!, by decide!, by decide!⟩, ⟨by decide!, by decide!, by decide!, by decide!⟩,
    updateSeeds_spawns_at_most_one sampleEnv primedModel (by decide!) (by decide!) (by decide!)⟩

/-! ## Orders and the Helix depth (C24) -/

theorem ordered_nil : ordered [] := by
  intro i f h
  simp at h

theorem addFollower_ordered (m : model) (h : ordered m.followers) :
    ordered m.addFollower.followers := by
  by_cases hn : m.followers.length < maxFollowers
  · obtain ⟨g, hg, _, _, ho⟩ := addFollower_last m hn
    rw [hg]
    intro i f hf
    rcases Nat.lt_or_ge i m.followers.length with hi | hi
    · rw [List.getElem?_append_left hi] at hf
      exact h i f hf
    · rw [List.getElem?_append_right hi] at hf
      rcases Nat.eq_zero_or_pos (i - m.followers.length) with h0 | h0
      · rw [h0] at hf
        simp only [List.getElem?_cons_zero, Option.some.injEq] at hf
        rw [← hf, ho]
        have : i = m.followers.length := by omega
        rw [this]
      · rw [List.getElem?_eq_none (by simp only [List.length_singleton]; omega)] at hf
        cases hf
  · unfold model.addFollower
    rw [if_pos (by omega)]
    exact h

theorem removeFollower_ordered (m : model) (h : ordered m.followers) :
    ordered m.removeFollower.followers := by
  unfold model.removeFollower
  split_ifs
  · exact h
  · intro i f hf
    simp only [List.getElem?_take] at hf
    split_ifs at hf
    exact h i f hf

theorem runSwarm_ordered (events : List SwarmEvent) :
    ∀ m : model, ordered m.followers → ordered (m.runSwarm events).followers := by
  induction events with
  | nil => intro m h; exact h
  | cons e rest ih =>
    intro m h
    show ordered ((m.applySwarm e).runSwarm rest).followers
    apply ih
    cases e
    · exact addFollower_ordered m h
    · exact removeFollower_ordered m h

theorem depth_range (i n : Nat) (hn : 2 ≤ n) (hi : i < n) :
    (((n : Int) - 1 : Int) : ℚ) ≠ 0 ∧
      -(1 / 2 : ℚ) ≤ ((i : Int) : ℚ) / (((n : Int) - 1 : Int) : ℚ) - 5 / 10 ∧
      ((i : Int) : ℚ) / (((n : Int) - 1 : Int) : ℚ) - 5 / 10 ≤ 1 / 2 := by
  have hpos : (0 : ℚ) < (((n : Int) - 1 : Int) : ℚ) := by
    have : (0 : Int) < (n : Int) - 1 := by omega
    exact_mod_cast this
  have hle : (((i : Int)) : ℚ) ≤ (((n : Int) - 1 : Int) : ℚ) := by
    have : (i : Int) ≤ (n : Int) - 1 := by omega
    exact_mod_cast this
  have h0 : (0 : ℚ) ≤ ((i : Int) : ℚ) := by
    have : (0 : Int) ≤ (i : Int) := by omega
    exact_mod_cast this
  refine ⟨ne_of_gt hpos, ?_, ?_⟩
  · have := div_nonneg h0 hpos.le
    linarith
  · have := (div_le_one hpos).mpr hle
    linarith


/-- C24: in a swarm reached from the empty swarm by add-follower and
remove-follower events that has n >= 2 followers, the order of every follower
is its index, the divisor n - 1 of the Helix depth is non-zero, and the depth
order / (n - 1) - 0.5 that the Helix branch of step computes (it is the depth
in the vertical offset of the branch) lies in [-0.5, 0.5]. -/
theorem helix_depth_in_range (E : Env) (m : model) (events : List SwarmEvent)
    (hm : m.followers = []) (hn : 2 ≤ (m.runSwarm events).followers.length) :
    ((((m.runSwarm events).followers.length : Int) - 1 : Int) : ℚ) ≠ 0 ∧
    ∀ (i : Nat) (f : follower), (m.runSwarm events).followers[i]? = some f →
      f.order = (i : Int) ∧
      -(1 / 2 : ℚ) ≤ (f.order : ℚ) /
          ((((m.runSwarm events).followers.length : Int) - 1 : Int) : ℚ) - 5 / 10 ∧
      (f.order : ℚ) /
          ((((m.runSwarm events).followers.length : Int) - 1 : Int) : ℚ) - 5 / 10 ≤ 1 / 2 ∧
      ∀ stageW stageH t dt : ℚ,
        (f.formationOffset E .formationHelix stageW stageH t dt
            ((m.runSwarm events).followers.length : Int)).2.y =
          ((f.order : ℚ) /
              ((((m.runSwarm events).followers.length : Int) - 1 : Int) : ℚ) - 5 / 10) *
            stageH * (6 / 10) +
          E.cos (t * (16 / 10) + ((f.order : ℚ) /
              ((((m.runSwarm events).followers.length : Int) - 1 : Int) : ℚ) - 5 / 10) * 4) * 4 := by
  have hord : ordered (m.runSwarm events).followers :=
    runSwarm_ordered events m (by rw [hm]; exact ordered_nil)
  refine ⟨(depth_range 0 _ hn (by omega)).1, ?_⟩
  intro i f hf
  have hi : i < (m.runSwarm events).followers.length := by
    by_contra hcon
    rw [List.getElem?_eq_none (by omega)] at hf
    cases hf
  have ho := hord i f hf
  have hd := depth_range i _ hn hi
  refine ⟨ho, ?_, ?_, fun _ _ _ _ => rfl⟩
  · rw [ho]
    exact hd.2.1
  · rw [ho]
    exact hd.2.2

theorem helix_depth_in_range_witness :
    ((newModel sampleRng).followers = [] ∧
      2 ≤ ((newModel sampleRng).runSwarm [.add, .add, .add, .add, .remove, .add]).followers.length) ∧
    (((((newModel sampleRng).runSwarm
        [.add, .add, .add, .add, .remove, .add]).followers.length : Int) - 1 : Int) : ℚ) ≠ 0 ∧
    ∀ (i : Nat) (f : follower),
      ((newModel sampleRng).runSwarm [.add, .add, .add, .add, .remove, .add]).followers[i]? =
        some f →
      f.order = (i : Int) ∧
      -(1 / 2 : ℚ) ≤ (f.order : ℚ) / ((((((newModel sampleRng).runSwarm
          [.add, .add, .add, .add, .remove, .add]).followers.length : Int) - 1 : Int) : ℚ)) - 5 / 10 ∧
      (f.order : ℚ) / ((((((newModel sampleRng).runSwarm
          [.add, .add, .add, .add, .remove, .add]).followers.length : Int) - 1 : Int) : ℚ)) - 5 / 10
        ≤ 1 / 2 ∧
      ∀ stageW stageH t dt : ℚ,
        (f.formationOffset sampleEnv .formationHelix stageW stageH t dt
            (((newModel sampleRng).runSwarm
              [.add, .add, .add, .add, .remove, .add]).followers.length : Int)).2.y =
          ((f.order : ℚ) / ((((((newModel sampleRng).runSwarm
              [.add, .add, .add, .add, .remove, .add]).followers.length : Int) - 1 : Int) : ℚ)) -
            5 / 10) * stageH * (6 / 10) +
          sampleEnv.cos (t * (16 / 10) + ((f.order : ℚ) / ((((((newModel sampleRng).runSwarm
              [.add, .add, .add, .add, .remove, .add]).followers.length : Int) - 1 : Int) : ℚ)) -
            5 / 10) * 4) * 4 :=
  ⟨⟨by decide!, by decide!⟩,
    helix_depth_in_range sampleEnv (newModel sampleRng) [.add, .add, .add, .add, .remove, .add]
      (by decide!) (by decide!)⟩

/-! ## The Orbit scene (C25) -/

theorem clampTarget_clock (m : model) : m.clampTarget.clock = m.clock := by
  rw [clampTarget_eq]
  split_ifs <;> rfl

theorem updateTarget_clock (E : Env) (m : model) : (m.updateTarget E).clock = m.clock := by
  unfold model.updateTarget
  split_ifs
  · rfl
  · simp only []
    split <;> exact clampTarget_clock _

theorem updateFollowers_clock (E : Env) (m : model) : (m.updateFollowers E).clock = m.clock := by
  unfold model.updateFollowers
  simp only []
  split_ifs <;> rfl

theorem emitSeed_clock (m : model) (theme : moodTheme) : (m.emitSeed theme).clock = m.clock := by
  unfold model.emitSeed
  split_ifs <;> rfl

theorem advanceSeedTimer_clock (m : model) (mood : moodTheme) :
    (m.advanceSeedTimer mood).clock = m.clock := by
  unfold model.advanceSeedTimer
  simp only []
  split_ifs
  · exact emitSeed_clock { m with seedTimer := m.seedTimer + deltaTime } mood
  · rfl

theorem updateSeeds_clock (E : Env) (m : model) : (m.updateSeeds E).clock = m.clock := by
  unfold model.updateSeeds
  simp only []
  split_ifs
  · rfl
  · exact advanceSeedTimer_clock m _

theorem frame_clock (E : Env) (m : model) (hr : m.ready = true) :
    (m.Update E .frameMsg).1.clock = (m.t + deltaTime, m.sceneIndex, m.autop) ∧
    (m.Update E .frameMsg).1.ready = true ∧
    (m.Update E .frameMsg).1.canvasWidth = m.canvasWidth ∧
    (m.Update E .frameMsg).1.canvasHeight = m.canvasHeight := by
  have hr' : ¬ (m.ready = false) := by rw [hr]; simp
  unfold model.Update
  simp only []
  rw [if_neg hr']
  refine ⟨?_, ?_, ?_, ?_⟩
  · rw [updateSeeds_clock, updateFollowers_clock]
    split_ifs
    · rw [updateTarget_clock]
      rfl
    · rfl
  · rw [(updateSeeds_frame E _).2.2.2, (updateFollowers_frame E _).2.2.2]
    split_ifs
    · rw [show (model.updateTarget E { m with t := m.t + deltaTime }).ready = m.ready from ?_]
      · exact hr
      · unfold model.updateTarget
        split_ifs
        · rfl
        · simp only []
          split <;> exact clampTarget_ready _
    · exact hr
  · rw [(updateSeeds_frame E _).2.1, (updateFollowers_frame E _).2.1]
    split_ifs
    · exact (updateTarget_canvas E _).1
    · rfl
  · rw [(updateSeeds_frame E _).2.2.1, (updateFollowers_frame E _).2.2.1]
    split_ifs
    · exact (updateTarget_canvas E _).2
    · rfl

theorem clampAxis_id (v hi : ℚ) (h0 : 0 ≤ v) (h1 : v ≤ hi) : clampAxis v hi = v := by
  unfold clampAxis
  simp only []
  rw [if_neg (not_lt.mpr h0), if_neg (not_lt.mpr h1)]

theorem clamp_id (v lo hi : ℚ) (h0 : lo ≤ v) (h1 : v ≤ hi) : clamp v lo hi = v := by
  unfold clamp
  rw [if_neg (not_lt.mpr h0), if_neg (not_lt.mpr h1)]

/-- A centre plus two oscillations of relative amplitudes `a` and `b` stays
between 0 and `s - 1` when `(1/2 - a - b) * s` is at least 1. -/
theorem sway_bounds (s a b c1 c2 : ℚ) (ha : 0 ≤ a) (hb : 0 ≤ b) (hs : 0 ≤ s)
    (hroom : 1 ≤ (1 / 2 - a - b) * s)
    (h1 : -1 ≤ c1 ∧ c1 ≤ 1) (h2 : -1 ≤ c2 ∧ c2 ≤ 1) :
    0 ≤ s / 2 + c1 * (s * a) + c2 * s * b ∧ s / 2 + c1 * (s * a) + c2 * s * b ≤ s - 1 := by
  have hsa : 0 ≤ s * a := mul_nonneg hs ha
  have hsb : 0 ≤ s * b := mul_nonneg hs hb
  have e1 : c1 * (s * a) ≤ s * a := by nlinarith
  have e2 : -(s * a) ≤ c1 * (s * a) := by nlinarith
  have e3 : c2 * s * b ≤ s * b := by nlinarith
  have e4 : -(s * b) ≤ c2 * s * b := by nlinarith
  constructor <;> nlinarith

theorem updateTarget_orbit (E : Env) (m : model)
    (hsin : ∀ v, -1 ≤ E.sin v ∧ E.sin v ≤ 1) (hcos : ∀ v, -1 ≤ E.cos v ∧ E.cos v ≤ 1)
    (hs : scenes.get ⟨m.sceneIndex.val, m.sceneIndex.isLt⟩ = .sceneOrbit)
    (hw : 10 ≤ m.canvasWidth) (hh : 6 ≤ m.canvasHeight) :
    (m.updateTarget E).target =
      ⟨(m.canvasWidth : ℚ) / 2 + E.cos (m.t * (55 / 100)) * ((m.canvasWidth : ℚ) * (35 / 100)) +
          E.cos (m.t * (9 / 10)) * (m.canvasWidth : ℚ) * (5 / 100),
       (m.canvasHeight : ℚ) / 2 +
          E.sin (m.t * (55 / 100) * (12 / 10)) * ((m.canvasHeight : ℚ) * (28 / 100)) +
          E.sin (m.t * (77 / 100)) * (m.canvasHeight : ℚ) * (4 / 100)⟩ := by
  have hW : (10 : ℚ) ≤ (m.canvasWidth : ℚ) := by exact_mod_cast hw
  have hH : (6 : ℚ) ≤ (m.canvasHeight : ℚ) := by exact_mod_cast hh
  have hx := sway_bounds (m.canvasWidth : ℚ) (35 / 100) (5 / 100) (E.cos (m.t * (55 / 100)))
    (E.cos (m.t * (9 / 10))) (by norm_num) (by norm_num) (by linarith) (by linarith)
    (hcos _) (hcos _)
  have hy := sway_bounds (m.canvasHeight : ℚ) (28 / 100) (4 / 100)
    (E.sin (m.t * (55 / 100) * (12 / 10))) (E.sin (m.t * (77 / 100)))
    (by norm_num) (by norm_num) (by linarith) (by linarith) (hsin _) (hsin _)
  have h0 : ¬ (m.canvasWidth = 0 ∨ m.canvasHeight = 0) := by omega
  have h1 : ¬ (m.canvasWidth ≤ 0 ∨ m.canvasHeight ≤ 0) := by omega
  unfold model.updateTarget
  rw [if_neg h0]
  simp only []
  rw [hs]
  simp only []
  rw [clampTarget_eq]
  simp only []
  rw [if_neg h1]
  simp only []
  rw [clampAxis_id _ _ hx.1 (by push_cast; exact hx.2),
    clampAxis_id _ _ hy.1 (by push_cast; exact hy.2)]


theorem orbitPoint_eq (E : Env) (w h t : ℚ) :
    orbitPoint E w h t =
      ⟨w / 2 + E.cos (t * (55 / 100)) * (w * (35 / 100)) + E.cos (t * (9 / 10)) * w * (5 / 100),
       h / 2 + E.sin (t * (55 / 100) * (12 / 10)) * (h * (28 / 100)) +
          E.sin (t * (77 / 100)) * h * (4 / 100)⟩ := by
  unfold orbitPoint
  have e1 : (55 / 100 : ℚ) * t = t * (55 / 100) := by ring
  have e2 : (9 / 10 : ℚ) * t = t * (9 / 10) := by ring
  have e3 : (66 / 100 : ℚ) * t = t * (55 / 100) * (12 / 10) := by ring
  have e4 : (77 / 100 : ℚ) * t = t * (77 / 100) := by ring
  rw [e1, e2, e3, e4]
  congr 1 <;> ring

theorem orbitPoint_inside (E : Env) (w h t : ℚ)
    (hsin : ∀ v, -1 ≤ E.sin v ∧ E.sin v ≤ 1) (hcos : ∀ v, -1 ≤ E.cos v ∧ E.cos v ≤ 1)
    (hw : 10 ≤ w) (hh : 6 ≤ h) :
    clamp (orbitPoint E w h t).x 0 (w - 1) = (orbitPoint E w h t).x ∧
    clamp (orbitPoint E w h t).y 0 (h - 1) = (orbitPoint E w h t).y := by
  have hx := sway_bounds w (35 / 100) (5 / 100) (E.cos (t * (55 / 100)))
    (E.cos (t * (9 / 10))) (by norm_num) (by norm_num) (by linarith) (by linarith)
    (hcos _) (hcos _)
  have hy := sway_bounds h (28 / 100) (4 / 100)
    (E.sin (t * (55 / 100) * (12 / 10))) (E.sin (t * (77 / 100)))
    (by norm_num) (by norm_num) (by linarith) (by linarith) (hsin _) (hsin _)
  rw [orbitPoint_eq]
  exact ⟨clamp_id _ _ _ hx.1 hx.2, clamp_id _ _ _ hy.1 hy.2⟩

theorem run_snoc (E : Env) (m : model) (msgs : List Msg) (msg : Msg) :
    m.run E (msgs ++ [msg]) = ((m.run E msgs).Update E msg).1 := by
  unfold model.run
  rw [List.foldl_append]
  rfl

theorem run_frames_clock (E : Env) (m : model) (hr : m.ready = true) (n : Nat) :
    (m.run E (List.replicate n .frameMsg)).clock =
        (m.t + (n : ℚ) * deltaTime, m.sceneIndex, m.autop) ∧
      (m.run E (List.replicate n .frameMsg)).ready = true ∧
      (m.run E (List.replicate n .frameMsg)).canvasWidth = m.canvasWidth ∧
      (m.run E (List.replicate n .frameMsg)).canvasHeight = m.canvasHeight := by
  induction n with
  | zero =>
    refine ⟨?_, hr, rfl, rfl⟩
    show (m.t, m.sceneIndex, m.autop) = _
    simp
  | succ k ih =>
    obtain ⟨hc, hrk, hwk, hhk⟩ := ih
    rw [List.replicate_succ', run_snoc]
    obtain ⟨fc, fr, fw, fh⟩ := frame_clock E (m.run E (List.replicate k .frameMsg)) hrk
    refine ⟨?_, fr, fw.trans hwk, fh.trans hhk⟩
    rw [fc]
    have ht : (m.run E (List.replicate k .frameMsg)).t = m.t + (k : ℚ) * deltaTime :=
      congrArg Prod.fst hc
    have hsc : (m.run E (List.replicate k .frameMsg)).sceneIndex = m.sceneIndex :=
      congrArg (fun p => p.2.1) hc
    have hau : (m.run E (List.replicate k .frameMsg)).autop = m.autop :=
      congrArg (fun p => p.2.2) hc
    rw [ht, hsc, hau]
    push_cast
    ring_nf

theorem orbit_after_ticks (E : Env) (m : model)
    (hsin : ∀ v, -1 ≤ E.sin v ∧ E.sin v ≤ 1) (hcos : ∀ v, -1 ≤ E.cos v ∧ E.cos v ≤ 1)
    (hs : scenes.get ⟨m.sceneIndex.val, m.sceneIndex.isLt⟩ = .sceneOrbit)
    (hw : 10 ≤ m.canvasWidth) (hh : 6 ≤ m.canvasHeight)
    (hr : m.ready = true) (ha : m.autop = true) (n : Nat) :
    (m.run E (List.replicate (n + 1) .frameMsg)).target =
      orbitPoint E (m.canvasWidth : ℚ) (m.canvasHeight : ℚ)
        (m.t + ((n : ℚ) + 1) * deltaTime) := by
  obtain ⟨hc, hrk, hwk, hhk⟩ := run_frames_clock E m hr n
  have ht : (m.run E (List.replicate n .frameMsg)).t = m.t + (n : ℚ) * deltaTime :=
    congrArg Prod.fst hc
  have hsc : (m.run E (List.replicate n .frameMsg)).sceneIndex = m.sceneIndex :=
    congrArg (fun p => p.2.1) hc
  have hau : (m.run E (List.replicate n .frameMsg)).autop = m.autop :=
    congrArg (fun p => p.2.2) hc
  have hs' : scenes.get ⟨(m.run E (List.replicate n .frameMsg)).sceneIndex.val,
      (m.run E (List.replicate n .frameMsg)).sceneIndex.isLt⟩ = .sceneOrbit := by
    rw [← hs]
    exact congrArg (fun i : Fin 5 => scenes.get ⟨i.val, i.isLt⟩) hsc
  have hw' : 10 ≤ (m.run E (List.replicate n .frameMsg)).canvasWidth := by rw [hwk]; exact hw
  have hh' : 6 ≤ (m.run E (List.replicate n .frameMsg)).canvasHeight := by rw [hhk]; exact hh
  rw [List.replicate_succ', run_snoc,
    frame_auto_target E (m.run E (List.replicate n .frameMsg)) hrk (hau.trans ha)]
  have key := updateTarget_orbit E
    ({ (m.run E (List.replicate n .frameMsg)) with
        t := (m.run E (List.replicate n .frameMsg)).t + deltaTime } : model) hsin hcos hs' hw' hh'
  rw [key, orbitPoint_eq]
  show (⟨_, _⟩ : vector) = ⟨_, _⟩
  have e : m.t + (n : ℚ) * deltaTime + deltaTime = m.t + ((n : ℚ) + 1) * deltaTime := by ring
  simp only [hwk, hhk, ht, e]


theorem sampleEnv_sin_range (v : ℚ) : -1 ≤ sampleEnv.sin v ∧ sampleEnv.sin v ≤ 1 := by
  have hpos : (0 : ℚ) < 1 + v * v := by nlinarith [mul_self_nonneg v]
  show -1 ≤ 2 * v / (1 + v * v) ∧ 2 * v / (1 + v * v) ≤ 1
  rw [le_div_iff₀ hpos, div_le_iff₀ hpos]
  constructor
  · nlinarith [mul_self_nonneg (v + 1)]
  · nlinarith [mul_self_nonneg (v - 1)]

theorem sampleEnv_cos_range (v : ℚ) : -1 ≤ sampleEnv.cos v ∧ sampleEnv.cos v ≤ 1 := by
  have hpos : (0 : ℚ) < 1 + v * v := by nlinarith [mul_self_nonneg v]
  show -1 ≤ (1 - v * v) / (1 + v * v) ∧ (1 - v * v) / (1 + v * v) ≤ 1
  rw [le_div_iff₀ hpos, div_le_iff₀ hpos]
  constructor
  · nlinarith [mul_self_nonneg v]
  · nlinarith [mul_self_nonneg v]

/-- C25: for the Orbit scene on a canvas of width w >= 10 and height h >= 6,
with sine and cosine ranging in [-1, 1], at every elapsed time t updateTarget
yields exactly x = w/2 + 0.35 w cos(0.55 t) + 0.05 w cos(0.9 t) and
y = h/2 + 0.28 h sin(0.66 t) + 0.04 h sin(0.77 t), and clamping that point to
the canvas changes nothing. In a ready model in automatic mode the target
after n + 1 frame ticks is that point at t = t0 + (n + 1)/60; on the 80 x 18
canvas, from t0 = 0, 600 ticks give the point at t = 10. -/
theorem orbit_target_exact (E : Env) (m : model)
    (hsin : ∀ v, -1 ≤ E.sin v ∧ E.sin v ≤ 1) (hcos : ∀ v, -1 ≤ E.cos v ∧ E.cos v ≤ 1)
    (hs : scenes.get ⟨m.sceneIndex.val, m.sceneIndex.isLt⟩ = .sceneOrbit)
    (hw : 10 ≤ m.canvasWidth) (hh : 6 ≤ m.canvasHeight) :
    (m.updateTarget E).target =
        orbitPoint E (m.canvasWidth : ℚ) (m.canvasHeight : ℚ) m.t ∧
    (clamp (orbitPoint E (m.canvasWidth : ℚ) (m.canvasHeight : ℚ) m.t).x 0
          ((m.canvasWidth : ℚ) - 1) =
        (orbitPoint E (m.canvasWidth : ℚ) (m.canvasHeight : ℚ) m.t).x ∧
      clamp (orbitPoint E (m.canvasWidth : ℚ) (m.canvasHeight : ℚ) m.t).y 0
          ((m.canvasHeight : ℚ) - 1) =
        (orbitPoint E (m.canvasWidth : ℚ) (m.canvasHeight : ℚ) m.t).y) ∧
    (m.ready = true → m.autop = true → ∀ n : Nat,
      (m.run E (List.replicate (n + 1) .frameMsg)).target =
        orbitPoint E (m.canvasWidth : ℚ) (m.canvasHeight : ℚ)
          (m.t + ((n : ℚ) + 1) * deltaTime)) := by
  refine ⟨?_, ?_, ?_⟩
  · rw [updateTarget_orbit E m hsin hcos hs hw hh, orbitPoint_eq]
  · exact orbitPoint_inside E _ _ _ hsin hcos (by exact_mod_cast hw) (by exact_mod_cast hh)
  · intro hr ha n
    exact orbit_after_ticks E m hsin hcos hs hw hh hr ha n

theorem orbit_target_exact_witness :
    ((∀ v, -1 ≤ sampleEnv.sin v ∧ sampleEnv.sin v ≤ 1) ∧
      (∀ v, -1 ≤ sampleEnv.cos v ∧ sampleEnv.cos v ≤ 1) ∧
      scenes.get ⟨sampleModel.sceneIndex.val, sampleModel.sceneIndex.isLt⟩ = .sceneOrbit ∧
      10 ≤ sampleModel.canvasWidth ∧ 6 ≤ sampleModel.canvasHeight) ∧
    (sampleModel.canvasWidth = 80 ∧ sampleModel.canvasHeight = 18 ∧
      sampleModel.ready = true ∧ sampleModel.autop = true ∧
      sampleModel.t + (((599 : Nat) : ℚ) + 1) * deltaTime = 10) ∧
    ((sampleModel.updateTarget sampleEnv).target =
        orbitPoint sampleEnv (sampleModel.canvasWidth : ℚ) (sampleModel.canvasHeight : ℚ)
          sampleModel.t ∧
    (clamp (orbitPoint sampleEnv (sampleModel.canvasWidth : ℚ) (sampleModel.canvasHeight : ℚ)
          sampleModel.t).x 0 ((sampleModel.canvasWidth : ℚ) - 1) =
        (orbitPoint sampleEnv (sampleModel.canvasWidth : ℚ) (sampleModel.canvasHeight : ℚ)
          sampleModel.t).x ∧
      clamp (orbitPoint sampleEnv (sampleModel.canvasWidth : ℚ) (sampleModel.canvasHeight : ℚ)
          sampleModel.t).y 0 ((sampleModel.canvasHeight : ℚ) - 1) =
        (orbitPoint sampleEnv (sampleModel.canvasWidth : ℚ) (sampleModel.canvasHeight : ℚ)
          sampleModel.t).y) ∧
    (sampleModel.ready = true → sampleModel.autop = true → ∀ n : Nat,
      (sampleModel.run sampleEnv (List.replicate (n + 1) .frameMsg)).target =
        orbitPoint sampleEnv (sampleModel.canvasWidth : ℚ) (sampleModel.canvasHeight : ℚ)
          (sampleModel.t + ((n : ℚ) + 1) * deltaTime))) :=
  ⟨⟨sampleEnv_sin_range, sampleEnv_cos_range, by decide!, by decide!, by decide!⟩,
    ⟨by decide!, by decide!, by decide!, by decide!, by decide!⟩,
    orbit_target_exact sampleEnv sampleModel sampleEnv_sin_range sampleEnv_cos_range
      (by decide!) (by decide!) (by decide!)⟩

/-! ## Palette reads of colorAt (C29) -/

theorem toInt_of_nonneg (v : ℚ) (h : 0 ≤ v) :
    0 ≤ toInt v ∧ ((toInt v : Int) : ℚ) ≤ v ∧ v < ((toInt v : Int) : ℚ) + 1 := by
  unfold toInt
  rw [if_pos h]
  exact ⟨Int.floor_nonneg.mpr h, Int.floor_le v, Int.lt_floor_add_one v⟩

theorem colorAt_index (n : Nat) (t : ℚ) (h : 2 ≤ n) :
    0 ≤ toInt (clamp t 0 (9999 / 10000) * ((((n : Int) - 1 : Int)) : ℚ)) ∧
    toInt (clamp t 0 (9999 / 10000) * ((((n : Int) - 1 : Int)) : ℚ)) + 1 < (n : Int) ∧
    0 ≤ clamp t 0 (9999 / 10000) * ((((n : Int) - 1 : Int)) : ℚ) -
      ((toInt (clamp t 0 (9999 / 10000) * ((((n : Int) - 1 : Int)) : ℚ)) : Int) : ℚ) ∧
    clamp t 0 (9999 / 10000) * ((((n : Int) - 1 : Int)) : ℚ) -
      ((toInt (clamp t 0 (9999 / 10000) * ((((n : Int) - 1 : Int)) : ℚ)) : Int) : ℚ) < 1 := by
  have hc0 : (0 : ℚ) ≤ clamp t 0 (9999 / 10000) := clamp_ge _ _ _ (by norm_num)
  have hc1 : clamp t 0 (9999 / 10000) ≤ 9999 / 10000 := clamp_le _ _ _ (by norm_num)
  have hL : (1 : ℚ) ≤ ((((n : Int) - 1 : Int)) : ℚ) := by
    have : (1 : Int) ≤ (n : Int) - 1 := by omega
    exact_mod_cast this
  have hs0 : 0 ≤ clamp t 0 (9999 / 10000) * ((((n : Int) - 1 : Int)) : ℚ) :=
    mul_nonneg hc0 (by linarith)
  have hs1 : clamp t 0 (9999 / 10000) * ((((n : Int) - 1 : Int)) : ℚ) <
      ((((n : Int) - 1 : Int)) : ℚ) := by nlinarith
  obtain ⟨h0, hle, hlt⟩ := toInt_of_nonneg _ hs0
  refine ⟨h0, ?_, by linarith, by linarith⟩
  have hq : ((toInt (clamp t 0 (9999 / 10000) * ((((n : Int) - 1 : Int)) : ℚ)) : Int) : ℚ) <
      ((((n : Int) - 1 : Int)) : ℚ) := lt_of_le_of_lt hle hs1
  have hz : toInt (clamp t 0 (9999 / 10000) * ((((n : Int) - 1 : Int)) : ℚ)) < (n : Int) - 1 := by
    exact_mod_cast hq
  omega

/-- C29: for every palette of n >= 2 stops and every t, also t < 0 and t > 1,
the index idx that colorAt computes satisfies 0 <= idx <= n - 2, so the two
reads palette[idx] and palette[idx + 1] are in range, the fraction handed to
blendHex lies in [0, 1), and the result is the blend of exactly those two
stops. -/
theorem colorAt_reads_in_range (m : moodBase) (t : ℚ) (h : 2 ≤ m.palette.length) :
    ∃ (idx : Nat) (hi : idx + 1 < m.palette.length) (frac : ℚ),
      toInt (clamp t 0 (9999 / 10000) * (((m.palette.length : Int) - 1 : Int) : ℚ)) = (idx : Int) ∧
      frac = clamp t 0 (9999 / 10000) * (((m.palette.length : Int) - 1 : Int) : ℚ) - (idx : ℚ) ∧
      0 ≤ frac ∧ frac < 1 ∧
      m.colorAt t =
        blendHex (m.palette.get ⟨idx, Nat.lt_of_succ_lt hi⟩) (m.palette.get ⟨idx + 1, hi⟩) frac := by
  obtain ⟨h0, h1, h2, h3⟩ := colorAt_index m.palette.length t h
  obtain ⟨idx, hidx⟩ := Int.eq_ofNat_of_zero_le h0
  have hi : idx + 1 < m.palette.length := by omega
  refine ⟨idx, hi, _, hidx, rfl, ?_, ?_, ?_⟩
  · rw [hidx] at h2
    exact_mod_cast h2
  · rw [hidx] at h3
    exact_mod_cast h3
  · rw [colorAt_eq m t h, hidx]
    have e1 := stopAt_eq m.palette idx (Nat.lt_of_succ_lt hi)
    have e2 := stopAt_eq m.palette (idx + 1) hi
    rw [e1]
    rw [show ((idx : Int) + 1) = ((idx + 1 : Nat) : Int) from by push_cast; rfl, e2]
    simp only [List.get_eq_getElem, Int.cast_natCast]

theorem colorAt_reads_in_range_witness :
    2 ≤ auroraBase.palette.length ∧
    ∃ (idx : Nat) (hi : idx + 1 < auroraBase.palette.length) (frac : ℚ),
      toInt (clamp 7 0 (9999 / 10000) * (((auroraBase.palette.length : Int) - 1 : Int) : ℚ)) =
        (idx : Int) ∧
      frac = clamp 7 0 (9999 / 10000) * (((auroraBase.palette.length : Int) - 1 : Int) : ℚ) -
        (idx : ℚ) ∧
      0 ≤ frac ∧ frac < 1 ∧
      auroraBase.colorAt 7 =
        blendHex (auroraBase.palette.get ⟨idx, Nat.lt_of_succ_lt hi⟩)
          (auroraBase.palette.get ⟨idx + 1, hi⟩) frac :=
  ⟨by decide, colorAt_reads_in_range auroraBase 7 (by decide)⟩

/-! ## Range of the value noise (C28) -/

theorem xor_shift_nonneg (n : Int) (k : Nat) : 0 ≤ Int.xor n (n >>> (k : Int)) := by
  cases n with
  | ofNat a =>
    rw [Int.ofNat_eq_coe, Int.shiftRight_coe_nat]
    exact Int.ofNat_nonneg (a ^^^ (a >>> k))
  | negSucc a =>
    rw [Int.shiftRight_negSucc]
    exact Int.ofNat_nonneg (a ^^^ (a >>> k))

theorem tmod_1024_range (n : Int) (h : 0 ≤ n) : 0 ≤ Int.tmod n 1024 ∧ Int.tmod n 1024 ≤ 1023 := by
  have h1 := Int.tmod_nonneg 1024 h
  have h2 := Int.tmod_lt_of_pos n (by norm_num : (0 : Int) < 1024)
  omega

theorem hash2_range (x y : Int) : -1 ≤ hash2 x y ∧ hash2 x y ≤ 511 / 512 := by
  unfold hash2
  simp only []
  obtain ⟨h1, h2⟩ := tmod_1024_range _ (xor_shift_nonneg
    (wrap64 ((Int.xor (wrap64 (wrap64 (x * 374761393) + wrap64 (y * 668265263)))
      ((wrap64 (wrap64 (x * 374761393) + wrap64 (y * 668265263))) >>> 13)) * 1274126177)) 16)
  rw [show ((16 : Nat) : Int) = (16 : Int) from rfl] at h1 h2
  have q1 : (0 : ℚ) ≤ ((Int.tmod (Int.xor
    (wrap64 ((Int.xor (wrap64 (wrap64 (x * 374761393) + wrap64 (y * 668265263)))
      ((wrap64 (wrap64 (x * 374761393) + wrap64 (y * 668265263))) >>> 13)) * 1274126177))
    ((wrap64 ((Int.xor (wrap64 (wrap64 (x * 374761393) + wrap64 (y * 668265263)))
      ((wrap64 (wrap64 (x * 374761393) + wrap64 (y * 668265263))) >>> 13)) * 1274126177)) >>> 16))
    1024 : Int) : ℚ) := by exact_mod_cast h1
  have q2 : ((Int.tmod (Int.xor
    (wrap64 ((Int.xor (wrap64 (wrap64 (x * 374761393) + wrap64 (y * 668265263)))
      ((wrap64 (wrap64 (x * 374761393) + wrap64 (y * 668265263))) >>> 13)) * 1274126177))
    ((wrap64 ((Int.xor (wrap64 (wrap64 (x * 374761393) + wrap64 (y * 668265263)))
      ((wrap64 (wrap64 (x * 374761393) + wrap64 (y * 668265263))) >>> 13)) * 1274126177)) >>> 16))
    1024 : Int) : ℚ) ≤ 1023 := by exact_mod_cast h2
  constructor <;> linarith


/-- The rounding at values whose `float64` neighbours are known: 0.1, a tie
that goes down to the even significand of 1, a tie that goes up, a negative
number, and a number that is already a `float64`. -/
theorem round64_samples :
    round64 (1 / 10) = 3602879701896397 / 36028797018963968 ∧
    round64 (1 + 1 / 2 ^ 53) = 1 ∧
    round64 (1 + 3 / 2 ^ 53) = 1 + 1 / 2 ^ 51 ∧
    round64 (-(7 / 5)) = -(3152519739159347 / 2251799813685248) ∧
    round64 (10 ^ 19 + 2 ^ 63) = 10 ^ 19 + 2 ^ 63 := by
  refine ⟨by decide!, by decide!, by decide!, by decide!, by decide!⟩

/-- C28, amended: for all integers x and y, in particular all 64-bit ones,
with wrapping multiplication and addition, arithmetic right shift and
truncated remainder, hash2 x y lies in [-1, 1): it is k/512 - 1 for an integer
k with 0 <= k <= 1023. (No bound is stated for perlin2.) -/
theorem hash2_stays_in_range (x y : Int) :
    (-1 ≤ hash2 x y ∧ hash2 x y < 1) ∧
    ∃ k : Int, 0 ≤ k ∧ k ≤ 1023 ∧ hash2 x y = (k : ℚ) / 512 - 1 := by
  have h := hash2_range x y
  refine ⟨⟨h.1, by linarith [h.2]⟩, ?_⟩
  obtain ⟨h1, h2⟩ := tmod_1024_range _ (xor_shift_nonneg
    (wrap64 ((Int.xor (wrap64 (wrap64 (x * 374761393) + wrap64 (y * 668265263)))
      ((wrap64 (wrap64 (x * 374761393) + wrap64 (y * 668265263))) >>> 13)) * 1274126177)) 16)
  exact ⟨_, h1, h2, rfl⟩

/-- C28 as stated fails for perlin2 at two inputs. Just below an integer the
rounded fade exceeds 1 and the interpolation passes the corner value -1:
perlin2 (1 - 2^-53) 497 = -1 - 10 * 2^-52. Where the conversion
int(math.Floor(x)) overflows, the fractional part is about 1.9e19 and
perlin2 1e19 0.5 is about 1.66e97. -/
theorem perlin2_leaves_range :
    hash2 1 497 = -1 ∧
    fade (9007199254740991 / 9007199254740992) = 4503599627370502 / 4503599627370496 ∧
    perlin2 (9007199254740991 / 9007199254740992) 497 =
      -(4503599627370506 / 4503599627370496) ∧
    ¬ (-1 ≤ perlin2 (9007199254740991 / 9007199254740992) 497) ∧
    floorInt (10 ^ 19) = -2 ^ 63 ∧
    ¬ (perlin2 (10 ^ 19) (1 / 2) < 1) := by
  refine ⟨by decide!, by decide!, by decide!, by decide!, by decide!, by decide!⟩

/-! ## The paint passes touch only the cells they aim at (C26) -/

theorem paintedBy_untouched (g0 g1 : Canvas) (H W x y : Int)
    (aims : Int → Int → List (Option Stroke)) (hp : g0.paintedBy g1 H W aims)
    (hx0 : 0 ≤ x) (hx : x < W) (hy0 : 0 ≤ y) (hy : y < H) (hnone : aims x y = []) :
    g1.at y x = g0.at y x := by
  obtain ⟨ws, e, r⟩ := hp.2 x y hx0 hx hy0 hy
  rw [hnone] at e
  have hws : ws = [] := by
    cases ws with
    | nil => rfl
    | cons a rest => simp at e
  rw [r, hws]
  cases g0.at y x <;> rfl

theorem trails_aim_nowhere (E : Env) (m : model) (theme : moodTheme) (x y : Int)
    (h : ¬ m.aimedAt x y) : m.followers.flatMap (fun f => trailAims E theme f x y) = [] := by
  rw [List.eq_nil_iff_forall_not_mem]
  intro o ho
  obtain ⟨f, hf, hof⟩ := List.mem_flatMap.mp ho
  obtain ⟨i, p, _, hp, hx, hy, _⟩ := (mem_trailAims E theme f x y o).mp hof
  exact h (Or.inl ⟨f, hf, p, List.getElem?_mem hp, hx, hy⟩)

theorem seeds_aim_nowhere (m : model) (theme : moodTheme) (x y : Int)
    (h : ¬ m.aimedAt x y) : m.seeds.flatMap (fun s => seedAims theme s x y) = [] := by
  rw [List.eq_nil_iff_forall_not_mem]
  intro o ho
  obtain ⟨s, hs, hos⟩ := List.mem_flatMap.mp ho
  obtain ⟨hxy, _⟩ := (mem_seedAims theme s x y o).mp hos
  exact h (Or.inr (Or.inl ⟨s, hs, hxy.1, hxy.2⟩))

theorem paintTarget_untouched (m : model) (theme : moodTheme) (c0 c1 : Canvas)
    (hs : c0.sized m.canvasHeight m.canvasWidth) (h : m.paintTarget c0 theme = some c1) :
    c1.sized m.canvasHeight m.canvasWidth ∧
    ∀ x y : Int, 0 ≤ x → 0 ≤ y → ¬ (roundInt m.target.x = x ∧ roundInt m.target.y = y) →
      c1.at y x = c0.at y x := by
  unfold model.paintTarget at h
  simp only [] at h
  by_cases hout : roundInt m.target.x < 0 ∨ roundInt m.target.y < 0 ∨
      roundInt m.target.x ≥ m.canvasWidth ∨ roundInt m.target.y ≥ m.canvasHeight
  · rw [if_pos hout] at h
    cases h
    exact ⟨hs, fun _ _ _ _ _ => rfl⟩
  · rw [if_neg hout] at h
    obtain ⟨cur, hcur⟩ := Canvas.at_of_sized c0 _ _ (roundInt m.target.x) (roundInt m.target.y) hs
      (by omega) (by omega) (by omega) (by omega)
    obtain ⟨next, hput, hsz, hat⟩ := Canvas.put_of_sized c0 _ _ (roundInt m.target.x)
      (roundInt m.target.y) ((targetStroke theme).onto cur.bg) hs
      (by omega) (by omega) (by omega) (by omega)
    rw [hcur] at h
    simp only [] at h
    rw [hput] at h
    cases h
    refine ⟨hsz, ?_⟩
    intro x y hx0 hy0 hne
    rw [hat x y hx0 hy0, if_neg (fun hc => hne ⟨hc.1.symm, hc.2.symm⟩)]

theorem paintTrails_total_of_glyphs (E : Env) (m : model) (theme : moodTheme) (c0 : Canvas)
    (hg : ∀ f ∈ m.followers, ∀ i, i < f.trace.length → ∃ s, trailStroke E theme f i = some s)
    (hs : c0.sized m.canvasHeight m.canvasWidth) :
    ∃ c1, m.paintTrails E c0 theme = some c1 ∧ c1.sized m.canvasHeight m.canvasWidth := by
  unfold model.paintTrails
  refine paintEach_total _ _ _ m.followers ?_ c0 hs
  intro f hf d0 hd
  simp only []
  split_ifs
  · exact ⟨d0, rfl, hd⟩
  · refine paintEach_total _ _ _ (List.range f.trace.length) ?_ d0 hd
    intro i hi e0 he
    have hi' : i < f.trace.length := List.mem_range.mp hi
    unfold model.paintTrailPoint
    rw [List.getElem?_eq_getElem hi']
    simp only []
    split_ifs with hout
    · exact ⟨e0, rfl, he⟩
    · obtain ⟨s, hst⟩ := hg f hf i hi'
      rw [hst]
      exact overwrite_total e0 _ _ _ _ s he (by omega) (by omega) (by omega) (by omega)


/-- C26: on a grid with the rows and columns of the canvas, whatever the
trail points, particles and target are (also far outside the canvas), the
three paint passes return a grid of the same size whenever the glyph lookups
of the trail points succeed, so no read or write of the grid is out of range;
and every cell that is not the rounded position of a trail point, a particle
or the target is the same after the three passes as before them: on the grid
of the backdrop pass it is still the backdrop cell. -/
theorem paint_passes_touch_only_aimed_cells (E : Env) (m : model) (theme : moodTheme)
    (g0 : Canvas) (hs : g0.sized m.canvasHeight m.canvasWidth) :
    ((∀ f ∈ m.followers, ∀ i, i < f.trace.length → ∃ s, trailStroke E theme f i = some s) →
      ∃ g1 g2 g3 : Canvas, m.paintTrails E g0 theme = some g1 ∧
        m.paintSeeds g1 theme = some g2 ∧ m.paintTarget g2 theme = some g3) ∧
    ∀ g1 g2 g3 : Canvas, m.paintTrails E g0 theme = some g1 →
      m.paintSeeds g1 theme = some g2 → m.paintTarget g2 theme = some g3 →
      g3.sized m.canvasHeight m.canvasWidth ∧
      ∀ x y : Int, 0 ≤ x → x < m.canvasWidth → 0 ≤ y → y < m.canvasHeight →
        ¬ m.aimedAt x y →
        g3.at y x = g0.at y x ∧
        (m.prepareCanvas E theme = some g0 → g3.at y x = m.backdropCell E theme x y) := by
  constructor
  · intro hg
    obtain ⟨g1, h1, s1⟩ := paintTrails_total_of_glyphs E m theme g0 hg hs
    obtain ⟨g2, h2, s2⟩ := paintSeeds_total m theme g1 s1
    obtain ⟨g3, h3⟩ := paintTarget_total m theme g2 s2
    exact ⟨g1, g2, g3, h1, h2, h3⟩
  · intro g1 g2 g3 h1 h2 h3
    have p1 := paintTrails_paintedBy E m theme g0 g1 hs h1
    have p2 := paintSeeds_paintedBy m theme g1 g2 p1.1 h2
    have p3 := paintTarget_untouched m theme g2 g3 p2.1 h3
    refine ⟨p3.1, ?_⟩
    intro x y hx0 hx hy0 hy hno
    have e1 := paintedBy_untouched g0 g1 _ _ x y _ p1 hx0 hx hy0 hy
      (trails_aim_nowhere E m theme x y hno)
    have e2 := paintedBy_untouched g1 g2 _ _ x y _ p2 hx0 hx hy0 hy
      (seeds_aim_nowhere m theme x y hno)
    have e3 := p3.2 x y hx0 hy0 (fun hc => hno (Or.inr (Or.inr hc)))
    have e : g3.at y x = g0.at y x := by rw [e3, e2, e1]
    refine ⟨e, ?_⟩
    intro hprep
    obtain ⟨cur, hb, hc⟩ := (prepareCanvas_spec E m theme g0 hprep).2 x y hx0 hx hy0 hy
    rw [e, hc, hb]

theorem paint_passes_touch_only_aimed_cells_witness :
    tinyBackdrop.sized strayModel.canvasHeight strayModel.canvasWidth ∧
    (((∀ f ∈ strayModel.followers, ∀ i, i < f.trace.length →
        ∃ s, trailStroke flatEnv (strayModel.currentMood flatEnv) f i = some s) →
      ∃ g1 g2 g3 : Canvas,
        strayModel.paintTrails flatEnv tinyBackdrop (strayModel.currentMood flatEnv) = some g1 ∧
        strayModel.paintSeeds g1 (strayModel.currentMood flatEnv) = some g2 ∧
        strayModel.paintTarget g2 (strayModel.currentMood flatEnv) = some g3) ∧
    ∀ g1 g2 g3 : Canvas,
      strayModel.paintTrails flatEnv tinyBackdrop (strayModel.currentMood flatEnv) = some g1 →
      strayModel.paintSeeds g1 (strayModel.currentMood flatEnv) = some g2 →
      strayModel.paintTarget g2 (strayModel.currentMood flatEnv) = some g3 →
      g3.sized strayModel.canvasHeight strayModel.canvasWidth ∧
      ∀ x y : Int, 0 ≤ x → x < strayModel.canvasWidth → 0 ≤ y → y < strayModel.canvasHeight →
        ¬ strayModel.aimedAt x y →
        g3.at y x = tinyBackdrop.at y x ∧
        (strayModel.prepareCanvas flatEnv (strayModel.currentMood flatEnv) = some tinyBackdrop →
          g3.at y x = strayModel.backdropCell flatEnv (strayModel.currentMood flatEnv) x y)) :=
  ⟨by unfold Canvas.sized; decide!,
    paint_passes_touch_only_aimed_cells flatEnv strayModel (strayModel.currentMood flatEnv)
      tinyBackdrop (by unfold Canvas.sized; decide!)⟩

/-! ## At most 138 live particles (C30) -/

theorem aged_append_fresh (l : List seed) (s0 : seed) (h : aged l) (h0 : s0.life = 0) :
    aged ((l ++ [s0]).map seed.integrate) := by
  induction l with
  | nil =>
    show ((([] : List seed).length : ℚ) + 1) * deltaTime ≤ s0.integrate.life ∧ True
    refine ⟨?_, trivial⟩
    show _ ≤ s0.life + deltaTime
    rw [h0]
    simp
  | cons a rest ih =>
    refine ⟨?_, ih h.2⟩
    have h1 := h.1
    have hl : ((List.map seed.integrate (rest ++ [s0])).length : ℚ) = (rest.length : ℚ) + 1 := by
      simp
    show (((List.map seed.integrate (rest ++ [s0])).length : ℚ) + 1) * deltaTime ≤
      a.life + deltaTime
    rw [hl]
    linarith

theorem aged_integrate (l : List seed) (h : aged l) : aged (l.map seed.integrate) := by
  induction l with
  | nil => trivial
  | cons a rest ih =>
    refine ⟨?_, ih h.2⟩
    show _ ≤ a.life + deltaTime
    have h1 := h.1
    have hdt : (0 : ℚ) ≤ deltaTime := by norm_num [deltaTime]
    simp only [List.length_map]
    linarith

theorem aged_filter (p : seed → Bool) (l : List seed) (h : aged l) : aged (l.filter p) := by
  induction l with
  | nil => trivial
  | cons a rest ih =>
    rw [List.filter_cons]
    split_ifs
    · refine ⟨?_, ih h.2⟩
      have h1 := h.1
      have hlen : ((rest.filter p).length : ℚ) ≤ (rest.length : ℚ) := by
        exact_mod_cast List.length_filter_le p rest
      have hdt : (0 : ℚ) ≤ deltaTime := by norm_num [deltaTime]
      nlinarith
    · exact ih h.2

theorem aged_length (l : List seed) (h : aged l) (hy : ∀ s ∈ l, s.life < 23 / 10) :
    l.length ≤ 137 := by
  cases l with
  | nil => simp
  | cons a rest =>
    have h1 := h.1
    have h2 := hy a (List.mem_cons_self _ _)
    have h3 : ((rest.length : ℚ) + 1) * deltaTime < 23 / 10 := lt_of_le_of_lt h1 h2
    have h4 : ((rest.length : ℚ) + 1) < 138 := by
      unfold deltaTime at h3
      linarith
    have h5 : rest.length + 1 < 138 := by exact_mod_cast h4
    simp only [List.length_cons]
    omega


theorem emitSeed_emitter (m : model) (theme : moodTheme) (hd : ∀ i, m.rng.draws i < 1) :
    (m.emitSeed theme).rng.draws = m.rng.draws ∧
    ((m.emitSeed theme).seeds = m.seeds ∨
      ∃ s : seed, (m.emitSeed theme).seeds = m.seeds ++ [s] ∧ s.life = 0 ∧ s.ttl < 23 / 10) := by
  unfold model.emitSeed
  split_ifs
  · exact ⟨rfl, Or.inl rfl⟩
  · refine ⟨rfl, Or.inr ⟨_, rfl, rfl, ?_⟩⟩
    show 14 / 10 + m.rng.draws (m.rng.pos + 1 + 1) * (9 / 10) < 23 / 10
    have := hd (m.rng.pos + 1 + 1)
    linarith

theorem advanceSeedTimer_emitter (m : model) (mood : moodTheme) (hd : ∀ i, m.rng.draws i < 1) :
    (m.advanceSeedTimer mood).rng.draws = m.rng.draws ∧
    ((m.advanceSeedTimer mood).seeds = m.seeds ∨
      ∃ s : seed, (m.advanceSeedTimer mood).seeds = m.seeds ++ [s] ∧ s.life = 0 ∧
        s.ttl < 23 / 10) := by
  unfold model.advanceSeedTimer
  simp only []
  split_ifs
  · exact emitSeed_emitter { m with seedTimer := m.seedTimer + deltaTime } mood hd
  · exact ⟨rfl, Or.inl rfl⟩

theorem updateSeeds_emitterOk (E : Env) (m : model) (hm : m.emitterOk) :
    (m.updateSeeds E).emitterOk := by
  obtain ⟨hd, ha, hy⟩ := hm
  by_cases hz : m.canvasWidth = 0 ∨ m.canvasHeight = 0
  · have hz' : (m.canvasWidth : ℚ) = 0 ∨ (m.canvasHeight : ℚ) = 0 := by
      simpa only [Int.cast_eq_zero] using hz
    unfold model.updateSeeds
    simp only []
    rw [if_pos hz']
    exact ⟨hd, ha, hy⟩
  · have hw : m.canvasWidth ≠ 0 := fun h => hz (Or.inl h)
    have hh : m.canvasHeight ≠ 0 := fun h => hz (Or.inr h)
    have hseeds := updateSeeds_seeds E m hw hh
    obtain ⟨hdraws, hcases⟩ := advanceSeedTimer_emitter m (m.currentMood E) (fun i => (hd i).2)
    have hrng : (m.updateSeeds E).rng.draws = m.rng.draws := by
      have hz' : ¬ ((m.canvasWidth : ℚ) = 0 ∨ (m.canvasHeight : ℚ) = 0) := by
        simpa only [Int.cast_eq_zero] using hz
      unfold model.updateSeeds
      simp only []
      rw [if_neg hz']
      exact hdraws
    have hyoung : ∀ s ∈ (m.advanceSeedTimer (m.currentMood E)).seeds, s.ttl < 23 / 10 := by
      intro s hs
      rcases hcases with hsame | ⟨s0, happ, _, httl⟩
      · rw [hsame] at hs
        exact (hy s hs).2
      · rw [happ] at hs
        rcases List.mem_append.mp hs with h1 | h1
        · exact (hy s h1).2
        · rw [List.mem_singleton.mp h1]
          exact httl
    have haged : aged ((m.advanceSeedTimer (m.currentMood E)).seeds.map seed.integrate) := by
      rcases hcases with hsame | ⟨s0, happ, hlife, _⟩
      · rw [hsame]
        exact aged_integrate _ ha
      · rw [happ]
        exact aged_append_fresh _ s0 ha hlife
    refine ⟨?_, ?_, ?_⟩
    · rw [hrng]
      exact hd
    · rw [hseeds]
      exact aged_filter _ _ haged
    · intro s hs
      refine ⟨updateSeeds_all_young E m hw hh s hs, ?_⟩
      rw [hseeds, List.mem_filter] at hs
      obtain ⟨s1, hs1, rfl⟩ := List.mem_map.mp hs.1
      exact hyoung s1 hs1

theorem emitterOk_of_emitter (m n : model) (hm : m.emitterOk) (h : n.emitter = m.emitter) :
    n.emitterOk := by
  have h1 : n.rng.draws = m.rng.draws := congrArg Prod.fst h
  have h2 : n.seeds = m.seeds := congrArg Prod.snd h
  unfold model.emitterOk model.seedsYoung
  rw [h1, h2]
  exact hm

theorem emitterOk_count (m : model) (hm : m.emitterOk) : m.seeds.length ≤ 137 :=
  aged_length m.seeds hm.2.1 (fun s hs => lt_trans (hm.2.2 s hs).1 (hm.2.2 s hs).2)


theorem clampTarget_emitter (m : model) : m.clampTarget.emitter = m.emitter := by
  rw [clampTarget_eq]
  split_ifs <;> rfl

theorem manualTarget_emitter (m : model) (dx dy : ℚ) :
    (m.manualTarget dx dy).emitter = m.emitter := by
  unfold model.manualTarget
  exact clampTarget_emitter _

theorem recomputeCanvas_emitter (m : model) : m.recomputeCanvas.emitter = m.emitter := by
  rw [recomputeCanvas_eq]
  by_cases h : m.width ≤ 0 ∨ m.height ≤ 0
  · rw [if_pos h]
  · rw [if_neg h]
    exact clampTarget_emitter _

theorem updateTarget_emitter (E : Env) (m : model) : (m.updateTarget E).emitter = m.emitter := by
  unfold model.updateTarget
  split_ifs
  · rfl
  · simp only []
    split <;> exact clampTarget_emitter _

theorem addFollower_emitter (m : model) : m.addFollower.emitter = m.emitter := by
  unfold model.addFollower
  split_ifs <;> rfl

theorem removeFollower_emitter (m : model) : m.removeFollower.emitter = m.emitter := by
  unfold model.removeFollower
  split_ifs <;> rfl

theorem fillFollowers_emitter (n : Nat) : ∀ m : model, (fillFollowers n m).emitter = m.emitter := by
  induction n with
  | zero => intro m; rfl
  | succ n ih =>
    intro m
    unfold fillFollowers
    split_ifs
    · exact (ih m.addFollower).trans (addFollower_emitter m)
    · rfl

theorem updateFollowers_emitter (E : Env) (m : model) :
    (m.updateFollowers E).emitter = m.emitter := by
  unfold model.updateFollowers
  simp only []
  split_ifs <;> rfl

theorem updateKey_emitter (m : model) (key : String) : (m.updateKey key).1.emitter = m.emitter := by
  unfold model.updateKey
  by_cases h : key ∈ keysQuit
  · rw [if_pos h]
  rw [if_neg h]; clear h
  by_cases h : key ∈ keysToggleMode
  · rw [if_pos h]; rfl
  rw [if_neg h]; clear h
  by_cases h : key ∈ keysCycleScene
  · rw [if_pos h]; rfl
  rw [if_neg h]; clear h
  by_cases h : key ∈ keysCycleFormation
  · rw [if_pos h]; rfl
  rw [if_neg h]; clear h
  by_cases h : key ∈ keysCycleMood
  · rw [if_pos h]; rfl
  rw [if_neg h]; clear h
  by_cases h : key ∈ keysAddFollower
  · rw [if_pos h]; exact addFollower_emitter m
  rw [if_neg h]; clear h
  by_cases h : key ∈ keysRemoveFollower
  · rw [if_pos h]; exact removeFollower_emitter m
  rw [if_neg h]; clear h
  by_cases h : key ∈ keysIncreaseFreq
  · rw [if_pos h]; rfl
  rw [if_neg h]; clear h
  by_cases h : key ∈ keysDecreaseFreq
  · rw [if_pos h]; rfl
  rw [if_neg h]; clear h
  by_cases h : key ∈ keysIncreaseDamping
  · rw [if_pos h]; rfl
  rw [if_neg h]; clear h
  by_cases h : key ∈ keysDecreaseDamping
  · rw [if_pos h]; rfl
  rw [if_neg h]; clear h
  by_cases h : key ∈ keysMoveNorth
  · rw [if_pos h]; exact manualTarget_emitter m _ _
  rw [if_neg h]; clear h
  by_cases h : key ∈ keysMoveSouth
  · rw [if_pos h]; exact manualTarget_emitter m _ _
  rw [if_neg h]; clear h
  by_cases h : key ∈ keysMoveWest
  · rw [if_pos h]; exact manualTarget_emitter m _ _
  rw [if_neg h]; clear h
  by_cases h : key ∈ keysMoveEast
  · rw [if_pos h]; exact manualTarget_emitter m _ _
  rw [if_neg h]; clear h
  by_cases h : key ∈ keysToggleHelp
  · rw [if_pos h]; rfl
  rw [if_neg h]

theorem resize_emitter (E : Env) (m : model) (w h : Int) :
    (m.Update E (.WindowSizeMsg w h)).1.emitter = m.emitter := by
  rw [Update_resize]
  have h0 := recomputeCanvas_emitter ({ m with width := w, height := h } : model)
  generalize ({ m with width := w, height := h } : model).recomputeCanvas = m1 at h0 ⊢
  have h0' : m1.emitter = m.emitter := h0
  split_ifs
  · have hf := fillFollowers_emitter initialFollowers
      { m1 with target := ⟨(m1.canvasWidth : ℚ) / 2, (m1.canvasHeight : ℚ) / 2⟩ }
    generalize fillFollowers initialFollowers _ = X at hf ⊢
    have hf' : X.emitter = m1.emitter := hf
    exact hf'.trans h0'
  · exact h0'

theorem frame_emitterOk (E : Env) (m : model) (hm : m.emitterOk) :
    (m.Update E .frameMsg).1.emitterOk := by
  unfold model.Update
  simp only []
  split_ifs
  · exact hm
  · exact updateSeeds_emitterOk E _ (emitterOk_of_emitter m _ hm
      ((updateFollowers_emitter E _).trans (updateTarget_emitter E _)))
  · exact updateSeeds_emitterOk E _ (emitterOk_of_emitter m _ hm (updateFollowers_emitter E _))

theorem Update_emitterOk (E : Env) (m : model) (msg : Msg) (hm : m.emitterOk) :
    (m.Update E msg).1.emitterOk := by
  cases msg with
  | WindowSizeMsg w h => exact emitterOk_of_emitter m _ hm (resize_emitter E m w h)
  | KeyMsg key => exact emitterOk_of_emitter m _ hm (updateKey_emitter m key)
  | frameMsg => exact frame_emitterOk E m hm
  | other => exact hm

theorem run_emitterOk (E : Env) (msgs : List Msg) :
    ∀ m : model, m.emitterOk → (m.run E msgs).emitterOk := by
  induction msgs with
  | nil => intro m hm; exact hm
  | cons msg rest ih =>
    intro m hm
    exact ih _ (Update_emitterOk E m msg hm)

theorem newModel_emitterOk (rng : Rng) (hd : ∀ i, 0 ≤ rng.draws i ∧ rng.draws i < 1) :
    (newModel rng).emitterOk := by
  refine ⟨hd, trivial, ?_⟩
  intro s hs
  simp [newModel] at hs

/-- C30: in every state reached from the initial model by any messages (frame
ticks, theme switches and all other keys, resizes), with every random draw in
[0, 1), at most 138 particles are live. Every live particle has life below
its time-to-live, which is below 2.3 s, and has lived at least one tick (1/60
s) more than the number of particles spawned after it, since every tick adds
1/60 to each life and spawns at most one particle. -/
theorem live_particles_at_most_138 (E : Env) (rng : Rng) (msgs : List Msg)
    (hd : ∀ i, 0 ≤ rng.draws i ∧ rng.draws i < 1) :
    ((newModel rng).run E msgs).seeds.length ≤ 138 ∧
    (∀ s ∈ ((newModel rng).run E msgs).seeds, s.life < s.ttl ∧ s.ttl < 23 / 10) ∧
    aged ((newModel rng).run E msgs).seeds := by
  have hok := run_emitterOk E msgs (newModel rng) (newModel_emitterOk rng hd)
  have hcount := emitterOk_count _ hok
  exact ⟨by omega, hok.2.2, hok.2.1⟩

theorem live_particles_at_most_138_witness :
    (∀ i, 0 ≤ highRng.draws i ∧ highRng.draws i < 1) ∧
    ((newModel highRng).run flatEnv
      (Msg.WindowSizeMsg 80 24 :: List.replicate 20 Msg.frameMsg)).seeds.length = 1 ∧
    (((newModel highRng).run flatEnv
        (Msg.WindowSizeMsg 80 24 :: List.replicate 20 Msg.frameMsg)).seeds.length ≤ 138 ∧
      (∀ s ∈ ((newModel highRng).run flatEnv
          (Msg.WindowSizeMsg 80 24 :: List.replicate 20 Msg.frameMsg)).seeds,
        s.life < s.ttl ∧ s.ttl < 23 / 10) ∧
      aged ((newModel highRng).run flatEnv
        (Msg.WindowSizeMsg 80 24 :: List.replicate 20 Msg.frameMsg)).seeds) :=
  ⟨fun _ => by norm_num [highRng], by decide!,
    live_particles_at_most_138 flatEnv highRng
      (Msg.WindowSizeMsg 80 24 :: List.replicate 20 Msg.frameMsg)
      (fun _ => by norm_num [highRng])⟩

/-- The bound of the particle count is in fact 137: a live particle behind
which 137 others were spawned would have lived 138 ticks, 2.3 s. -/
theorem live_particles_at_most_137 (E : Env) (rng : Rng) (msgs : List Msg)
    (hd : ∀ i, 0 ≤ rng.draws i ∧ rng.draws i < 1) :
    ((newModel rng).run E msgs).seeds.length ≤ 137 :=
  emitterOk_count _ (run_emitterOk E msgs (newModel rng) (newModel_emitterOk rng hd))

theorem live_particles_at_most_137_witness :
    (∀ i, 0 ≤ sampleRng.draws i ∧ sampleRng.draws i < 1) ∧
    ((newModel sampleRng).run sampleEnv sampleMsgs).seeds.length ≤ 137 :=
  ⟨fun i => by
      have h : (0 : ℚ) ≤ (i : ℚ) := Nat.cast_nonneg i
      have hpos : (0 : ℚ) < (i : ℚ) + 2 := by linarith
      show 0 ≤ 1 / ((i : ℚ) + 2) ∧ 1 / ((i : ℚ) + 2) < 1
      rw [div_lt_one hpos]
      exact ⟨by positivity, by linarith⟩,
    live_particles_at_most_137 sampleEnv sampleRng sampleMsgs (fun i => by
      have h : (0 : ℚ) ≤ (i : ℚ) := Nat.cast_nonneg i
      have hpos : (0 : ℚ) < (i : ℚ) + 2 := by linarith
      show 0 ≤ 1 / ((i : ℚ) + 2) ∧ 1 / ((i : ℚ) + 2) < 1
      rw [div_lt_one hpos]
      exact ⟨by positivity, by linarith⟩)⟩

end HarmonicGarden
